import Mathlib

/-!
# Azure worker machine configuration

A shallow embedding of `pkg/controller/worker/machines.go` (the deployment expander
`generateMachineConfig` with its closure `generateMachineClassAndDeployment`, and
`enableAcceleratedNetworking`) and a model of the configuration validator exercised by
`pkg/apis/azure/validation/infrastructure_test.go`, followed by theorems about the
generated machine deployments and machine classes and about the validation errors.

Conventions of the embedding:

* Go `string` and `[]byte` are `String`; `int` and `int32` are `Int`, the conversion
  `int32(x)` is the explicit wrap-around `int32`.
* A Go pointer `*T` is `Option T` (`none` is `nil`); dereferencing `nil` is the failure
  `Failure.nilDereference`.
* A Go slice is `Option (List α)` (`none` is the `nil` slice), `append` is `goAppend`.
* A Go `map[string]T` is a finite lookup function `String → Option T`; assignment
  `m[k] = v` is `GoMap.set`.
* A Go function returning `error` returns `Except Failure _`; external collaborators
  (credential retrieval, decoder, pool hash, image lookup, disk size, zone distribution)
  are fields of `Env`.
-/

namespace AzureWorker

/-! ## Data model -/

/-- Go `intstr.IntOrString`: an absolute count or a percentage string. -/
inductive IntOrString where
  | int (v : Int)
  | str (s : String)
  deriving DecidableEq, Repr

/-- Values stored in a Go `map[string]interface{}` by this file. -/
inductive Value where
  | str (s : String)
  | int (i : Int)
  | bool (b : Bool)
  | strMap (m : String → Option String)
  | map (m : String → Option Value)

/-- Go `map[string]T` as a lookup function. -/
abbrev GoMap (α : Type) := String → Option α

/-- The empty map literal. -/
def GoMap.empty {α : Type} : GoMap α := fun _ => none

/-- Map assignment `m[k] = v`. -/
def GoMap.set {α : Type} (m : GoMap α) (k : String) (v : α) : GoMap α :=
  fun k' => if k' = k then some v else m k'

/-- Assignment through a type assertion, `m[outer].(map[string]interface{})[k] = v`:
the nested map stored under `outer` is updated in place. -/
def GoMap.setIn (m : GoMap Value) (outer k : String) (v : Value) : GoMap Value :=
  match m outer with
  | some (Value.map sub) => m.set outer (Value.map (GoMap.set sub k v))
  | _ => m

/-- Go `append(s, x)` on a possibly nil slice. -/
def goAppend {α : Type} (s : Option (List α)) (x : α) : Option (List α) :=
  some (s.getD [] ++ [x])

/-- The elements of a possibly nil slice. -/
def elems {α : Type} (s : Option (List α)) : List α := s.getD []

/-- Go conversion `int32(x)` of an `int`: two's complement wrap-around. -/
def int32 (x : Int) : Int := (x + 2 ^ 31) % 2 ^ 32 - 2 ^ 31

/-- Failures of the expansion: a returned Go `error`, or a nil pointer dereference. -/
inductive Failure where
  | error (msg : String)
  | nilDereference
  deriving DecidableEq, Repr

structure PoolMachineImage where
  Name : String
  Version : String
  deriving DecidableEq, Repr

structure Volume where
  Size : String
  /-- The Go field `Type`, a reserved word here. -/
  Type_ : Option String
  deriving DecidableEq, Repr

/-- The worker pool of the `Worker` resource. -/
structure WorkerPool where
  Name : String
  Minimum : Int
  Maximum : Int
  MaxSurge : IntOrString
  MaxUnavailable : IntOrString
  Labels : List (String × String)
  Annotations : List (String × String)
  Taints : List String
  Zones : List String
  MachineType : String
  MachineImage : PoolMachineImage
  Volume : Volume
  UserData : String
  deriving DecidableEq, Repr

/-- Go `worker.MachineDeployment`. -/
structure MachineDeployment where
  Name : String
  ClassName : String
  SecretName : String
  Minimum : Int
  Maximum : Int
  MaxSurge : IntOrString
  MaxUnavailable : IntOrString
  Labels : List (String × String)
  Annotations : List (String × String)
  Taints : List String
  deriving DecidableEq, Repr

/-- Go `apisazure.MachineImage`. -/
structure MachineImage where
  Name : String
  Version : String
  URN : Option String
  ID : Option String
  deriving DecidableEq, Repr

structure Subnet where
  Name : String
  Purpose : String
  deriving DecidableEq, Repr

structure VNetStatus where
  Name : String
  ResourceGroup : Option String
  deriving DecidableEq, Repr

structure NetworkStatus where
  VNet : VNetStatus
  Subnets : List Subnet
  deriving DecidableEq, Repr

structure AvailabilitySet where
  Purpose : String
  ID : String
  Name : String
  deriving DecidableEq, Repr

structure ResourceGroup where
  Name : String
  deriving DecidableEq, Repr

structure IdentityStatus where
  ID : String
  deriving DecidableEq, Repr

/-- Go `azureapi.InfrastructureStatus`. -/
structure InfrastructureStatus where
  Networks : NetworkStatus
  ResourceGroup : ResourceGroup
  AvailabilitySets : List AvailabilitySet
  Zoned : Bool
  Identity : Option IdentityStatus
  deriving DecidableEq, Repr

structure MachineImageVersion where
  Version : String
  AcceleratedNetworking : Option Bool
  deriving DecidableEq, Repr

structure MachineImages where
  Name : String
  Versions : List MachineImageVersion
  deriving DecidableEq, Repr

/-- Go `azureapi.CloudProfileConfig`, the fields read by this file. -/
structure CloudProfileConfig where
  MachineImages : List MachineImages
  AcceleratedNetworkingMachineTypes : List String
  deriving DecidableEq, Repr

structure WorkerSpec where
  Region : String
  SSHPublicKey : String
  SecretRef : String
  InfrastructureProviderStatus : String
  Pools : List WorkerPool
  deriving DecidableEq, Repr

structure Worker where
  Namespace : String
  Spec : WorkerSpec
  deriving DecidableEq, Repr

/-- The receiver `w *workerDelegate`: its inputs and its three stored results. -/
structure workerDelegate where
  worker : Worker
  cloudProfileConfig : CloudProfileConfig
  machineDeployments : Option (List MachineDeployment)
  machineClasses : Option (List (GoMap Value))
  machineImages : Option (List MachineImage)

/-- Result of `internal.GetClientAuthData`. -/
structure ClientAuth where
  ClientID : String
  ClientSecret : String
  SubscriptionID : String
  TenantID : String
  deriving DecidableEq, Repr

/-- External collaborators and imported constants of `machines.go`. The cluster argument of
`WorkerPoolHash`, the client and the decoder are fixed inside the corresponding fields. -/
structure Env where
  GetClientAuthData : String → Except String ClientAuth
  Decode : String → Except String InfrastructureStatus
  WorkerPoolHash : WorkerPool → List String → Except String String
  findMachineImage : String → String → Except String (Option String × Option String)
  DiskSize : String → Except String Int
  DistributeOverZones : Int → Int → Int → Int
  DistributePositiveIntOrPercent : Int → IntOrString → Int → Int → IntOrString
  AzureClientID : String
  AzureClientSecret : String
  AzureSubscriptionID : String
  AzureTenantID : String
  ClientIDKey : String
  ClientSecretKey : String
  SubscriptionIDKey : String
  TenantIDKey : String
  GardenerPurpose : String
  GardenPurposeMachineClass : String

/-- Modelled from the spec: the constant `azureapi.PurposeNodes`, declared outside this
file; subnets and availability sets used by the workers are "tagged nodes". -/
def PurposeNodes : String := "nodes"

/-- Modelled from the spec: `azureapihelper.FindSubnetByPurpose`, declared outside this
file: "resolve the subnet tagged nodes from status; fail if absent". -/
def FindSubnetByPurpose (subnets : List Subnet) (purpose : String) : Except String Subnet :=
  match subnets.find? (fun s => s.Purpose == purpose) with
  | some s => .ok s
  | none => .error ("cannot find subnet with purpose " ++ purpose)

/-- Modelled from the spec: `azureapihelper.FindAvailabilitySetByPurpose`, declared outside
this file: "resolve the availability set tagged nodes the same way; fatal if absent". -/
def FindAvailabilitySetByPurpose (sets : List AvailabilitySet) (purpose : String) :
    Except String AvailabilitySet :=
  match sets.find? (fun s => s.Purpose == purpose) with
  | some s => .ok s
  | none => .error ("cannot find availability set with purpose " ++ purpose)

/-- Modelled from the spec: `appendMachineImage`, declared in another file of the package:
"append only if the (name, version) pair is new". -/
def appendMachineImage (machineImages : Option (List MachineImage)) (machineImage : MachineImage) :
    Option (List MachineImage) :=
  if (elems machineImages).any
      (fun i => i.Name == machineImage.Name && i.Version == machineImage.Version) then
    machineImages
  else goAppend machineImages machineImage

/-! ## `enableAcceleratedNetworking` (machines.go, lines 277-304) -/

/-- The inner loop over `image.Versions` (lines 284-292): `none` is the early
`return false`, `some b` the value of `osSupport` after the loop. -/
def versionsLoop (machineImageVersion : String) :
    List MachineImageVersion → Bool → Option Bool
  | [], osSupport => some osSupport
  | imageVersion :: rest, osSupport =>
    if imageVersion.Version = machineImageVersion then
      if imageVersion.AcceleratedNetworking = some true then
        versionsLoop machineImageVersion rest true
      else none
    else versionsLoop machineImageVersion rest osSupport

/-- The outer loop over `cloudProfileConfig.MachineImages` (lines 280-293). -/
def imagesLoop (machineImageName machineImageVersion : String) :
    List MachineImages → Bool → Option Bool
  | [], osSupport => some osSupport
  | image :: rest, osSupport =>
    if image.Name ≠ machineImageName then
      imagesLoop machineImageName machineImageVersion rest osSupport
    else
      match versionsLoop machineImageVersion image.Versions osSupport with
      | none => none
      | some osSupport' => imagesLoop machineImageName machineImageVersion rest osSupport'

def enableAcceleratedNetworking (w : workerDelegate)
    (machineType machineImageName machineImageVersion : String) : Bool :=
  match imagesLoop machineImageName machineImageVersion w.cloudProfileConfig.MachineImages
      false with
  | none => false
  | some osSupport =>
    let machineTypeSupport :=
      w.cloudProfileConfig.AcceleratedNetworkingMachineTypes.any (fun machType => machType == machineType)
    osSupport && machineTypeSupport

/-! ## `generateMachineConfig` (machines.go, lines 66-275) -/

/-- Lines 66-78: the secret data map built from the credentials. -/
def generateMachineClassSecretData (env : Env) (w : workerDelegate) :
    Except Failure (GoMap String) :=
  match env.GetClientAuthData w.worker.Spec.SecretRef with
  | .error err => .error (Failure.error err)
  | .ok credentials =>
    .ok ((((GoMap.empty.set env.AzureClientID credentials.ClientID).set
      env.AzureClientSecret credentials.ClientSecret).set
      env.AzureSubscriptionID credentials.SubscriptionID).set
      env.AzureTenantID credentials.TenantID)

/-- Lines 80-84. -/
structure zoneInfo where
  name : String
  index : Int
  count : Int
  deriving DecidableEq, Repr

/-- The variables of `generateMachineConfig` captured by the closure
`generateMachineClassAndDeployment`, apart from the per-pool ones. -/
structure Captured where
  machineClassSecretData : GoMap String
  infrastructureStatus : InfrastructureStatus
  nodesSubnet : Subnet
  nodesAvailabilitySet : Option AvailabilitySet

/-- Lines 142-157: the OS disk descriptor. -/
def osDiskOf (pool : WorkerPool) (volumeSize : Int) : GoMap Value :=
  let osDisk : GoMap Value := GoMap.empty.set "size" (Value.int volumeSize)
  match pool.Volume.Type_ with
  | some t =>
    if t = "Standard_LRS" ∨ t = "StandardSSD_LRS" ∨ t = "Premium_LRS" then
      osDisk.set "type" (Value.str t)
    else osDisk
  | none => osDisk

/-- Lines 159-164: the image reference; `*id` is dereferenced unguarded. -/
def imageOf (urn id : Option String) : Except Failure (GoMap Value) :=
  match urn with
  | some u => .ok (GoMap.empty.set "urn" (Value.str u))
  | none =>
    match id with
    | some i => .ok (GoMap.empty.set "id" (Value.str i))
    | none => .error Failure.nilDereference

/-- Lines 166-245: the closure `generateMachineClassAndDeployment`. -/
def generateMachineClassAndDeployment (env : Env) (w : workerDelegate) (c : Captured)
    (pool : WorkerPool) (workerPoolHash : String) (image osDisk : GoMap Value)
    (zone : Option zoneInfo) (availabilitySetID : Option String) :
    MachineDeployment × GoMap Value :=
  let infrastructureStatus := c.infrastructureStatus
  let machineDeployment : MachineDeployment :=
    { Name := "", ClassName := "", SecretName := "",
      Minimum := pool.Minimum, Maximum := pool.Maximum,
      MaxSurge := pool.MaxSurge, MaxUnavailable := pool.MaxUnavailable,
      Labels := pool.Labels, Annotations := pool.Annotations, Taints := pool.Taints }
  let networkConfig : GoMap Value :=
    (GoMap.empty.set "vnet" (Value.str infrastructureStatus.Networks.VNet.Name)).set
      "subnet" (Value.str c.nodesSubnet.Name)
  let tags : GoMap Value :=
    ((GoMap.empty.set "Name" (Value.str w.worker.Namespace)).set
      ("kubernetes.io-cluster-" ++ w.worker.Namespace) (Value.str "1")).set
      "kubernetes.io-role-node" (Value.str "1")
  let secret : GoMap Value := GoMap.empty.set "cloudConfig" (Value.str pool.UserData)
  let machineClassSpec : GoMap Value :=
    (((((((GoMap.empty.set "region" (Value.str w.worker.Spec.Region)).set
      "resourceGroup" (Value.str infrastructureStatus.ResourceGroup.Name)).set
      "tags" (Value.map tags)).set
      "secret" (Value.map secret)).set
      "machineType" (Value.str pool.MachineType)).set
      "image" (Value.map image)).set
      "osDisk" (Value.map osDisk)).set
      "sshPublicKey" (Value.str w.worker.Spec.SSHPublicKey)
  let machineClassSpec :=
    match infrastructureStatus.Networks.VNet.ResourceGroup with
    | some rg => machineClassSpec.set "vnetResourceGroup" (Value.str rg)
    | none => machineClassSpec
  let networkConfig :=
    if enableAcceleratedNetworking w pool.MachineType pool.MachineImage.Name
        pool.MachineImage.Version then
      networkConfig.set "acceleratedNetworking" (Value.bool true)
    else networkConfig
  let machineClassSpec := machineClassSpec.set "network" (Value.map networkConfig)
  let machineDeployment :=
    match zone with
    | some zone =>
      { machineDeployment with
        Minimum := env.DistributeOverZones zone.index pool.Minimum zone.count
        Maximum := env.DistributeOverZones zone.index pool.Maximum zone.count
        MaxSurge :=
          env.DistributePositiveIntOrPercent zone.index pool.MaxSurge zone.count pool.Maximum
        MaxUnavailable :=
          env.DistributePositiveIntOrPercent zone.index pool.MaxUnavailable zone.count
            pool.Minimum }
    | none => machineDeployment
  let machineClassSpec :=
    match zone with
    | some zone => machineClassSpec.set "zone" (Value.str zone.name)
    | none => machineClassSpec
  let machineClassSpec :=
    match availabilitySetID with
    | some id => machineClassSpec.set "availabilitySetID" (Value.str id)
    | none => machineClassSpec
  let machineClassSpec :=
    match infrastructureStatus.Identity with
    | some identity => machineClassSpec.set "identityID" (Value.str identity.ID)
    | none => machineClassSpec
  let deploymentName := w.worker.Namespace ++ "-" ++ pool.Name
  let className := deploymentName ++ "-" ++ workerPoolHash
  let deploymentName :=
    match zone with
    | some zone => deploymentName ++ "-z" ++ zone.name
    | none => deploymentName
  let className :=
    match zone with
    | some zone => className ++ "-z" ++ zone.name
    | none => className
  let machineDeployment :=
    { machineDeployment with
      Name := deploymentName, ClassName := className, SecretName := className }
  let machineClassSpec := machineClassSpec.set "name" (Value.str className)
  let machineClassSpec := machineClassSpec.set "labels"
    (Value.strMap (GoMap.empty.set env.GardenerPurpose env.GardenPurposeMachineClass))
  let machineClassSpec := machineClassSpec.setIn "secret" env.ClientIDKey
    (Value.str ((c.machineClassSecretData env.AzureClientID).getD ""))
  let machineClassSpec := machineClassSpec.setIn "secret" env.ClientSecretKey
    (Value.str ((c.machineClassSecretData env.AzureClientSecret).getD ""))
  let machineClassSpec := machineClassSpec.setIn "secret" env.SubscriptionIDKey
    (Value.str ((c.machineClassSecretData env.AzureSubscriptionID).getD ""))
  let machineClassSpec := machineClassSpec.setIn "secret" env.TenantIDKey
    (Value.str ((c.machineClassSecretData env.AzureTenantID).getD ""))
  (machineDeployment, machineClassSpec)

/-- The three accumulators of the loop over the pools. -/
structure Acc where
  machineDeployments : Option (List MachineDeployment)
  machineClasses : Option (List (GoMap Value))
  machineImages : Option (List MachineImage)

/-- Lines 257-267: the loop over `pool.Zones`, `zoneIndex` counting from its argument. -/
def zonesLoop (gen : Option zoneInfo → Option String → MachineDeployment × GoMap Value)
    (zoneCount : Int) : List String → Nat → Acc → Acc
  | [], _, acc => acc
  | zone :: rest, zoneIndex, acc =>
    let info : zoneInfo :=
      { name := zone, index := int32 (zoneIndex : Int), count := int32 zoneCount }
    let r := gen (some info) none
    zonesLoop gen zoneCount rest (zoneIndex + 1)
      { acc with
        machineDeployments := goAppend acc.machineDeployments r.1
        machineClasses := goAppend acc.machineClasses r.2 }

/-- Lines 118-121: the extra hash input: the identity ID when the status has one. -/
def additionalDataOf (infrastructureStatus : InfrastructureStatus) : List String :=
  match infrastructureStatus.Identity with
  | some identity => [identity.ID]
  | none => []

/-- Lines 118-267: the body of the loop over the pools, for one pool. -/
def poolBody (env : Env) (w : workerDelegate) (c : Captured) (pool : WorkerPool) (acc : Acc) :
    Except Failure Acc :=
  let infrastructureStatus := c.infrastructureStatus
  let additionalData : List String := additionalDataOf infrastructureStatus
  match env.WorkerPoolHash pool additionalData with
  | .error err => .error (Failure.error err)
  | .ok workerPoolHash =>
  match env.findMachineImage pool.MachineImage.Name pool.MachineImage.Version with
  | .error err => .error (Failure.error err)
  | .ok found =>
  let urn := found.1
  let id := found.2
  let machineImages := appendMachineImage acc.machineImages
    { Name := pool.MachineImage.Name, Version := pool.MachineImage.Version, URN := urn, ID := id }
  match env.DiskSize pool.Volume.Size with
  | .error err => .error (Failure.error err)
  | .ok volumeSize =>
  let osDisk := osDiskOf pool volumeSize
  match imageOf urn id with
  | .error f => .error f
  | .ok image =>
  let gen := generateMachineClassAndDeployment env w c pool workerPoolHash image osDisk
  if !infrastructureStatus.Zoned then
    match c.nodesAvailabilitySet with
    | none => .error Failure.nilDereference
    | some nodesAvailabilitySet =>
      let r := gen none (some nodesAvailabilitySet.ID)
      .ok { machineDeployments := goAppend acc.machineDeployments r.1
            machineClasses := goAppend acc.machineClasses r.2
            machineImages := machineImages }
  else
    let zoneCount : Int := (pool.Zones.length : Int)
    .ok (zonesLoop gen zoneCount pool.Zones 0
      { machineDeployments := acc.machineDeployments
        machineClasses := acc.machineClasses
        machineImages := machineImages })

/-- Lines 117-268: the loop over `w.worker.Spec.Pools`. -/
def poolsLoop (env : Env) (w : workerDelegate) (c : Captured) :
    List WorkerPool → Acc → Except Failure Acc
  | [], acc => .ok acc
  | pool :: rest, acc =>
    match poolBody env w c pool acc with
    | .error f => .error f
    | .ok acc' => poolsLoop env w c rest acc'

/-- Lines 87-268: everything `generateMachineConfig` computes in local variables before
it assigns to the receiver. -/
def generateMachineConfigLocals (env : Env) (w : workerDelegate) : Except Failure Acc :=
  match generateMachineClassSecretData env w with
  | .error f => .error f
  | .ok machineClassSecretData =>
  match env.Decode w.worker.Spec.InfrastructureProviderStatus with
  | .error err => .error (Failure.error err)
  | .ok infrastructureStatus =>
  match FindSubnetByPurpose infrastructureStatus.Networks.Subnets PurposeNodes with
  | .error err => .error (Failure.error err)
  | .ok nodesSubnet =>
  let findSet : Except Failure (Option AvailabilitySet) :=
    if !infrastructureStatus.Zoned then
      match FindAvailabilitySetByPurpose infrastructureStatus.AvailabilitySets PurposeNodes with
      | .error err => .error (Failure.error err)
      | .ok s => .ok (some s)
    else .ok none
  match findSet with
  | .error f => .error f
  | .ok nodesAvailabilitySet =>
  poolsLoop env w
    { machineClassSecretData := machineClassSecretData
      infrastructureStatus := infrastructureStatus
      nodesSubnet := nodesSubnet
      nodesAvailabilitySet := nodesAvailabilitySet }
    w.worker.Spec.Pools
    { machineDeployments := some [], machineClasses := none, machineImages := none }

/-- Lines 86-275: `generateMachineConfig`. The result is the receiver after the call
together with the returned error (`.ok ()` is `nil`); the receiver is assigned only in
lines 270-272. -/
def generateMachineConfig (env : Env) (w : workerDelegate) :
    workerDelegate × Except Failure Unit :=
  match generateMachineConfigLocals env w with
  | .error f => (w, .error f)
  | .ok acc =>
    ({ w with
       machineDeployments := acc.machineDeployments
       machineClasses := acc.machineClasses
       machineImages := acc.machineImages }, .ok ())

/-! ## Closed forms of the loops -/

/-- The units the zone loop appends, in order. -/
def zoneUnits (gen : Option zoneInfo → Option String → MachineDeployment × GoMap Value)
    (zoneCount : Int) : List String → Nat → List (MachineDeployment × GoMap Value)
  | [], _ => []
  | zone :: rest, zoneIndex =>
    gen (some { name := zone, index := int32 (zoneIndex : Int), count := int32 zoneCount }) none
      :: zoneUnits gen zoneCount rest (zoneIndex + 1)

/-- The units one pool contributes when its loop body succeeds (and `[]` otherwise). -/
def poolUnits (env : Env) (w : workerDelegate) (c : Captured) (pool : WorkerPool) :
    List (MachineDeployment × GoMap Value) :=
  match env.WorkerPoolHash pool (additionalDataOf c.infrastructureStatus),
      env.findMachineImage pool.MachineImage.Name pool.MachineImage.Version,
      env.DiskSize pool.Volume.Size with
  | .ok workerPoolHash, .ok found, .ok volumeSize =>
    match imageOf found.1 found.2 with
    | .ok image =>
      let gen := generateMachineClassAndDeployment env w c pool workerPoolHash image
        (osDiskOf pool volumeSize)
      if c.infrastructureStatus.Zoned then
        zoneUnits gen (pool.Zones.length : Int) pool.Zones 0
      else
        match c.nodesAvailabilitySet with
        | some nodesAvailabilitySet => [gen none (some nodesAvailabilitySet.ID)]
        | none => []
    | .error _ => []
  | _, _, _ => []

/-- The fingerprint of a pool: the value of the pool hash (empty when the hash fails). -/
def fingerprint (env : Env) (infrastructureStatus : InfrastructureStatus) (pool : WorkerPool) :
    String :=
  match env.WorkerPoolHash pool (additionalDataOf infrastructureStatus) with
  | .ok h => h
  | .error _ => ""

/-- What a successful loop body tells about one pool: every collaborator answered, and
the pool's units are those of its zones (zoned) or the single availability-set unit. -/
def PoolShape (env : Env) (w : workerDelegate) (c : Captured) (pool : WorkerPool) : Prop :=
  ∃ hash found size image,
    env.WorkerPoolHash pool (additionalDataOf c.infrastructureStatus) = .ok hash
    ∧ env.findMachineImage pool.MachineImage.Name pool.MachineImage.Version = .ok found
    ∧ env.DiskSize pool.Volume.Size = .ok size
    ∧ imageOf found.1 found.2 = .ok image
    ∧ fingerprint env c.infrastructureStatus pool = hash
    ∧ ((c.infrastructureStatus.Zoned = true
          ∧ poolUnits env w c pool
            = zoneUnits (generateMachineClassAndDeployment env w c pool hash image
                (osDiskOf pool size)) (pool.Zones.length : Int) pool.Zones 0)
        ∨ (c.infrastructureStatus.Zoned = false
          ∧ ∃ s, c.nodesAvailabilitySet = some s
            ∧ poolUnits env w c pool
              = [generateMachineClassAndDeployment env w c pool hash image
                  (osDiskOf pool size) none (some s.ID)]))

/-- The captured variables of a run whose status decodes to `st`: the secret data is
whatever the credentials give, the subnet and availability set are the resolved ones. -/
def CapturedFor (env : Env) (w : workerDelegate) (st : InfrastructureStatus) (c : Captured) :
    Prop :=
  generateMachineClassSecretData env w = .ok c.machineClassSecretData
  ∧ c.infrastructureStatus = st
  ∧ FindSubnetByPurpose st.Networks.Subnets PurposeNodes = .ok c.nodesSubnet
  ∧ (st.Zoned = false → ∃ s, c.nodesAvailabilitySet = some s
      ∧ FindAvailabilitySetByPurpose st.AvailabilitySets PurposeNodes = .ok s)
  ∧ (st.Zoned = true → c.nodesAvailabilitySet = none)

/-- The deployment and class names of lines 222-229. -/
def deploymentNameOf (ns poolName : String) (zone : Option String) : String :=
  match zone with
  | some z => ns ++ "-" ++ poolName ++ "-z" ++ z
  | none => ns ++ "-" ++ poolName

def classNameOf (ns poolName hash : String) (zone : Option String) : String :=
  match zone with
  | some z => ns ++ "-" ++ poolName ++ "-" ++ hash ++ "-z" ++ z
  | none => ns ++ "-" ++ poolName ++ "-" ++ hash

/-- The name pair (deployment name, value under the class key `name`) the naming rule
prescribes for one pool: one pair without suffix when unzoned, one pair per zone with the
suffix `-z<zone>` when zoned. -/
def expectedNames (ns : String) (zoned : Bool) (hash : String) (pool : WorkerPool) :
    List (String × Option Value) :=
  if zoned then
    pool.Zones.map (fun z =>
      (ns ++ "-" ++ pool.Name ++ "-z" ++ z,
        some (Value.str (ns ++ "-" ++ pool.Name ++ "-" ++ hash ++ "-z" ++ z))))
  else
    [(ns ++ "-" ++ pool.Name, some (Value.str (ns ++ "-" ++ pool.Name ++ "-" ++ hash)))]

/-! ## A concrete run -/

/-- Sample `worker.DistributeOverZones`: the share of zone `zoneIndex` of `size` spread
over `zoneSize` zones. -/
def sampleDistributeOverZones (zoneIndex size zoneSize : Int) : Int :=
  size / zoneSize + (if zoneIndex < size % zoneSize then 1 else 0)

/-- Leading decimal digits of a percentage such as `50%`. -/
def leadingDigits : List Char → Nat → Nat
  | [], n => n
  | ch :: rest, n =>
    if ch.isDigit then leadingDigits rest (10 * n + (ch.toNat - 48)) else n

/-- Sample `worker.DistributePositiveIntOrPercent`: a count is spread over the zones; a
percentage is first resolved against `total` (rounding up), then spread. -/
def sampleDistributePositiveIntOrPercent (zoneIndex : Int) (v : IntOrString)
    (zoneSize total : Int) : IntOrString :=
  match v with
  | .int n => .int (sampleDistributeOverZones zoneIndex n zoneSize)
  | .str s =>
    .int (sampleDistributeOverZones zoneIndex
      (((leadingDigits s.data 0 : Nat) * total + 99) / 100) zoneSize)

def sampleStatus (zoned : Bool) : InfrastructureStatus :=
  { Networks :=
      { VNet := { Name := "vnet", ResourceGroup := none }
        Subnets := [{ Name := "internal", Purpose := "internal" },
                    { Name := "nodes-subnet", Purpose := "nodes" }] }
    ResourceGroup := { Name := "rg" }
    AvailabilitySets := [{ Purpose := "nodes", ID := "as-id", Name := "as" }]
    Zoned := zoned
    Identity := none }

/-- Sample collaborators; the hash of a pool is `h` followed by the pool's name. -/
def sampleEnv (zoned : Bool) : Env :=
  { GetClientAuthData := fun _ =>
      .ok { ClientID := "id", ClientSecret := "pw", SubscriptionID := "sub", TenantID := "ten" }
    Decode := fun _ => .ok (sampleStatus zoned)
    WorkerPoolHash := fun pool _ => .ok ("h" ++ pool.Name)
    findMachineImage := fun _ _ => .ok (some "publisher:offer:sku:1.0", none)
    DiskSize := fun _ => .ok 50
    DistributeOverZones := sampleDistributeOverZones
    DistributePositiveIntOrPercent := sampleDistributePositiveIntOrPercent
    AzureClientID := "azureClientId"
    AzureClientSecret := "azureClientSecret"
    AzureSubscriptionID := "azureSubscriptionId"
    AzureTenantID := "azureTenantId"
    ClientIDKey := "clientID"
    ClientSecretKey := "clientSecret"
    SubscriptionIDKey := "subscriptionID"
    TenantIDKey := "tenantID"
    GardenerPurpose := "gardener.cloud/purpose"
    GardenPurposeMachineClass := "machineclass" }

def samplePool (name : String) (zones : List String) : WorkerPool :=
  { Name := name, Minimum := 2, Maximum := 6
    MaxSurge := .int 1, MaxUnavailable := .str "50%"
    Labels := [], Annotations := [], Taints := []
    Zones := zones, MachineType := "Standard_D2_v3"
    MachineImage := { Name := "coreos", Version := "1.0" }
    Volume := { Size := "50Gi", Type_ := some "Standard_LRS" }
    UserData := "data" }

/-- A delegate with two pools and nothing stored yet. -/
def sampleDelegate : workerDelegate :=
  { worker :=
      { Namespace := "shoot"
        Spec :=
          { Region := "westeurope", SSHPublicKey := "key", SecretRef := "secret"
            InfrastructureProviderStatus := "raw"
            Pools := [samplePool "a" ["1", "2", "3"], samplePool "b" ["2"]] } }
    cloudProfileConfig := { MachineImages := [], AcceleratedNetworkingMachineTypes := [] }
    machineDeployments := none
    machineClasses := none
    machineImages := none }

/-- The deployment names one pool must yield: its bare name when unzoned, one name per
zone, in the order of the zones, when zoned. -/
def expectedDeploymentNames (ns : String) (zoned : Bool) (pool : WorkerPool) : List String :=
  if zoned then pool.Zones.map (fun z => ns ++ "-" ++ pool.Name ++ "-z" ++ z)
  else [ns ++ "-" ++ pool.Name]

/-- The four sizes of a deployment: minimum, maximum, surge, unavailable. -/
def sizesOf (d : MachineDeployment) : Int × Int × IntOrString × IntOrString :=
  (d.Minimum, d.Maximum, d.MaxSurge, d.MaxUnavailable)

/-- The sizes lines 208-211 give the zones of a pool, zone after zone: minimum and maximum
spread by `DistributeOverZones`, surge spread with the pool maximum as reference total and
unavailable spread with the pool minimum as reference total. `conv` is the conversion
applied to the zone index and the zone count. -/
def zoneShares (env : Env) (conv : Int → Int) (pool : WorkerPool) :
    List (Int × Int × IntOrString × IntOrString) :=
  pool.Zones.enum.map (fun iz =>
    (env.DistributeOverZones (conv (iz.1 : Int)) pool.Minimum (conv (pool.Zones.length : Int)),
     env.DistributeOverZones (conv (iz.1 : Int)) pool.Maximum (conv (pool.Zones.length : Int)),
     env.DistributePositiveIntOrPercent (conv (iz.1 : Int)) pool.MaxSurge
       (conv (pool.Zones.length : Int)) pool.Maximum,
     env.DistributePositiveIntOrPercent (conv (iz.1 : Int)) pool.MaxUnavailable
       (conv (pool.Zones.length : Int)) pool.Minimum))

/-- The sizes as the specification words them: the pool maximum is the reference total
for both surge and unavailable. -/
def zoneSharesMaximumReference (env : Env) (pool : WorkerPool) :
    List (Int × Int × IntOrString × IntOrString) :=
  pool.Zones.enum.map (fun iz =>
    (env.DistributeOverZones (iz.1 : Int) pool.Minimum (pool.Zones.length : Int),
     env.DistributeOverZones (iz.1 : Int) pool.Maximum (pool.Zones.length : Int),
     env.DistributePositiveIntOrPercent (iz.1 : Int) pool.MaxSurge
       (pool.Zones.length : Int) pool.Maximum,
     env.DistributePositiveIntOrPercent (iz.1 : Int) pool.MaxUnavailable
       (pool.Zones.length : Int) pool.Maximum))

/-- Sample collaborators whose pool hash fails for the pool named `b`. -/
def failingHashEnv : Env :=
  { sampleEnv true with
    WorkerPoolHash := fun pool _ =>
      if pool.Name = "b" then .error "hash failed" else .ok ("h" ++ pool.Name) }

/-- A delegate that already stores results of an earlier run. -/
def storedDelegate : workerDelegate :=
  { sampleDelegate with
    machineDeployments := some []
    machineClasses := some [GoMap.empty.set "name" (Value.str "old")]
    machineImages := some [{ Name := "coreos", Version := "0.9", URN := none, ID := some "i" }] }

/-- The delegate with another list of pools. -/
def withPools (w : workerDelegate) (pools : List WorkerPool) : workerDelegate :=
  { w with worker := { w.worker with Spec := { w.worker.Spec with Pools := pools } } }

/-- The collaborators with the decoder answering `st` for every input. -/
def withStatus (env : Env) (st : InfrastructureStatus) : Env :=
  { env with Decode := fun _ => .ok st }

/-- A status whose only subnet is not a nodes subnet. -/
def noNodesSubnetStatus : InfrastructureStatus :=
  { sampleStatus false with
    Networks :=
      { VNet := { Name := "vnet", ResourceGroup := none }
        Subnets := [{ Name := "internal", Purpose := "internal" }] } }

/-! ## OS disk and image reference -/

/-- The pool with another volume type. -/
def withVolumeType (pool : WorkerPool) (t : Option String) : WorkerPool :=
  { pool with Volume := { pool.Volume with Type_ := t } }

/-- The volume types the machine class accepts (line 154). -/
def validVolumeType (t : String) : Prop :=
  t = "Standard_LRS" ∨ t = "StandardSSD_LRS" ∨ t = "Premium_LRS"

/-- The parsed volume size of a pool: the value of the disk size collaborator (zero when it
fails). -/
def volumeSizeOf (env : Env) (pool : WorkerPool) : Int :=
  match env.DiskSize pool.Volume.Size with
  | .ok n => n
  | .error _ => 0

/-- The number of units a pool contributes: one per zone when zoned, else one. -/
def unitCount (zoned : Bool) (pool : WorkerPool) : Nat :=
  if zoned then pool.Zones.length else 1

/-! ## A cloud profile -/

/-- A delegate whose cloud profile lists the image `coreos` twice: version `1.0` with the
accelerated networking flag set to true, version `2.0` with the flag unset. -/
def profileDelegate : workerDelegate :=
  { sampleDelegate with
    cloudProfileConfig :=
      { MachineImages :=
          [{ Name := "coreos"
             Versions := [{ Version := "1.0", AcceleratedNetworking := some true },
                          { Version := "2.0", AcceleratedNetworking := none }] }]
        AcceleratedNetworkingMachineTypes := ["Standard_D2_v3"] } }

/-! ## Distinct names -/

/-- A string without the separator `-`. -/
abbrev dashFree (s : String) : Prop := '-' ∉ s.data

/-- The class names one pool must yield, see `expectedDeploymentNames`. -/
def expectedClassNames (ns : String) (zoned : Bool) (hash : String) (pool : WorkerPool) :
    List String :=
  if zoned then pool.Zones.map (fun z => ns ++ "-" ++ pool.Name ++ "-" ++ hash ++ "-z" ++ z)
  else [ns ++ "-" ++ pool.Name ++ "-" ++ hash]

/-- Two pools with distinct names, `a` with the zone `1-z2` and `a-z1` with the zone `2`. -/
def dashedZonesDelegate : workerDelegate :=
  withPools sampleDelegate [samplePool "a" ["1-z2"], samplePool "a-z1" ["2"]]

/-- Two pools with distinct names, `a` and `a-b`. -/
def dashedPoolsDelegate : workerDelegate :=
  withPools sampleDelegate [samplePool "a" [], samplePool "a-b" []]

/-- Sample collaborators for an unzoned status whose pool hash is `b-c` for the pool `a`
and `c` for every other pool. -/
def dashedHashEnv : Env :=
  { sampleEnv false with
    WorkerPoolHash := fun pool _ => if pool.Name = "a" then .ok "b-c" else .ok "c" }

/-! ## `GenerateMachineDeployments` (machines.go, lines 56-64) -/

/-- Lines 56-64: the stored deployments are generated only when none are stored yet; the
result is the receiver after the call with the returned pair (`.ok l` is `l, nil`). -/
def GenerateMachineDeployments (env : Env) (w : workerDelegate) :
    workerDelegate × Except Failure (Option (List MachineDeployment)) :=
  match w.machineDeployments with
  | none =>
    match generateMachineConfig env w with
    | (w', .error err) => (w', .error err)
    | (w', .ok _) => (w', .ok w'.machineDeployments)
  | some _ => (w, .ok w.machineDeployments)

/-! ## Sums over the zones -/

/-- The block of deployments generated for one zoned pool with `n` zones: it has `n`
deployments, whose minimum and maximum are the shares of `pool.Minimum` and `pool.Maximum`
for the indices `0 .. n-1` in order (index and count passed as `int32`); and when
`1 ≤ n < 2^31` the minimums sum to `pool.Minimum` and the maximums to `pool.Maximum`. -/
def ZoneBlock (env : Env) (pool : WorkerPool) (block : List MachineDeployment) : Prop :=
  block.length = pool.Zones.length
  ∧ block.map (fun d => d.Minimum)
      = (List.range pool.Zones.length).map (fun i : Nat =>
          env.DistributeOverZones (int32 (i : Int)) pool.Minimum
            (int32 (pool.Zones.length : Int)))
  ∧ block.map (fun d => d.Maximum)
      = (List.range pool.Zones.length).map (fun i : Nat =>
          env.DistributeOverZones (int32 (i : Int)) pool.Maximum
            (int32 (pool.Zones.length : Int)))
  ∧ (1 ≤ pool.Zones.length → (pool.Zones.length : Int) < 2 ^ 31 →
      (block.map (fun d => d.Minimum)).sum = pool.Minimum
      ∧ (block.map (fun d => d.Maximum)).sum = pool.Maximum)

/-- The contract of the distribution collaborator: over `n ≥ 1` zones (a count that fits
`int32`) the shares of the indices `0 .. n-1` sum to the distributed value. -/
def SharesSumUp (distribute : Int → Int → Int → Int) : Prop :=
  ∀ (n : Nat) (v : Int), 1 ≤ n → (n : Int) < 2 ^ 31 →
    ((List.range n).map (fun i : Nat => distribute (i : Int) v (n : Int))).sum = v

/-! ## Image reference -/

/-- The image reference of a pool: the map lines 159-164 build from what the image lookup
returns for the pool's image (the empty map when the lookup or the construction fails). -/
def imageRefOf (env : Env) (pool : WorkerPool) : GoMap Value :=
  match env.findMachineImage pool.MachineImage.Name pool.MachineImage.Version with
  | .ok found =>
    match imageOf found.1 found.2 with
    | .ok image => image
    | .error _ => GoMap.empty
  | .error _ => GoMap.empty

/-- The contract of the image lookup: a successful lookup returns a URN or an ID. -/
def ImageContract (env : Env) : Prop :=
  ∀ name version found, env.findMachineImage name version = .ok found →
    found.1.isSome = true ∨ found.2.isSome = true

/-- Sample collaborators whose image lookup returns an ID and no URN. -/
def imageIdEnv : Env :=
  { sampleEnv false with findMachineImage := fun _ _ => .ok (none, some "image-id") }

/-- A delegate whose cloud profile lists the image `coreos` in two entries that both carry
the version `1.0`: one with the accelerated networking flag true, one with the flag false. -/
def conflictingProfileDelegate : workerDelegate :=
  { sampleDelegate with
    cloudProfileConfig :=
      { MachineImages :=
          [{ Name := "coreos"
             Versions := [{ Version := "1.0", AcceleratedNetworking := some true }] },
           { Name := "coreos"
             Versions := [{ Version := "1.0", AcceleratedNetworking := some false }] }]
        AcceleratedNetworkingMachineTypes := ["Standard_D2_v3"] } }

/-! ## Pools without zones -/

/-- Three pools, the middle one (`e`) without zones. -/
def emptyZonesDelegate : workerDelegate :=
  withPools sampleDelegate
    [samplePool "a" ["1", "2"], samplePool "e" [], samplePool "b" ["2"]]

/-- Sample collaborators for a zoned status whose pool hash fails for the pool named `e`. -/
def emptyZonesFailingEnv : Env :=
  { sampleEnv true with
    WorkerPoolHash := fun pool _ =>
      if pool.Name = "e" then .error "hash failed" else .ok ("h" ++ pool.Name) }

/-- The accumulators at the start of the loop over the pools (lines 88-90). -/
def initialAcc : Acc :=
  { machineDeployments := some [], machineClasses := none, machineImages := none }

/-! ## Volume types and the pool hash -/

/-- Sample collaborators for a zoned status whose pool hash covers the volume type: `h`
followed by the pool's name and its volume type. -/
def volumeHashEnv : Env :=
  { sampleEnv true with
    WorkerPoolHash := fun pool _ => .ok ("h" ++ pool.Name ++ pool.Volume.Type_.getD "") }

/-- Captured variables of a zoned run on the sample status. -/
def sampleCaptured : Captured :=
  { machineClassSecretData := GoMap.empty
    infrastructureStatus := sampleStatus true
    nodesSubnet := { Name := "nodes-subnet", Purpose := "nodes" }
    nodesAvailabilitySet := none }

/-- The delegate with the volume type of every pool replaced by `f pool`. -/
def withVolumeTypes (w : workerDelegate) (f : WorkerPool → Option String) : workerDelegate :=
  withPools w (w.worker.Spec.Pools.map (fun p => withVolumeType p (f p)))

/-! ## Infrastructure configuration validation

`pkg/apis/azure/validation` is represented under `src/` by its tests only
(`infrastructure_test.go`); the validator and the CIDR helpers it calls are modelled from
section 4.1 of the specification. -/

namespace Validation

structure VNet where
  Name : Option String
  ResourceGroup : Option String
  CIDR : Option String
  deriving DecidableEq, Repr

structure AzResourceReference where
  Name : String
  ResourceGroup : String
  deriving DecidableEq, Repr

structure NatGatewayConfig where
  Enabled : Bool
  IPAddresses : List AzResourceReference
  IPAddressRanges : List AzResourceReference
  deriving DecidableEq, Repr

structure NetworkConfig where
  VNet : VNet
  Workers : String
  NatGateway : Option NatGatewayConfig
  deriving DecidableEq, Repr

structure ResourceGroup where
  Name : String
  deriving DecidableEq, Repr

structure IdentityConfig where
  Name : String
  ResourceGroup : String
  deriving DecidableEq, Repr

/-- Go `apisazure.InfrastructureConfig` as the tests build it. -/
structure InfrastructureConfig where
  ResourceGroup : Option ResourceGroup
  Networks : NetworkConfig
  Identity : Option IdentityConfig
  Zoned : Bool
  deriving DecidableEq, Repr

/-- The two severities of a validation error. -/
inductive ErrorType where
  | invalid
  | forbidden
  deriving DecidableEq, Repr

/-- A validation error: severity, field path and detail (the fields the tests match). -/
structure FieldError where
  Type_ : ErrorType
  Field : String
  Detail : String
  deriving DecidableEq, Repr

/-- Go `field.Invalid(path, value, detail)`. -/
def invalid (field detail : String) : FieldError :=
  { Type_ := ErrorType.invalid, Field := field, Detail := detail }

/-- Go `fldPath.Child(name)` rendered as a string: a nil base path contributes nothing. -/
def child (fldPath : Option String) (name : String) : String :=
  match fldPath with
  | none => name
  | some root => root ++ "." ++ name

/-! ### CIDR arithmetic -/

/-- An IPv4 block: the address as written (host bits included) and the prefix length. -/
structure CIDR where
  ip : Nat
  bits : Nat
  deriving DecidableEq, Repr

/-- Split a character list at every occurrence of `sep`. -/
def splitAt (sep : Char) : List Char → List (List Char)
  | [] => [[]]
  | ch :: rest =>
    if ch = sep then [] :: splitAt sep rest
    else
      match splitAt sep rest with
      | [] => [[ch]]
      | first :: more => (ch :: first) :: more

/-- A decimal number of one to three digits. -/
def parseDecimal (cs : List Char) : Option Nat :=
  if cs.length = 0 ∨ 3 < cs.length then none
  else if cs.all Char.isDigit then
    some (cs.foldl (fun acc ch => 10 * acc + (ch.toNat - 48)) 0)
  else none

/-- One octet: a decimal number up to 255. -/
def parseOctet (cs : List Char) : Option Nat :=
  match parseDecimal cs with
  | some n => if n ≤ 255 then some n else none
  | none => none

/-- Modelled from the spec: the CIDR parser of the validation helpers, which is outside
`src/`: "CIDR: a network address plus prefix length denoting an IP range". The model reads
the dotted-quad form `a.b.c.d/len` with `len ≤ 32`, the form of every CIDR in the
specification and in the tests; anything else is syntactically invalid. -/
def ParseCIDR (s : String) : Option CIDR :=
  match splitAt '/' s.data with
  | [addr, len] =>
    match splitAt '.' addr with
    | [a, b, c, d] =>
      match parseOctet a, parseOctet b, parseOctet c, parseOctet d, parseDecimal len with
      | some a, some b, some c, some d, some len =>
        if len ≤ 32 then some { ip := ((a * 256 + b) * 256 + c) * 256 + d, bits := len }
        else none
      | _, _, _, _, _ => none
    | _ => none
  | _ => none

/-- The network address: the address with its host bits cleared. -/
def CIDR.network (c : CIDR) : Nat :=
  c.ip / 2 ^ (32 - c.bits) * 2 ^ (32 - c.bits)

/-- A number below 1000 in decimal. -/
def renderDecimal (n : Nat) : String :=
  if n < 10 then String.mk [Nat.digitChar n]
  else if n < 100 then String.mk [Nat.digitChar (n / 10), Nat.digitChar (n % 10)]
  else String.mk [Nat.digitChar (n / 100), Nat.digitChar (n / 10 % 10), Nat.digitChar (n % 10)]

/-- Modelled from the spec: "the normalized network address/prefix form" of a block. -/
def CIDR.normalized (c : CIDR) : String :=
  renderDecimal (c.network / 256 ^ 3 % 256) ++ "." ++ renderDecimal (c.network / 256 ^ 2 % 256)
    ++ "." ++ renderDecimal (c.network / 256 % 256) ++ "." ++ renderDecimal (c.network % 256)
    ++ "/" ++ renderDecimal c.bits

/-- Modelled from the spec: range containment, "sub is a subset of sup": `sup` is at most as
specific as `sub` and the two agree on the bits `sup` fixes. -/
def CIDR.subsetOf (sub sup : CIDR) : Bool :=
  sup.bits ≤ sub.bits && sub.ip / 2 ^ (32 - sup.bits) == sup.ip / 2 ^ (32 - sup.bits)

/-- Modelled from the spec: the syntax check, "must be a syntactically valid CIDR (else
`invalid CIDR address: <value>`)". -/
def validateParse (field value : String) : List FieldError :=
  match ParseCIDR value with
  | some _ => []
  | none => [invalid field ("invalid CIDR address: " ++ value)]

/-- Modelled from the spec: the canonical-form check, "the literal input string must equal
the normalized network address/prefix form (else `must be valid canonical CIDR`)"; a string
that does not parse is reported by the syntax check only. -/
def validateCanonical (field value : String) : List FieldError :=
  match ParseCIDR value with
  | some c => if value = c.normalized then [] else [invalid field "must be valid canonical CIDR"]
  | none => []

/-- Modelled from the spec: the containment check of `sub` (at `field`) in the block given
by the string `sup` at path `supPath`; it is skipped when either string does not parse. -/
def validateSubset (field sub supPath sup : String) : List FieldError :=
  match ParseCIDR sub, ParseCIDR sup with
  | some a, some b =>
    if a.subsetOf b then []
    else [invalid field ("must be a subset of \"" ++ supPath ++ "\" (\"" ++ sup ++ "\")")]
  | _, _ => []

/-- Modelled from the spec: the disjointness check of a pod or service block against the
VNet block; the error has the empty field path. -/
def validateNotSubset (sub : Option String) (supPath sup : String) : List FieldError :=
  match sub with
  | none => []
  | some sub =>
    match ParseCIDR sub, ParseCIDR sup with
    | some a, some b =>
      if a.subsetOf b then
        [invalid "" ("must not be a subset of \"" ++ supPath ++ "\" (\"" ++ sup ++ "\")")]
      else []
    | _, _ => []

/-! ### The create-path validator -/

/-- Modelled from the spec: the VNet rules of section 4.1, checked in the order of the list,
each under its own condition, all errors accumulating ("validator never short-circuits on
first failure"). A partial existing VNet (exactly one of name and resource group) is
reported on the VNet path; a complete existing VNet is reported for carrying a CIDR and for
sharing the cluster resource group; a CIDR that is set is checked for syntax and canonical
form; without CIDR no CIDR check runs. -/
def validateVnetConfig (vnet : VNet) (resourceGroup : Option ResourceGroup)
    (vnetPath : String) : List FieldError :=
  (if vnet.Name.isSome ≠ vnet.ResourceGroup.isSome then
      [invalid vnetPath
        "specifying an existing vnet name require a vnet name and vnet resource group"]
    else [])
  ++ (if vnet.Name.isSome ∧ vnet.ResourceGroup.isSome ∧ vnet.CIDR.isSome then
      [invalid (vnetPath ++ ".cidr") "specifying a cidr for an existing vnet is not possible"]
    else [])
  ++ (match vnet.Name, vnet.ResourceGroup, resourceGroup with
    | some _, some vnetGroup, some group =>
      if vnetGroup = group.Name then
        [invalid (vnetPath ++ ".resourceGroup")
          "the vnet resource group must not be the same as the cluster resource group"]
      else []
    | _, _, _ => [])
  ++ (match vnet.CIDR with
    | some cidr =>
      validateParse (vnetPath ++ ".cidr") cidr ++ validateCanonical (vnetPath ++ ".cidr") cidr
    | none => [])

/-- Modelled from the spec: the checks of one NAT gateway IP reference at `path`: "missing
`Name` → `name must be set`; missing `ResourceGroup` → `resourceGroup must be set`". -/
def validateResourceReference (path : String) (ref : AzResourceReference) : List FieldError :=
  (if ref.Name = "" then [invalid path "name must be set"] else [])
    ++ (if ref.ResourceGroup = "" then [invalid path "resourceGroup must be set"] else [])

/-- The references of a list checked one after the other, entry `i` at `path[i]`. -/
def validateResourceReferences (path : String) (refs : List AzResourceReference) :
    List FieldError :=
  refs.enum.flatMap (fun ir =>
    validateResourceReference (path ++ "[" ++ toString ir.1 ++ "]") ir.2)

/-- Modelled from the spec: the NAT gateway rules of section 4.1. -/
def validateNatGatewayConfig (natGateway : Option NatGatewayConfig) (zoned : Bool)
    (natPath : String) : List FieldError :=
  match natGateway with
  | none => []
  | some nat =>
    (if zoned = false then
        [invalid natPath "NatGateway is currently only supported for zoned cluster"]
      else [])
    ++ (if nat.Enabled = false ∧ (nat.IPAddresses ≠ [] ∨ nat.IPAddressRanges ≠ []) then
        [invalid natPath "NatGateway is not enabled but ip addresses or ip ranges are specified"]
      else [])
    ++ validateResourceReferences (natPath ++ ".ipAddresses") nat.IPAddresses
    ++ validateResourceReferences (natPath ++ ".ipAddressRanges") nat.IPAddressRanges

/-- Modelled from the spec: `ValidateInfrastructureConfig` of section 4.1, whose source is
outside `src/`. The checks run in the order of the specification and all errors
accumulate: resource group, VNet rules, workers syntax and canonical form, workers
containment in the nodes block and in the VNet block, pods and services disjointness from
the VNet block, identity, NAT gateway. -/
def ValidateInfrastructureConfig (infra : InfrastructureConfig)
    (nodesCIDR podsCIDR servicesCIDR : Option String) (fldPath : Option String) :
    List FieldError :=
  let networksPath := child fldPath "networks"
  let workersPath := networksPath ++ ".workers"
  let vnetPath := networksPath ++ ".vnet"
  let cidrPath := vnetPath ++ ".cidr"
  (match infra.ResourceGroup with
    | some _ =>
      [invalid (child fldPath "resourceGroup")
        "specifying an existing resource group is not supported for new configurations"]
    | none => [])
  ++ validateVnetConfig infra.Networks.VNet infra.ResourceGroup vnetPath
  ++ validateParse workersPath infra.Networks.Workers
  ++ validateCanonical workersPath infra.Networks.Workers
  ++ (match nodesCIDR with
    | some nodes => validateSubset workersPath infra.Networks.Workers "" nodes
    | none => [])
  ++ (match infra.Networks.VNet.CIDR with
    | some cidr =>
      validateSubset workersPath infra.Networks.Workers cidrPath cidr
        ++ validateNotSubset podsCIDR cidrPath cidr
        ++ validateNotSubset servicesCIDR cidrPath cidr
    | none => [])
  ++ (match infra.Identity with
    | some identity =>
      if identity.Name = "" ∨ identity.ResourceGroup = "" then
        [invalid (child fldPath "identity")
          "specifying an identity requires its name and its resource group"]
      else []
    | none => [])
  ++ validateNatGatewayConfig infra.Networks.NatGateway infra.Zoned
      (networksPath ++ ".natGateway")

/-- The errors of a list reported on one field. -/
def errorsOn (field : String) (errs : List FieldError) : List FieldError :=
  errs.filter (fun e => e.Field = field)

/-- The configuration every test starts from: a managed VNet `10.0.0.0/8` with workers
`10.250.3.0/24`. -/
def baseConfig : InfrastructureConfig :=
  { ResourceGroup := none
    Networks :=
      { Workers := "10.250.3.0/24"
        VNet := { Name := none, ResourceGroup := none, CIDR := some "10.0.0.0/8" }
        NatGateway := none }
    Identity := none
    Zoned := false }

/-- The configuration of the test "should forbid non canonical CIDRs". -/
def nonCanonicalConfig : InfrastructureConfig :=
  { baseConfig with
    Networks :=
      { Workers := "10.250.3.8/24"
        VNet := { Name := none, ResourceGroup := none, CIDR := some "10.0.0.3/8" }
        NatGateway := none } }

/-- An existing VNet (name and resource group set) that also carries a non-canonical
CIDR. -/
def existingVnetConfig : InfrastructureConfig :=
  { baseConfig with
    Networks :=
      { Workers := "10.250.3.0/24"
        VNet := { Name := some "existing-vnet", ResourceGroup := some "existing-vnet-rg",
                  CIDR := some "10.0.0.3/8" }
        NatGateway := none } }

/-- The error reported for a pod or service block lying inside the VNet block `cidr`. -/
def overlapError (cidr : String) : FieldError :=
  invalid "" ("must not be a subset of \"networks.vnet.cidr\" (\"" ++ cidr ++ "\")")

/-- The overlap errors expected for a pod or service CIDR against the parsed VNet block
`v`: one error when the CIDR is provided, parses and lies inside `v`, none otherwise. -/
def overlapErrors (sub : Option String) (v : CIDR) (cidr : String) : List FieldError :=
  match sub with
  | none => []
  | some s =>
    match ParseCIDR s with
    | some c => if c.subsetOf v then [overlapError cidr] else []
    | none => []

/-! ### The update-path validator -/

/-- Go `field.Forbidden(path, detail)`. -/
def forbidden (field detail : String) : FieldError :=
  { Type_ := ErrorType.forbidden, Field := field, Detail := detail }

/-- Modelled from the spec: `ValidateInfrastructureConfigUpdate` of section 4.1, whose
source is outside `src/`: the resource group section and the VNet section must each be
deeply equal in the old and the new configuration (else one invalid error on
`resourceGroup`, respectively on `networks.vnet`), and `Zoned` must not go from true to
false (else one forbidden error on `zoned`). No other field is compared. -/
def ValidateInfrastructureConfigUpdate (oldConfig newConfig : InfrastructureConfig)
    (fldPath : Option String) : List FieldError :=
  (if oldConfig.ResourceGroup = newConfig.ResourceGroup then []
    else [invalid (child fldPath "resourceGroup") "field is immutable"])
  ++ (if oldConfig.Networks.VNet = newConfig.Networks.VNet then []
    else [invalid (child fldPath "networks" ++ ".vnet") "field is immutable"])
  ++ (if oldConfig.Zoned = true ∧ newConfig.Zoned = false then
      [forbidden (child fldPath "zoned")
        "moving a zoned cluster to a non-zoned cluster is not allowed"]
    else [])

/-- A configuration that differs from `baseConfig` in fields the update path does not
compare: workers CIDR, NAT gateway and identity. -/
def otherFieldsChangedConfig : InfrastructureConfig :=
  { baseConfig with
    Networks :=
      { Workers := "10.250.4.0/24"
        VNet := baseConfig.Networks.VNet
        NatGateway := some { Enabled := true, IPAddresses := [], IPAddressRanges := [] } }
    Identity := some { Name := "identity", ResourceGroup := "identity-rg" } }

/-! ### NAT gateway errors -/

/-- Whether the character list `field` starts with the character list `path`. -/
def startsWith : List Char → List Char → Bool
  | [], _ => true
  | _ :: _, [] => false
  | a :: path, b :: field => a == b && startsWith path field

/-- The errors of a list that concern the NAT gateway: their field path starts with
`networks.natGateway`. -/
def natGatewayErrors (errs : List FieldError) : List FieldError :=
  errs.filter (fun e => startsWith "networks.natGateway".data e.Field.data)

/-- A zoned configuration whose NAT gateway is disabled and lists one incomplete address
and one incomplete range. -/
def natGatewayConfig (zoned : Bool) : InfrastructureConfig :=
  { baseConfig with
    Zoned := zoned
    Networks :=
      { baseConfig.Networks with
        NatGateway := some
          { Enabled := false
            IPAddresses := [{ Name := "test-ip", ResourceGroup := "" }]
            IPAddressRanges := [{ Name := "", ResourceGroup := "" }] } } }

end Validation

/-! # Theorems -/

theorem zonesLoop_spec (gen : Option zoneInfo → Option String → MachineDeployment × GoMap Value)
    (zoneCount : Int) (zones : List String) (i : Nat) (acc : Acc) :
    elems (zonesLoop gen zoneCount zones i acc).machineDeployments
        = elems acc.machineDeployments ++ (zoneUnits gen zoneCount zones i).map Prod.fst
    ∧ elems (zonesLoop gen zoneCount zones i acc).machineClasses
        = elems acc.machineClasses ++ (zoneUnits gen zoneCount zones i).map Prod.snd
    ∧ (zonesLoop gen zoneCount zones i acc).machineImages = acc.machineImages := by
  induction zones generalizing i acc with
  | nil => simp [zonesLoop, zoneUnits]
  | cons z rest ih =>
    obtain ⟨h1, h2, h3⟩ := ih (i + 1)
      { acc with
        machineDeployments := goAppend acc.machineDeployments
          (gen (some { name := z, index := int32 (i : Int), count := int32 zoneCount }) none).1
        machineClasses := goAppend acc.machineClasses
          (gen (some { name := z, index := int32 (i : Int), count := int32 zoneCount }) none).2 }
    refine ⟨?_, ?_, ?_⟩
    · simpa [zonesLoop, zoneUnits, elems, goAppend] using h1
    · simpa [zonesLoop, zoneUnits, elems, goAppend] using h2
    · simpa [zonesLoop] using h3

theorem poolBody_spec (env : Env) (w : workerDelegate) (c : Captured) (pool : WorkerPool)
    (acc acc' : Acc) (h : poolBody env w c pool acc = .ok acc') :
    elems acc'.machineDeployments
        = elems acc.machineDeployments ++ (poolUnits env w c pool).map Prod.fst
    ∧ elems acc'.machineClasses
        = elems acc.machineClasses ++ (poolUnits env w c pool).map Prod.snd
    ∧ PoolShape env w c pool := by
  unfold poolBody at h
  unfold PoolShape
  unfold poolUnits fingerprint
  simp only [] at h
  cases hh : env.WorkerPoolHash pool (additionalDataOf c.infrastructureStatus) with
  | error e => simp [hh] at h
  | ok hash =>
    cases hf : env.findMachineImage pool.MachineImage.Name pool.MachineImage.Version with
    | error e => simp [hh, hf] at h
    | ok found =>
      cases hd : env.DiskSize pool.Volume.Size with
      | error e => simp [hh, hf, hd] at h
      | ok size =>
        cases hi : imageOf found.1 found.2 with
        | error e => simp [hh, hf, hd, hi] at h
        | ok image =>
          simp only [hh, hf, hd, hi] at h ⊢
          cases hz : c.infrastructureStatus.Zoned with
          | true =>
            simp only [hz, Bool.not_true, Bool.false_eq_true, if_false, Except.ok.injEq] at h
            subst h
            have := zonesLoop_spec (generateMachineClassAndDeployment env w c pool hash image
              (osDiskOf pool size)) (pool.Zones.length : Int) pool.Zones 0
              { machineDeployments := acc.machineDeployments
                machineClasses := acc.machineClasses
                machineImages := appendMachineImage acc.machineImages
                  { Name := pool.MachineImage.Name, Version := pool.MachineImage.Version,
                    URN := found.1, ID := found.2 } }
            refine ⟨this.1, this.2.1, hash, found, size, image, rfl, rfl, rfl, hi, rfl, ?_⟩
            exact Or.inl ⟨rfl, rfl⟩
          | false =>
            simp only [hz, Bool.not_false, if_true] at h
            cases ha : c.nodesAvailabilitySet with
            | none => simp [ha] at h
            | some s =>
              simp only [ha, Except.ok.injEq] at h
              subst h
              refine ⟨by simp [elems, goAppend], by simp [elems, goAppend],
                hash, found, size, image, rfl, rfl, rfl, hi, rfl, ?_⟩
              exact Or.inr ⟨rfl, s, rfl, by simp⟩

theorem poolsLoop_spec (env : Env) (w : workerDelegate) (c : Captured) (pools : List WorkerPool)
    (acc acc' : Acc) (h : poolsLoop env w c pools acc = .ok acc') :
    elems acc'.machineDeployments
        = elems acc.machineDeployments ++ (pools.flatMap (poolUnits env w c)).map Prod.fst
    ∧ elems acc'.machineClasses
        = elems acc.machineClasses ++ (pools.flatMap (poolUnits env w c)).map Prod.snd
    ∧ ∀ pool ∈ pools, PoolShape env w c pool := by
  induction pools generalizing acc with
  | nil =>
    simp only [poolsLoop, Except.ok.injEq] at h
    subst h
    simp
  | cons pool rest ih =>
    unfold poolsLoop at h
    cases hb : poolBody env w c pool acc with
    | error f => simp [hb] at h
    | ok acc1 =>
      simp only [hb] at h
      obtain ⟨b1, b2, b3⟩ := poolBody_spec env w c pool acc acc1 hb
      obtain ⟨r1, r2, r3⟩ := ih acc1 h
      refine ⟨?_, ?_, ?_⟩
      · rw [r1, b1]; simp
      · rw [r2, b2]; simp
      · intro p hp
        rcases List.mem_cons.mp hp with rfl | hp
        · exact b3
        · exact r3 p hp

theorem locals_spec (env : Env) (w : workerDelegate) (st : InfrastructureStatus) (acc : Acc)
    (hd : env.Decode w.worker.Spec.InfrastructureProviderStatus = .ok st)
    (h : generateMachineConfigLocals env w = .ok acc) :
    ∃ c, CapturedFor env w st c
      ∧ elems acc.machineDeployments
          = (w.worker.Spec.Pools.flatMap (poolUnits env w c)).map Prod.fst
      ∧ elems acc.machineClasses
          = (w.worker.Spec.Pools.flatMap (poolUnits env w c)).map Prod.snd
      ∧ ∀ pool ∈ w.worker.Spec.Pools, PoolShape env w c pool := by
  unfold generateMachineConfigLocals at h
  cases hs : generateMachineClassSecretData env w with
  | error f => simp [hs] at h
  | ok secretData =>
    simp only [hs, hd] at h
    cases hn : FindSubnetByPurpose st.Networks.Subnets PurposeNodes with
    | error e => simp [hn] at h
    | ok subnet =>
      simp only [hn] at h
      cases hz : st.Zoned with
      | true =>
        simp only [hz, Bool.not_true, Bool.false_eq_true, if_false] at h
        obtain ⟨r1, r2, r3⟩ := poolsLoop_spec env w _ _ _ _ h
        refine ⟨_, ⟨hs, rfl, hn, ?_, ?_⟩, ?_, ?_, r3⟩
        · intro hc; simp [hz] at hc
        · intro _; rfl
        · simpa [elems] using r1
        · simpa [elems] using r2
      | false =>
        simp only [hz, Bool.not_false, if_true] at h
        cases ha : FindAvailabilitySetByPurpose st.AvailabilitySets PurposeNodes with
        | error e => simp [ha] at h
        | ok s =>
          simp only [ha] at h
          obtain ⟨r1, r2, r3⟩ := poolsLoop_spec env w _ _ _ _ h
          refine ⟨_, ⟨hs, rfl, hn, ?_, ?_⟩, ?_, ?_, r3⟩
          · intro _; exact ⟨s, rfl, ha⟩
          · intro hc; simp [hz] at hc
          · simpa [elems] using r1
          · simpa [elems] using r2

theorem config_spec (env : Env) (w : workerDelegate) (st : InfrastructureStatus)
    (hd : env.Decode w.worker.Spec.InfrastructureProviderStatus = .ok st)
    (h : (generateMachineConfig env w).2 = .ok ()) :
    ∃ c, CapturedFor env w st c
      ∧ elems (generateMachineConfig env w).1.machineDeployments
          = (w.worker.Spec.Pools.flatMap (poolUnits env w c)).map Prod.fst
      ∧ elems (generateMachineConfig env w).1.machineClasses
          = (w.worker.Spec.Pools.flatMap (poolUnits env w c)).map Prod.snd
      ∧ ∀ pool ∈ w.worker.Spec.Pools, PoolShape env w c pool := by
  unfold generateMachineConfig at h ⊢
  cases hl : generateMachineConfigLocals env w with
  | error f => simp [hl] at h
  | ok acc =>
    simp only [hl]
    exact locals_spec env w st acc hd hl

/-! ## The unit generated by the closure -/

theorem GoMap.setIn_ne (m : GoMap Value) (outer k key : String) (v : Value)
    (h : key ≠ outer) : (m.setIn outer k v) key = m key := by
  unfold GoMap.setIn
  cases hm : m outer with
  | none => rfl
  | some val => cases val <;> simp [GoMap.set, h]

theorem gen_deployment_names (env : Env) (w : workerDelegate) (c : Captured) (pool : WorkerPool)
    (hash : String) (image osDisk : GoMap Value) (zone : Option zoneInfo)
    (availabilitySetID : Option String) :
    let d := (generateMachineClassAndDeployment env w c pool hash image osDisk zone
      availabilitySetID).1
    d.Name = deploymentNameOf w.worker.Namespace pool.Name (zone.map (fun z => z.name))
    ∧ d.ClassName = classNameOf w.worker.Namespace pool.Name hash (zone.map (fun z => z.name))
    ∧ d.SecretName = classNameOf w.worker.Namespace pool.Name hash
        (zone.map (fun z => z.name)) := by
  cases zone <;> simp [generateMachineClassAndDeployment, deploymentNameOf, classNameOf]

theorem gen_class_name (env : Env) (w : workerDelegate) (c : Captured) (pool : WorkerPool)
    (hash : String) (image osDisk : GoMap Value) (zone : Option zoneInfo)
    (availabilitySetID : Option String) :
    (generateMachineClassAndDeployment env w c pool hash image osDisk zone
      availabilitySetID).2 "name"
      = some (Value.str (classNameOf w.worker.Namespace pool.Name hash
          (zone.map (fun z => z.name)))) := by
  cases zone <;>
    simp [generateMachineClassAndDeployment, classNameOf, GoMap.setIn_ne, GoMap.set]

theorem gen_class_zone (env : Env) (w : workerDelegate) (c : Captured) (pool : WorkerPool)
    (hash : String) (image osDisk : GoMap Value) (zone : Option zoneInfo)
    (availabilitySetID : Option String) :
    (generateMachineClassAndDeployment env w c pool hash image osDisk zone
      availabilitySetID).2 "zone" = zone.map (fun z => Value.str z.name)
    ∧ (generateMachineClassAndDeployment env w c pool hash image osDisk zone
      availabilitySetID).2 "availabilitySetID" = availabilitySetID.map Value.str := by
  cases zone <;> cases availabilitySetID <;> cases hi : c.infrastructureStatus.Identity <;>
    cases hr : c.infrastructureStatus.Networks.VNet.ResourceGroup <;>
    simp [generateMachineClassAndDeployment, GoMap.setIn_ne, GoMap.set, GoMap.empty, hi, hr]

theorem zoneUnits_enum (gen : Option zoneInfo → Option String → MachineDeployment × GoMap Value)
    (zoneCount : Int) (zones : List String) (k : Nat) :
    zoneUnits gen zoneCount zones k
      = (zones.enumFrom k).map (fun iz =>
          gen (some { name := iz.2, index := int32 (iz.1 : Int), count := int32 zoneCount })
            none) := by
  induction zones generalizing k with
  | nil => rfl
  | cons z rest ih => simp [zoneUnits, List.enumFrom, ih]

theorem zoneUnits_map {β : Type}
    (gen : Option zoneInfo → Option String → MachineDeployment × GoMap Value)
    (f : MachineDeployment × GoMap Value → β) (g : String → β)
    (hfg : ∀ z i n, f (gen (some { name := z, index := i, count := n }) none) = g z)
    (zoneCount : Int) (zones : List String) (k : Nat) :
    (zoneUnits gen zoneCount zones k).map f = zones.map g := by
  induction zones generalizing k with
  | nil => rfl
  | cons z rest ih => simp [zoneUnits, hfg, ih]

theorem units_map {β : Type} (env : Env) (w : workerDelegate) (c : Captured)
    (f : MachineDeployment × GoMap Value → β) (e : WorkerPool → List β)
    (pools : List WorkerPool)
    (hpool : ∀ pool ∈ pools, PoolShape env w c pool → (poolUnits env w c pool).map f = e pool)
    (hall : ∀ pool ∈ pools, PoolShape env w c pool) :
    (pools.flatMap (poolUnits env w c)).map f = pools.flatMap e := by
  induction pools with
  | nil => rfl
  | cons p rest ih =>
    simp only [List.flatMap_cons, List.map_append]
    rw [hpool p (List.mem_cons_self _ _) (hall p (List.mem_cons_self _ _))]
    rw [ih (fun q hq => hpool q (List.mem_cons_of_mem _ hq))
      (fun q hq => hall q (List.mem_cons_of_mem _ hq))]

theorem zipWith_units {β : Type} (f : MachineDeployment → GoMap Value → β)
    (units : List (MachineDeployment × GoMap Value)) :
    List.zipWith f (units.map Prod.fst) (units.map Prod.snd)
      = units.map (fun u => f u.1 u.2) := by
  induction units with
  | nil => rfl
  | cons u rest ih => simp [ih]

/-! ## Naming -/

theorem poolUnits_names (env : Env) (w : workerDelegate) (c : Captured) (pool : WorkerPool)
    (hs : PoolShape env w c pool) :
    (poolUnits env w c pool).map (fun u => (u.1.Name, u.2 "name"))
      = expectedNames w.worker.Namespace c.infrastructureStatus.Zoned
          (fingerprint env c.infrastructureStatus pool) pool := by
  obtain ⟨hash, found, size, image, -, -, -, -, hfp, hz | hz⟩ := hs
  · obtain ⟨hz, hu⟩ := hz
    rw [hu, hfp]
    simp only [expectedNames, hz, if_true]
    apply zoneUnits_map
    intro z i n
    simp [(gen_deployment_names env w c pool hash image (osDiskOf pool size)
      (some { name := z, index := i, count := n }) none).1, gen_class_name,
      deploymentNameOf, classNameOf]
  · obtain ⟨hz, s, -, hu⟩ := hz
    rw [hu, hfp]
    simp [expectedNames, hz, (gen_deployment_names env w c pool hash image (osDiskOf pool size)
      none (some s.ID)).1, gen_class_name, deploymentNameOf, classNameOf]

/-- C1: after a successful `generateMachineConfig` whose status decodes to `st`, every
pool's hash succeeded (its value is the pool's fingerprint), and pairing the stored
deployments with the stored classes index by index gives, pool after pool, the names
`<namespace>-<pool>` and `<namespace>-<pool>-<fingerprint>` when `st` is not zoned, and for
each zone `z` of the pool `<namespace>-<pool>-z<z>` and
`<namespace>-<pool>-<fingerprint>-z<z>` when it is zoned. -/
theorem generateMachineConfig_naming (env : Env) (w : workerDelegate)
    (st : InfrastructureStatus)
    (hd : env.Decode w.worker.Spec.InfrastructureProviderStatus = .ok st)
    (h : (generateMachineConfig env w).2 = .ok ()) :
    (∀ pool ∈ w.worker.Spec.Pools,
        env.WorkerPoolHash pool (additionalDataOf st) = .ok (fingerprint env st pool))
    ∧ (elems (generateMachineConfig env w).1.machineDeployments).length
        = (elems (generateMachineConfig env w).1.machineClasses).length
    ∧ List.zipWith (fun d c => (d.Name, c "name"))
          (elems (generateMachineConfig env w).1.machineDeployments)
          (elems (generateMachineConfig env w).1.machineClasses)
        = w.worker.Spec.Pools.flatMap (fun pool =>
            expectedNames w.worker.Namespace st.Zoned (fingerprint env st pool) pool) := by
  obtain ⟨c, ⟨-, hst, -, -, -⟩, hdep, hcls, hall⟩ := config_spec env w st hd h
  subst hst
  refine ⟨?_, ?_, ?_⟩
  · intro pool hp
    obtain ⟨hash, _, _, _, hh, -, -, -, hfp, -⟩ := hall pool hp
    rw [hfp]; exact hh
  · rw [hdep, hcls]; simp
  · rw [hdep, hcls, zipWith_units]
    exact units_map env w c _ _ _ (fun pool _ hs => poolUnits_names env w c pool hs) hall

theorem sample_run_ok (zoned : Bool) :
    (generateMachineConfig (sampleEnv zoned) sampleDelegate).2 = .ok () := by
  cases zoned <;> rfl

theorem generateMachineConfig_naming_witness :
    (sampleEnv true).Decode sampleDelegate.worker.Spec.InfrastructureProviderStatus
        = .ok (sampleStatus true)
    ∧ (generateMachineConfig (sampleEnv true) sampleDelegate).2 = .ok ()
    ∧ List.zipWith (fun d c => (d.Name, c "name"))
          (elems (generateMachineConfig (sampleEnv true) sampleDelegate).1.machineDeployments)
          (elems (generateMachineConfig (sampleEnv true) sampleDelegate).1.machineClasses)
        = [("shoot-a-z1", some (Value.str "shoot-a-ha-z1")),
           ("shoot-a-z2", some (Value.str "shoot-a-ha-z2")),
           ("shoot-a-z3", some (Value.str "shoot-a-ha-z3")),
           ("shoot-b-z2", some (Value.str "shoot-b-hb-z2"))] :=
  ⟨rfl, sample_run_ok true,
    (generateMachineConfig_naming (sampleEnv true) sampleDelegate (sampleStatus true) rfl
      (sample_run_ok true)).2.2.trans rfl⟩

/-! ## Lock-step of deployments and classes -/

theorem decode_ok_of_success (env : Env) (w : workerDelegate)
    (h : (generateMachineConfig env w).2 = .ok ()) :
    ∃ st, env.Decode w.worker.Spec.InfrastructureProviderStatus = .ok st := by
  unfold generateMachineConfig at h
  cases hl : generateMachineConfigLocals env w with
  | error f => simp [hl] at h
  | ok acc =>
    unfold generateMachineConfigLocals at hl
    cases hs : generateMachineClassSecretData env w with
    | error f => simp [hs] at hl
    | ok secretData =>
      cases hd : env.Decode w.worker.Spec.InfrastructureProviderStatus with
      | error e => simp [hs, hd] at hl
      | ok st => exact ⟨st, rfl⟩

theorem zoneUnits_mem (gen : Option zoneInfo → Option String → MachineDeployment × GoMap Value)
    (zoneCount : Int) (zones : List String) (k : Nat) (u : MachineDeployment × GoMap Value)
    (hu : u ∈ zoneUnits gen zoneCount zones k) : ∃ zone, u = gen (some zone) none := by
  induction zones generalizing k with
  | nil => simp [zoneUnits] at hu
  | cons z rest ih =>
    simp only [zoneUnits, List.mem_cons] at hu
    rcases hu with rfl | hu
    · exact ⟨_, rfl⟩
    · exact ih (k + 1) hu

theorem poolUnits_mem (env : Env) (w : workerDelegate) (c : Captured) (pool : WorkerPool)
    (u : MachineDeployment × GoMap Value) (hu : u ∈ poolUnits env w c pool) :
    ∃ hash image osDisk zone availabilitySetID,
      u = generateMachineClassAndDeployment env w c pool hash image osDisk zone
        availabilitySetID := by
  unfold poolUnits at hu
  split at hu
  · split at hu
    · split at hu
      · obtain ⟨zone, hz⟩ := zoneUnits_mem _ _ _ _ u hu
        exact ⟨_, _, _, _, _, hz⟩
      · split at hu
        · simp only [List.mem_singleton] at hu
          exact ⟨_, _, _, _, _, hu⟩
        · simp at hu
    · simp at hu
  · simp at hu

theorem unit_lockstep (env : Env) (w : workerDelegate) (c : Captured) (pools : List WorkerPool)
    (u : MachineDeployment × GoMap Value) (hu : u ∈ pools.flatMap (poolUnits env w c)) :
    u.1.ClassName = u.1.SecretName ∧ u.2 "name" = some (Value.str u.1.ClassName) := by
  obtain ⟨pool, -, hu⟩ := List.mem_flatMap.mp hu
  obtain ⟨hash, image, osDisk, zone, a, rfl⟩ := poolUnits_mem env w c pool u hu
  have hn := gen_deployment_names env w c pool hash image osDisk zone a
  refine ⟨hn.2.1.trans hn.2.2.symm, ?_⟩
  rw [gen_class_name, hn.2.1]

/-- C2: after a successful `generateMachineConfig` the stored deployment list and the
stored class list have the same length, and index by index the deployment's `ClassName`
equals its `SecretName` and equals the string stored under the class key `name`. -/
theorem generateMachineConfig_lockstep (env : Env) (w : workerDelegate)
    (h : (generateMachineConfig env w).2 = .ok ()) :
    (elems (generateMachineConfig env w).1.machineDeployments).length
        = (elems (generateMachineConfig env w).1.machineClasses).length
    ∧ List.Forall₂
        (fun d c => d.ClassName = d.SecretName ∧ c "name" = some (Value.str d.ClassName))
        (elems (generateMachineConfig env w).1.machineDeployments)
        (elems (generateMachineConfig env w).1.machineClasses) := by
  obtain ⟨st, hd⟩ := decode_ok_of_success env w h
  obtain ⟨c, -, hdep, hcls, -⟩ := config_spec env w st hd h
  rw [hdep, hcls]
  refine ⟨by simp, ?_⟩
  rw [List.forall₂_map_left_iff, List.forall₂_map_right_iff, List.forall₂_same]
  intro u hu
  exact unit_lockstep env w c _ u hu

theorem generateMachineConfig_lockstep_witness :
    (generateMachineConfig (sampleEnv false) sampleDelegate).2 = .ok ()
    ∧ (elems (generateMachineConfig (sampleEnv false) sampleDelegate).1.machineDeployments).length
        = (elems (generateMachineConfig (sampleEnv false) sampleDelegate).1.machineClasses).length
    ∧ List.Forall₂
        (fun d c => d.ClassName = d.SecretName ∧ c "name" = some (Value.str d.ClassName))
        (elems (generateMachineConfig (sampleEnv false) sampleDelegate).1.machineDeployments)
        (elems (generateMachineConfig (sampleEnv false) sampleDelegate).1.machineClasses) :=
  ⟨sample_run_ok false, generateMachineConfig_lockstep (sampleEnv false) sampleDelegate
    (sample_run_ok false)⟩

/-! ## Expansion order -/

theorem poolUnits_deployment_names (env : Env) (w : workerDelegate) (c : Captured)
    (pool : WorkerPool) (hs : PoolShape env w c pool) :
    (poolUnits env w c pool).map (fun u => u.1.Name)
      = expectedDeploymentNames w.worker.Namespace c.infrastructureStatus.Zoned pool := by
  obtain ⟨hash, found, size, image, -, -, -, -, -, hz | hz⟩ := hs
  · obtain ⟨hz, hu⟩ := hz
    rw [hu]
    simp only [expectedDeploymentNames, hz, if_true]
    apply zoneUnits_map
    intro z i n
    simp [(gen_deployment_names env w c pool hash image (osDiskOf pool size)
      (some { name := z, index := i, count := n }) none).1, deploymentNameOf]
  · obtain ⟨hz, s, -, hu⟩ := hz
    rw [hu]
    simp [expectedDeploymentNames, hz, (gen_deployment_names env w c pool hash image
      (osDiskOf pool size) none (some s.ID)).1, deploymentNameOf]

/-- C3: after a successful `generateMachineConfig` whose status decodes to `st`, the names
of the stored deployments are the concatenation, over the pools in input order, of
`<namespace>-<pool>` (not zoned) or of `<namespace>-<pool>-z<zone>` for the pool's zones in
input order (zoned); there are as many classes as deployments; and an unzoned expansion
stores exactly one deployment and one class per pool. -/
theorem generateMachineConfig_expansion_order (env : Env) (w : workerDelegate)
    (st : InfrastructureStatus)
    (hd : env.Decode w.worker.Spec.InfrastructureProviderStatus = .ok st)
    (h : (generateMachineConfig env w).2 = .ok ()) :
    (elems (generateMachineConfig env w).1.machineDeployments).map (fun d => d.Name)
        = w.worker.Spec.Pools.flatMap (expectedDeploymentNames w.worker.Namespace st.Zoned)
    ∧ (elems (generateMachineConfig env w).1.machineClasses).length
        = (w.worker.Spec.Pools.flatMap
            (expectedDeploymentNames w.worker.Namespace st.Zoned)).length
    ∧ (st.Zoned = false →
        (elems (generateMachineConfig env w).1.machineDeployments).length
            = w.worker.Spec.Pools.length
        ∧ (elems (generateMachineConfig env w).1.machineClasses).length
            = w.worker.Spec.Pools.length) := by
  obtain ⟨c, ⟨-, hst, -, -, -⟩, hdep, hcls, hall⟩ := config_spec env w st hd h
  subst hst
  have hnames : (elems (generateMachineConfig env w).1.machineDeployments).map (fun d => d.Name)
      = w.worker.Spec.Pools.flatMap
          (expectedDeploymentNames w.worker.Namespace c.infrastructureStatus.Zoned) := by
    rw [hdep, List.map_map]
    exact units_map env w c _ _ _
      (fun pool _ hs => poolUnits_deployment_names env w c pool hs) hall
  have hlen : (elems (generateMachineConfig env w).1.machineClasses).length
      = (w.worker.Spec.Pools.flatMap
          (expectedDeploymentNames w.worker.Namespace c.infrastructureStatus.Zoned)).length := by
    rw [← hnames, hcls, hdep]; simp
  have hunz : c.infrastructureStatus.Zoned = false →
      (w.worker.Spec.Pools.flatMap
        (expectedDeploymentNames w.worker.Namespace c.infrastructureStatus.Zoned)).length
        = w.worker.Spec.Pools.length := by
    intro hz
    rw [hz]
    generalize w.worker.Spec.Pools = pools
    induction pools with
    | nil => rfl
    | cons p rest ih => simp [expectedDeploymentNames, ih, Nat.add_comm]
  refine ⟨hnames, hlen, fun hz => ⟨?_, ?_⟩⟩
  · rw [← hunz hz, ← hnames]; simp
  · rw [hlen, hunz hz]

theorem generateMachineConfig_expansion_order_witness :
    (sampleEnv true).Decode sampleDelegate.worker.Spec.InfrastructureProviderStatus
        = .ok (sampleStatus true)
    ∧ (generateMachineConfig (sampleEnv true) sampleDelegate).2 = .ok ()
    ∧ (elems (generateMachineConfig (sampleEnv true) sampleDelegate).1.machineDeployments).map
          (fun d => d.Name)
        = ["shoot-a-z1", "shoot-a-z2", "shoot-a-z3", "shoot-b-z2"]
    ∧ (elems (generateMachineConfig (sampleEnv true) sampleDelegate).1.machineClasses).length
        = 4 :=
  ⟨rfl, sample_run_ok true,
    (generateMachineConfig_expansion_order (sampleEnv true) sampleDelegate (sampleStatus true)
      rfl (sample_run_ok true)).1.trans rfl,
    (generateMachineConfig_expansion_order (sampleEnv true) sampleDelegate (sampleStatus true)
      rfl (sample_run_ok true)).2.1.trans rfl⟩

/-! ## Zone and availability set keys -/

theorem poolUnits_zone_keys (env : Env) (w : workerDelegate) (c : Captured)
    (pool : WorkerPool) (hs : PoolShape env w c pool)
    (hz : c.infrastructureStatus.Zoned = true) :
    (poolUnits env w c pool).map (fun u => (u.2 "zone", u.2 "availabilitySetID"))
      = pool.Zones.map (fun z => (some (Value.str z), none)) := by
  obtain ⟨hash, found, size, image, -, -, -, -, -, hc | hc⟩ := hs
  · obtain ⟨-, hu⟩ := hc
    rw [hu]
    apply zoneUnits_map
    intro z i n
    simp [gen_class_zone]
  · rw [hz] at hc
    exact absurd hc.1 (by simp)

theorem poolUnits_set_keys (env : Env) (w : workerDelegate) (c : Captured)
    (pool : WorkerPool) (hs : PoolShape env w c pool) (s : AvailabilitySet)
    (hz : c.infrastructureStatus.Zoned = false) (hset : c.nodesAvailabilitySet = some s)
    (u : MachineDeployment × GoMap Value) (hu : u ∈ poolUnits env w c pool) :
    u.2 "zone" = none ∧ u.2 "availabilitySetID" = some (Value.str s.ID) := by
  obtain ⟨hash, found, size, image, -, -, -, -, -, hc | hc⟩ := hs
  · rw [hz] at hc
    exact absurd hc.1 (by simp)
  · obtain ⟨-, s', hs', hu'⟩ := hc
    rw [hset] at hs'
    cases hs'
    rw [hu'] at hu
    simp only [List.mem_singleton] at hu
    subst hu
    simp [gen_class_zone]

/-- C4: after a successful `generateMachineConfig` whose status decodes to `st`: when `st`
is not zoned, every stored class has no key `zone` and has `availabilitySetID` equal to the
ID of the availability set resolved for the purpose `nodes`; when `st` is zoned, the stored
classes carry, pool after pool and zone after zone, the key `zone` with the zone's name and
no key `availabilitySetID`. -/
theorem generateMachineConfig_zone_or_availability_set (env : Env) (w : workerDelegate)
    (st : InfrastructureStatus)
    (hd : env.Decode w.worker.Spec.InfrastructureProviderStatus = .ok st)
    (h : (generateMachineConfig env w).2 = .ok ()) :
    (st.Zoned = false →
      ∃ s, FindAvailabilitySetByPurpose st.AvailabilitySets PurposeNodes = .ok s
        ∧ ∀ c ∈ elems (generateMachineConfig env w).1.machineClasses,
            c "zone" = none ∧ c "availabilitySetID" = some (Value.str s.ID))
    ∧ (st.Zoned = true →
        (elems (generateMachineConfig env w).1.machineClasses).map
            (fun c => (c "zone", c "availabilitySetID"))
          = w.worker.Spec.Pools.flatMap (fun pool =>
              pool.Zones.map (fun z => (some (Value.str z), none)))) := by
  obtain ⟨c, ⟨-, hst, -, hunz, -⟩, -, hcls, hall⟩ := config_spec env w st hd h
  subst hst
  refine ⟨fun hz => ?_, fun hz => ?_⟩
  · obtain ⟨s, hset, hfind⟩ := hunz hz
    refine ⟨s, hfind, ?_⟩
    intro cl hcl
    rw [hcls] at hcl
    obtain ⟨u, hu, rfl⟩ := List.mem_map.mp hcl
    obtain ⟨pool, hp, hu⟩ := List.mem_flatMap.mp hu
    exact poolUnits_set_keys env w c pool (hall pool hp) s hz hset u hu
  · rw [hcls, List.map_map]
    exact units_map env w c _ _ _
      (fun pool _ hs => poolUnits_zone_keys env w c pool hs hz) hall

theorem generateMachineConfig_zone_or_availability_set_witness :
    (sampleEnv false).Decode sampleDelegate.worker.Spec.InfrastructureProviderStatus
        = .ok (sampleStatus false)
    ∧ (generateMachineConfig (sampleEnv false) sampleDelegate).2 = .ok ()
    ∧ ((sampleStatus false).Zoned = false →
      ∃ s, FindAvailabilitySetByPurpose (sampleStatus false).AvailabilitySets PurposeNodes
          = .ok s
        ∧ ∀ c ∈ elems (generateMachineConfig (sampleEnv false) sampleDelegate).1.machineClasses,
            c "zone" = none ∧ c "availabilitySetID" = some (Value.str s.ID)) :=
  ⟨rfl, sample_run_ok false,
    (generateMachineConfig_zone_or_availability_set (sampleEnv false) sampleDelegate
      (sampleStatus false) rfl (sample_run_ok false)).1⟩

/-! ## Distribution over the zones -/

theorem int32_of_fits (x : Int) (h0 : 0 ≤ x) (h1 : x < 2 ^ 31) : int32 x = x := by
  unfold int32
  rw [Int.emod_eq_of_lt (by omega) (by omega)]
  omega

theorem gen_sizes (env : Env) (w : workerDelegate) (c : Captured) (pool : WorkerPool)
    (hash : String) (image osDisk : GoMap Value) (zone : zoneInfo) :
    sizesOf (generateMachineClassAndDeployment env w c pool hash image osDisk (some zone)
      none).1
      = (env.DistributeOverZones zone.index pool.Minimum zone.count,
         env.DistributeOverZones zone.index pool.Maximum zone.count,
         env.DistributePositiveIntOrPercent zone.index pool.MaxSurge zone.count pool.Maximum,
         env.DistributePositiveIntOrPercent zone.index pool.MaxUnavailable zone.count
           pool.Minimum) := rfl

theorem poolUnits_sizes (env : Env) (w : workerDelegate) (c : Captured)
    (pool : WorkerPool) (hs : PoolShape env w c pool)
    (hz : c.infrastructureStatus.Zoned = true) :
    (poolUnits env w c pool).map (fun u => sizesOf u.1) = zoneShares env int32 pool := by
  obtain ⟨hash, found, size, image, -, -, -, -, -, hc | hc⟩ := hs
  · obtain ⟨-, hu⟩ := hc
    rw [hu, zoneUnits_enum]
    simp [zoneShares, List.enum, gen_sizes]
  · rw [hz] at hc
    exact absurd hc.1 (by simp)

theorem zoneShares_of_fits (env : Env) (pool : WorkerPool)
    (hfit : (pool.Zones.length : Int) < 2 ^ 31) :
    zoneShares env int32 pool = zoneShares env id pool := by
  unfold zoneShares
  apply List.map_congr_left
  intro iz hiz
  have hlt : iz.1 < pool.Zones.length := List.fst_lt_of_mem_enum hiz
  rw [int32_of_fits (iz.1 : Int) (by omega) (by omega),
    int32_of_fits (pool.Zones.length : Int) (by omega) hfit]
  rfl

theorem flatMap_congr_mem {α β : Type} (l : List α) (f g : α → List β)
    (hfg : ∀ a ∈ l, f a = g a) : l.flatMap f = l.flatMap g := by
  induction l with
  | nil => rfl
  | cons a rest ih =>
    simp only [List.flatMap_cons]
    rw [hfg a (List.mem_cons_self _ _), ih (fun b hb => hfg b (List.mem_cons_of_mem _ hb))]

/-- C5 as the code has it: after a successful zoned `generateMachineConfig`, the sizes of
the stored deployments are, pool after pool and zone after zone, for the zone at index `i`
of a pool with `n` zones: `Minimum = DistributeOverZones(i, pool.Minimum, n)`,
`Maximum = DistributeOverZones(i, pool.Maximum, n)`,
`MaxSurge = DistributePositiveIntOrPercent(i, pool.MaxSurge, n, pool.Maximum)` and
`MaxUnavailable = DistributePositiveIntOrPercent(i, pool.MaxUnavailable, n, pool.Minimum)`,
where `i` and `n` are passed as `int32` (first part), which is `i` and `n` themselves
whenever every pool has fewer than `2^31` zones (second part). -/
theorem generateMachineConfig_zone_distribution (env : Env) (w : workerDelegate)
    (st : InfrastructureStatus)
    (hd : env.Decode w.worker.Spec.InfrastructureProviderStatus = .ok st)
    (h : (generateMachineConfig env w).2 = .ok ())
    (hz : st.Zoned = true) :
    (elems (generateMachineConfig env w).1.machineDeployments).map sizesOf
        = w.worker.Spec.Pools.flatMap (zoneShares env int32)
    ∧ ((∀ pool ∈ w.worker.Spec.Pools, (pool.Zones.length : Int) < 2 ^ 31) →
        (elems (generateMachineConfig env w).1.machineDeployments).map sizesOf
          = w.worker.Spec.Pools.flatMap (zoneShares env id)) := by
  obtain ⟨c, ⟨-, hst, -, -, -⟩, hdep, -, hall⟩ := config_spec env w st hd h
  subst hst
  have hmain : (elems (generateMachineConfig env w).1.machineDeployments).map sizesOf
      = w.worker.Spec.Pools.flatMap (zoneShares env int32) := by
    rw [hdep, List.map_map]
    exact units_map env w c _ _ _ (fun pool _ hs => poolUnits_sizes env w c pool hs hz) hall
  refine ⟨hmain, fun hfit => ?_⟩
  rw [hmain]
  exact flatMap_congr_mem _ _ _ (fun pool hp => zoneShares_of_fits env pool (hfit pool hp))

theorem generateMachineConfig_zone_distribution_witness :
    (sampleEnv true).Decode sampleDelegate.worker.Spec.InfrastructureProviderStatus
        = .ok (sampleStatus true)
    ∧ (generateMachineConfig (sampleEnv true) sampleDelegate).2 = .ok ()
    ∧ (sampleStatus true).Zoned = true
    ∧ (elems (generateMachineConfig (sampleEnv true) sampleDelegate).1.machineDeployments).map
          sizesOf
        = [(1, 2, .int 1, .int 1), (1, 2, .int 0, .int 0), (0, 2, .int 0, .int 0),
           (2, 6, .int 1, .int 1)] :=
  ⟨rfl, sample_run_ok true, rfl,
    (generateMachineConfig_zone_distribution (sampleEnv true) sampleDelegate
      (sampleStatus true) rfl (sample_run_ok true) rfl).1.trans (by decide)⟩

/-- C5 as stated fails: in the sample zoned run the stored sizes differ from the ones
computed with the pool maximum as reference total of `MaxUnavailable` (pool `b`, one zone,
minimum 2, maximum 6, unavailable `50%`: the code stores 1, the claim asks for 3). -/
theorem zone_distribution_maximum_reference_counterexample :
    (sampleEnv true).Decode sampleDelegate.worker.Spec.InfrastructureProviderStatus
        = .ok (sampleStatus true)
    ∧ (generateMachineConfig (sampleEnv true) sampleDelegate).2 = .ok ()
    ∧ (sampleStatus true).Zoned = true
    ∧ (elems (generateMachineConfig (sampleEnv true) sampleDelegate).1.machineDeployments).map
          sizesOf
        ≠ sampleDelegate.worker.Spec.Pools.flatMap
            (zoneSharesMaximumReference (sampleEnv true))
    ∧ ((elems (generateMachineConfig (sampleEnv true)
          sampleDelegate).1.machineDeployments).map (fun d => d.MaxUnavailable))[3]?
        = some (.int 1)
    ∧ ((sampleDelegate.worker.Spec.Pools.flatMap
          (zoneSharesMaximumReference (sampleEnv true))).map (fun s => s.2.2.2))[3]?
        = some (.int 3) :=
  ⟨rfl, sample_run_ok true, rfl, by decide, by decide, by decide⟩

/-! ## Failures -/

/-- C6: when `generateMachineConfig` fails (with a returned error of any collaborator or
helper, for any pool, or with a nil dereference), the receiver after the call is the
receiver before the call: the stored deployments, classes and images are untouched. -/
theorem generateMachineConfig_error_keeps_state (env : Env) (w : workerDelegate) (f : Failure)
    (h : (generateMachineConfig env w).2 = .error f) :
    (generateMachineConfig env w).1 = w
    ∧ (generateMachineConfig env w).1.machineDeployments = w.machineDeployments
    ∧ (generateMachineConfig env w).1.machineClasses = w.machineClasses
    ∧ (generateMachineConfig env w).1.machineImages = w.machineImages := by
  unfold generateMachineConfig at h ⊢
  cases hl : generateMachineConfigLocals env w with
  | error g => exact ⟨rfl, rfl, rfl, rfl⟩
  | ok acc => simp [hl] at h

theorem generateMachineConfig_error_keeps_state_witness :
    (generateMachineConfig failingHashEnv storedDelegate).2
        = .error (Failure.error "hash failed")
    ∧ (generateMachineConfig failingHashEnv storedDelegate).1 = storedDelegate
    ∧ (generateMachineConfig failingHashEnv storedDelegate).1.machineDeployments
        = storedDelegate.machineDeployments
    ∧ (generateMachineConfig failingHashEnv storedDelegate).1.machineClasses
        = storedDelegate.machineClasses
    ∧ (generateMachineConfig failingHashEnv storedDelegate).1.machineImages
        = storedDelegate.machineImages :=
  ⟨rfl, generateMachineConfig_error_keeps_state failingHashEnv storedDelegate
    (Failure.error "hash failed") rfl⟩

theorem FindSubnetByPurpose_absent (subnets : List Subnet) (purpose : String)
    (h : ∀ s ∈ subnets, s.Purpose ≠ purpose) :
    ∃ msg, FindSubnetByPurpose subnets purpose = .error msg := by
  unfold FindSubnetByPurpose
  have : subnets.find? (fun s => s.Purpose == purpose) = none := by
    rw [List.find?_eq_none]
    intro s hs
    simpa using h s hs
  rw [this]
  exact ⟨_, rfl⟩

theorem FindAvailabilitySetByPurpose_absent (sets : List AvailabilitySet) (purpose : String)
    (h : ∀ s ∈ sets, s.Purpose ≠ purpose) :
    ∃ msg, FindAvailabilitySetByPurpose sets purpose = .error msg := by
  unfold FindAvailabilitySetByPurpose
  have : sets.find? (fun s => s.Purpose == purpose) = none := by
    rw [List.find?_eq_none]
    intro s hs
    simpa using h s hs
  rw [this]
  exact ⟨_, rfl⟩

theorem config_of_locals_error (env : Env) (w : workerDelegate) (f : Failure)
    (h : generateMachineConfigLocals env w = .error f) :
    (generateMachineConfig env w).2 = .error f := by
  unfold generateMachineConfig
  rw [h]

theorem locals_no_subnet (env : Env) (w : workerDelegate) (st : InfrastructureStatus)
    (hd : env.Decode w.worker.Spec.InfrastructureProviderStatus = .ok st)
    (msg : String)
    (hn : FindSubnetByPurpose st.Networks.Subnets PurposeNodes = .error msg) :
    ∃ e, ∀ pools, generateMachineConfigLocals env (withPools w pools)
      = .error (Failure.error e) := by
  cases hs : generateMachineClassSecretData env w with
  | error f =>
    unfold generateMachineClassSecretData at hs
    cases hc : env.GetClientAuthData w.worker.Spec.SecretRef with
    | ok cr => simp [hc] at hs
    | error e =>
      refine ⟨e, fun pools => ?_⟩
      simp [generateMachineConfigLocals, generateMachineClassSecretData, withPools, hc]
  | ok sd =>
    refine ⟨msg, fun pools => ?_⟩
    unfold generateMachineClassSecretData at hs
    cases hc : env.GetClientAuthData w.worker.Spec.SecretRef with
    | error e => simp [hc] at hs
    | ok cr =>
      simp [generateMachineConfigLocals, generateMachineClassSecretData, withPools, hc, hd, hn]

theorem locals_no_set (env : Env) (w : workerDelegate) (st : InfrastructureStatus)
    (hd : env.Decode w.worker.Spec.InfrastructureProviderStatus = .ok st)
    (hz : st.Zoned = false) (msg : String)
    (hn : FindAvailabilitySetByPurpose st.AvailabilitySets PurposeNodes = .error msg) :
    ∃ e, ∀ pools, generateMachineConfigLocals env (withPools w pools)
      = .error (Failure.error e) := by
  cases hsub : FindSubnetByPurpose st.Networks.Subnets PurposeNodes with
  | error e => exact locals_no_subnet env w st hd e hsub
  | ok subnet =>
    cases hc : env.GetClientAuthData w.worker.Spec.SecretRef with
    | error e =>
      refine ⟨e, fun pools => ?_⟩
      simp [generateMachineConfigLocals, generateMachineClassSecretData, withPools, hc]
    | ok cr =>
      refine ⟨msg, fun pools => ?_⟩
      simp [generateMachineConfigLocals, generateMachineClassSecretData, withPools, hc, hd,
        hsub, hz, hn]

theorem poolBody_sets_irrelevant (env : Env) (st' : InfrastructureStatus) (w : workerDelegate)
    (c : Captured) (pool : WorkerPool) (acc : Acc) (sets : List AvailabilitySet) :
    poolBody (withStatus env st') w
        { c with infrastructureStatus := { c.infrastructureStatus with AvailabilitySets := sets } }
        pool acc
      = poolBody env w c pool acc := rfl

theorem poolsLoop_sets_irrelevant (env : Env) (st' : InfrastructureStatus) (w : workerDelegate)
    (c : Captured) (pools : List WorkerPool) (acc : Acc) (sets : List AvailabilitySet) :
    poolsLoop (withStatus env st') w
        { c with infrastructureStatus := { c.infrastructureStatus with AvailabilitySets := sets } }
        pools acc
      = poolsLoop env w c pools acc := by
  induction pools generalizing acc with
  | nil => rfl
  | cons pool rest ih =>
    unfold poolsLoop
    rw [poolBody_sets_irrelevant]
    cases poolBody env w c pool acc with
    | error f => rfl
    | ok acc1 => exact ih acc1

theorem locals_sets_irrelevant (env : Env) (w : workerDelegate) (st : InfrastructureStatus)
    (hd : env.Decode w.worker.Spec.InfrastructureProviderStatus = .ok st)
    (hz : st.Zoned = true) (sets : List AvailabilitySet) :
    generateMachineConfigLocals (withStatus env { st with AvailabilitySets := sets }) w
      = generateMachineConfigLocals env w := by
  unfold generateMachineConfigLocals
  have hs : generateMachineClassSecretData
      (withStatus env { st with AvailabilitySets := sets }) w
      = generateMachineClassSecretData env w := rfl
  rw [hs]
  cases generateMachineClassSecretData env w with
  | error f => rfl
  | ok sd =>
    simp only [hd, withStatus]
    cases FindSubnetByPurpose st.Networks.Subnets PurposeNodes with
    | error e => rfl
    | ok subnet =>
      have key := poolsLoop_sets_irrelevant env { st with AvailabilitySets := sets } w
        { machineClassSecretData := sd, infrastructureStatus := st, nodesSubnet := subnet,
          nodesAvailabilitySet := none } w.worker.Spec.Pools
        { machineDeployments := some [], machineClasses := none, machineImages := none } sets
      simpa [hz, withStatus] using key

/-- C7: with a status `st` decoded, `generateMachineConfig` returns an error, the same
whatever the pools are, when `st` has no subnet with purpose `nodes`, and also when `st` is
not zoned and has no availability set with purpose `nodes`; when `st` is zoned, replacing
the availability sets of the status by any other list (the empty one included) changes
nothing of the outcome. -/
theorem generateMachineConfig_fails_fast (env : Env) (w : workerDelegate)
    (st : InfrastructureStatus)
    (hd : env.Decode w.worker.Spec.InfrastructureProviderStatus = .ok st) :
    ((∀ s ∈ st.Networks.Subnets, s.Purpose ≠ PurposeNodes) →
      ∃ e, (generateMachineConfig env w).2 = .error (Failure.error e)
        ∧ ∀ pools, (generateMachineConfig env (withPools w pools)).2
            = .error (Failure.error e))
    ∧ (st.Zoned = false → (∀ a ∈ st.AvailabilitySets, a.Purpose ≠ PurposeNodes) →
      ∃ e, (generateMachineConfig env w).2 = .error (Failure.error e)
        ∧ ∀ pools, (generateMachineConfig env (withPools w pools)).2
            = .error (Failure.error e))
    ∧ (st.Zoned = true → ∀ sets,
        generateMachineConfig (withStatus env { st with AvailabilitySets := sets }) w
          = generateMachineConfig env w) := by
  refine ⟨fun hn => ?_, fun hz hn => ?_, fun hz sets => ?_⟩
  · obtain ⟨msg, hmsg⟩ := FindSubnetByPurpose_absent _ _ hn
    obtain ⟨e, he⟩ := locals_no_subnet env w st hd msg hmsg
    exact ⟨e, config_of_locals_error env w _ (he w.worker.Spec.Pools),
      fun pools => config_of_locals_error env _ _ (he pools)⟩
  · obtain ⟨msg, hmsg⟩ := FindAvailabilitySetByPurpose_absent _ _ hn
    obtain ⟨e, he⟩ := locals_no_set env w st hd hz msg hmsg
    exact ⟨e, config_of_locals_error env w _ (he w.worker.Spec.Pools),
      fun pools => config_of_locals_error env _ _ (he pools)⟩
  · unfold generateMachineConfig
    rw [locals_sets_irrelevant env w st hd hz sets]

theorem generateMachineConfig_fails_fast_witness :
    (withStatus (sampleEnv false) noNodesSubnetStatus).Decode
        sampleDelegate.worker.Spec.InfrastructureProviderStatus = .ok noNodesSubnetStatus
    ∧ (∀ s ∈ noNodesSubnetStatus.Networks.Subnets, s.Purpose ≠ PurposeNodes)
    ∧ (generateMachineConfig (withStatus (sampleEnv false) noNodesSubnetStatus)
          sampleDelegate).2
        = .error (Failure.error "cannot find subnet with purpose nodes")
    ∧ ∃ e, (generateMachineConfig (withStatus (sampleEnv false) noNodesSubnetStatus)
            sampleDelegate).2 = .error (Failure.error e)
        ∧ ∀ pools, (generateMachineConfig (withStatus (sampleEnv false) noNodesSubnetStatus)
            (withPools sampleDelegate pools)).2 = .error (Failure.error e) :=
  ⟨rfl, by decide, rfl,
    (generateMachineConfig_fails_fast (withStatus (sampleEnv false) noNodesSubnetStatus)
      sampleDelegate noNodesSubnetStatus rfl).1 (by decide)⟩

/-! ## OS disk -/

theorem osDiskOf_spec (pool : WorkerPool) (volumeSize : Int) :
    osDiskOf pool volumeSize "size" = some (Value.int volumeSize)
    ∧ (∀ v, osDiskOf pool volumeSize "type" = some v
        ↔ ∃ t, pool.Volume.Type_ = some t ∧ validVolumeType t ∧ v = Value.str t)
    ∧ (∀ k, k ≠ "size" → k ≠ "type" → osDiskOf pool volumeSize k = none) := by
  unfold osDiskOf validVolumeType
  cases ht : pool.Volume.Type_ with
  | none =>
    refine ⟨by simp [GoMap.set, GoMap.empty], fun v => by simp [GoMap.set, GoMap.empty],
      fun k h1 _ => by simp [GoMap.set, GoMap.empty, h1]⟩
  | some t =>
    by_cases hv : t = "Standard_LRS" ∨ t = "StandardSSD_LRS" ∨ t = "Premium_LRS"
    · simp only [hv, if_true]
      refine ⟨by simp [GoMap.set, GoMap.empty], fun v => ?_, fun k h1 h2 => ?_⟩
      · simp only [GoMap.set, if_true, Option.some.injEq]
        constructor
        · intro h; exact ⟨t, rfl, hv, h.symm⟩
        · rintro ⟨t', ht', -, rfl⟩
          cases ht'; rfl
      · simp [GoMap.set, GoMap.empty, h1, h2]
    · simp only [hv, if_false]
      refine ⟨by simp [GoMap.set, GoMap.empty], fun v => ?_, fun k h1 h2 => ?_⟩
      · simp only [GoMap.set, GoMap.empty]
        constructor
        · intro h; simp at h
        · rintro ⟨t', ht', hv', -⟩
          cases ht'; exact absurd hv' hv
      · simp [GoMap.set, GoMap.empty, h1]

theorem osDiskOf_invalid_type (pool : WorkerPool) (volumeSize : Int) (t : String)
    (ht : pool.Volume.Type_ = some t) (hv : ¬ validVolumeType t) :
    osDiskOf pool volumeSize = osDiskOf (withVolumeType pool none) volumeSize := by
  unfold validVolumeType at hv
  simp only [osDiskOf, ht, hv, if_false, withVolumeType]

theorem poolBody_withPools (env : Env) (w : workerDelegate) (ps : List WorkerPool)
    (c : Captured) (pool : WorkerPool) (acc : Acc) :
    poolBody env (withPools w ps) c pool acc = poolBody env w c pool acc := rfl

theorem poolsLoop_withPools (env : Env) (w : workerDelegate) (ps : List WorkerPool)
    (c : Captured) (pools : List WorkerPool) (acc : Acc) :
    poolsLoop env (withPools w ps) c pools acc = poolsLoop env w c pools acc := by
  induction pools generalizing acc with
  | nil => rfl
  | cons pool rest ih =>
    unfold poolsLoop
    rw [poolBody_withPools]
    cases poolBody env w c pool acc with
    | error f => rfl
    | ok acc1 => exact ih acc1

theorem poolBody_volume_type (env : Env) (w : workerDelegate) (c : Captured) (pool : WorkerPool)
    (acc acc' : Acc) (t : Option String)
    (hh : (env.WorkerPoolHash (withVolumeType pool t)
        (additionalDataOf c.infrastructureStatus)).toBool
      = (env.WorkerPoolHash pool (additionalDataOf c.infrastructureStatus)).toBool) :
    (poolBody env w c (withVolumeType pool t) acc).toBool
      = (poolBody env w c pool acc').toBool := by
  have h1 : (withVolumeType pool t).MachineImage = pool.MachineImage := rfl
  have h2 : (withVolumeType pool t).Volume.Size = pool.Volume.Size := rfl
  have h3 : (withVolumeType pool t).Zones = pool.Zones := rfl
  unfold poolBody
  simp only [h1, h2, h3]
  cases e0 : env.WorkerPoolHash (withVolumeType pool t)
      (additionalDataOf c.infrastructureStatus) with
  | error e =>
    cases e1 : env.WorkerPoolHash pool (additionalDataOf c.infrastructureStatus) with
    | error e' => rfl
    | ok hash =>
      rw [e0, e1] at hh
      simp [Except.toBool] at hh
  | ok hash0 =>
    cases e1 : env.WorkerPoolHash pool (additionalDataOf c.infrastructureStatus) with
    | error e' =>
      rw [e0, e1] at hh
      simp [Except.toBool] at hh
    | ok hash =>
      cases e2 : env.findMachineImage pool.MachineImage.Name pool.MachineImage.Version with
      | error e => rfl
      | ok found =>
        cases e3 : env.DiskSize pool.Volume.Size with
        | error e => rfl
        | ok size =>
          simp only []
          cases e4 : imageOf found.1 found.2 with
          | error e => rfl
          | ok image =>
            simp only []
            cases e5 : c.infrastructureStatus.Zoned with
            | true => rfl
            | false =>
              simp only [Bool.not_false, if_true]
              cases e6 : c.nodesAvailabilitySet with
              | none => rfl
              | some s => rfl

theorem poolsLoop_volume_types (env : Env) (w : workerDelegate) (c : Captured)
    (f : WorkerPool → Option String) (pools : List WorkerPool) (acc acc' : Acc)
    (hh : ∀ p ∈ pools,
      (env.WorkerPoolHash (withVolumeType p (f p))
          (additionalDataOf c.infrastructureStatus)).toBool
        = (env.WorkerPoolHash p (additionalDataOf c.infrastructureStatus)).toBool) :
    (poolsLoop env w c (pools.map (fun p => withVolumeType p (f p))) acc).toBool
      = (poolsLoop env w c pools acc').toBool := by
  induction pools generalizing acc acc' with
  | nil => rfl
  | cons pool rest ih =>
    have hb := poolBody_volume_type env w c pool acc acc' (f pool)
      (hh pool (List.mem_cons_self _ _))
    simp only [List.map_cons]
    unfold poolsLoop
    cases hb1 : poolBody env w c (withVolumeType pool (f pool)) acc with
    | error e =>
      cases hb2 : poolBody env w c pool acc' with
      | error e' => rfl
      | ok acc2 =>
        rw [hb1, hb2] at hb
        simp [Except.toBool] at hb
    | ok acc1 =>
      cases hb2 : poolBody env w c pool acc' with
      | error e' =>
        rw [hb1, hb2] at hb
        simp [Except.toBool] at hb
      | ok acc2 => exact ih acc1 acc2 (fun p hp => hh p (List.mem_cons_of_mem _ hp))

theorem locals_volume_types (env : Env) (w : workerDelegate)
    (f : WorkerPool → Option String)
    (hh : ∀ st, env.Decode w.worker.Spec.InfrastructureProviderStatus = .ok st →
      ∀ p ∈ w.worker.Spec.Pools,
        (env.WorkerPoolHash (withVolumeType p (f p)) (additionalDataOf st)).toBool
          = (env.WorkerPoolHash p (additionalDataOf st)).toBool) :
    (generateMachineConfigLocals env (withVolumeTypes w f)).toBool
      = (generateMachineConfigLocals env w).toBool := by
  have hs : generateMachineClassSecretData env (withVolumeTypes w f)
      = generateMachineClassSecretData env w := rfl
  have hd : env.Decode (withVolumeTypes w f).worker.Spec.InfrastructureProviderStatus
      = env.Decode w.worker.Spec.InfrastructureProviderStatus := rfl
  have hp : (withVolumeTypes w f).worker.Spec.Pools
      = w.worker.Spec.Pools.map (fun p => withVolumeType p (f p)) := rfl
  unfold generateMachineConfigLocals
  rw [hs, hd, hp]
  cases e1 : generateMachineClassSecretData env w with
  | error e => rfl
  | ok secretData =>
    cases e2 : env.Decode w.worker.Spec.InfrastructureProviderStatus with
    | error e => rfl
    | ok st =>
      simp only []
      cases e3 : FindSubnetByPurpose st.Networks.Subnets PurposeNodes with
      | error e => rfl
      | ok subnet =>
        simp only []
        cases e4 : st.Zoned with
        | true =>
          simp only [Bool.not_true, Bool.false_eq_true, if_false]
          unfold withVolumeTypes
          rw [poolsLoop_withPools]
          exact poolsLoop_volume_types env w _ f _ _ _ (hh st e2)
        | false =>
          simp only [Bool.not_false, if_true]
          cases e5 : FindAvailabilitySetByPurpose st.AvailabilitySets PurposeNodes with
          | error e => rfl
          | ok s =>
            simp only []
            unfold withVolumeTypes
            rw [poolsLoop_withPools]
            exact poolsLoop_volume_types env w _ f _ _ _ (hh st e2)

theorem config_toBool (env : Env) (w : workerDelegate) :
    (generateMachineConfig env w).2.toBool = (generateMachineConfigLocals env w).toBool := by
  unfold generateMachineConfig
  cases generateMachineConfigLocals env w <;> rfl

theorem gen_class_osDisk_image (env : Env) (w : workerDelegate) (c : Captured)
    (pool : WorkerPool) (hash : String) (image osDisk : GoMap Value) (zone : Option zoneInfo)
    (availabilitySetID : Option String) :
    (generateMachineClassAndDeployment env w c pool hash image osDisk zone
      availabilitySetID).2 "osDisk" = some (Value.map osDisk)
    ∧ (generateMachineClassAndDeployment env w c pool hash image osDisk zone
      availabilitySetID).2 "image" = some (Value.map image) := by
  cases zone <;> cases availabilitySetID <;> cases hi : c.infrastructureStatus.Identity <;>
    cases hr : c.infrastructureStatus.Networks.VNet.ResourceGroup <;>
    simp [generateMachineClassAndDeployment, GoMap.setIn_ne, GoMap.set, GoMap.empty, hi, hr]

theorem poolUnits_osDisk (env : Env) (w : workerDelegate) (c : Captured) (pool : WorkerPool)
    (hs : PoolShape env w c pool) :
    (poolUnits env w c pool).map (fun u => u.2 "osDisk")
      = List.replicate (unitCount c.infrastructureStatus.Zoned pool)
          (some (Value.map (osDiskOf pool (volumeSizeOf env pool)))) := by
  obtain ⟨hash, found, size, image, -, -, hsize, -, -, hz | hz⟩ := hs
  · obtain ⟨hz, hu⟩ := hz
    rw [hu]
    simp only [unitCount, hz, if_true, volumeSizeOf, hsize]
    rw [← List.map_const']
    apply zoneUnits_map
    intro z i n
    exact (gen_class_osDisk_image env w c pool hash image _ _ _).1
  · obtain ⟨hz, s, -, hu⟩ := hz
    rw [hu]
    simp [unitCount, hz, volumeSizeOf, hsize, (gen_class_osDisk_image env w c pool hash image
      (osDiskOf pool size) none (some s.ID)).1]

/-- C15: the OS disk descriptor `osDiskOf pool size` has the key `size` with the parsed
volume size, has the key `type` exactly when the pool's volume type is set and is one of
`Standard_LRS`, `StandardSSD_LRS`, `Premium_LRS` (with that type as value), and has no other
key; for a type outside the list it is the descriptor of the pool with the type unset. The
volume type is no failure point: the loop body of a pool fails with one volume type exactly
when it fails with any other, and so does the whole of `generateMachineConfig` when the
volume types of its pools are replaced, provided only that the pool hash, which is given the
whole pool, succeeds or fails alike (its value may differ). After a successful run every
stored class carries under `osDisk` the descriptor of its pool, built with the size the disk
size collaborator returned. -/
theorem osDisk_descriptor (env : Env) (w : workerDelegate) (pool : WorkerPool)
    (volumeSize : Int) :
    osDiskOf pool volumeSize "size" = some (Value.int volumeSize)
    ∧ (∀ v, osDiskOf pool volumeSize "type" = some v
        ↔ ∃ t, pool.Volume.Type_ = some t
            ∧ (t = "Standard_LRS" ∨ t = "StandardSSD_LRS" ∨ t = "Premium_LRS")
            ∧ v = Value.str t)
    ∧ (∀ k, k ≠ "size" → k ≠ "type" → osDiskOf pool volumeSize k = none)
    ∧ (∀ t, pool.Volume.Type_ = some t →
        ¬ (t = "Standard_LRS" ∨ t = "StandardSSD_LRS" ∨ t = "Premium_LRS") →
        osDiskOf pool volumeSize = osDiskOf (withVolumeType pool none) volumeSize)
    ∧ (∀ c acc t,
        (env.WorkerPoolHash (withVolumeType pool t)
            (additionalDataOf c.infrastructureStatus)).toBool
          = (env.WorkerPoolHash pool (additionalDataOf c.infrastructureStatus)).toBool →
        (poolBody env w c (withVolumeType pool t) acc).toBool
          = (poolBody env w c pool acc).toBool)
    ∧ (∀ f : WorkerPool → Option String,
        (∀ st, env.Decode w.worker.Spec.InfrastructureProviderStatus = .ok st →
          ∀ p ∈ w.worker.Spec.Pools,
            (env.WorkerPoolHash (withVolumeType p (f p)) (additionalDataOf st)).toBool
              = (env.WorkerPoolHash p (additionalDataOf st)).toBool) →
        (generateMachineConfig env (withVolumeTypes w f)).2.toBool
          = (generateMachineConfig env w).2.toBool)
    ∧ (∀ st, env.Decode w.worker.Spec.InfrastructureProviderStatus = .ok st →
        (generateMachineConfig env w).2 = .ok () →
        (∀ p ∈ w.worker.Spec.Pools, env.DiskSize p.Volume.Size = .ok (volumeSizeOf env p))
        ∧ (elems (generateMachineConfig env w).1.machineClasses).map (fun cl => cl "osDisk")
          = w.worker.Spec.Pools.flatMap (fun p =>
              List.replicate (unitCount st.Zoned p)
                (some (Value.map (osDiskOf p (volumeSizeOf env p)))))) := by
  obtain ⟨h1, h2, h3⟩ := osDiskOf_spec pool volumeSize
  refine ⟨h1, h2, h3, fun t ht hv => osDiskOf_invalid_type pool volumeSize t ht hv,
    fun c acc t hh => poolBody_volume_type env w c pool acc acc t hh,
    fun f hh => ?_, ?_⟩
  · rw [config_toBool, config_toBool]
    exact locals_volume_types env w f hh
  intro st hd h
  obtain ⟨c, ⟨-, hst, -, -, -⟩, -, hcls, hall⟩ := config_spec env w st hd h
  subst hst
  constructor
  · intro p hp
    obtain ⟨_, _, size, _, -, -, hsize, -⟩ := hall p hp
    simp [volumeSizeOf, hsize]
  · rw [hcls, List.map_map]
    exact units_map env w c _ _ _ (fun p _ hs => poolUnits_osDisk env w c p hs) hall

theorem osDisk_descriptor_witness :
    (sampleEnv true).Decode sampleDelegate.worker.Spec.InfrastructureProviderStatus
        = .ok (sampleStatus true)
    ∧ (generateMachineConfig (sampleEnv true) sampleDelegate).2 = .ok ()
    ∧ (samplePool "a" ["1"]).Volume.Type_ = some "Standard_LRS"
    ∧ osDiskOf (samplePool "a" ["1"]) 50 "type" = some (Value.str "Standard_LRS")
    ∧ osDiskOf (withVolumeType (samplePool "a" ["1"]) (some "Ultra")) 50 "type" = none
    ∧ volumeHashEnv.WorkerPoolHash (samplePool "a" ["1"]) [] = .ok "haStandard_LRS"
    ∧ volumeHashEnv.WorkerPoolHash (withVolumeType (samplePool "a" ["1"]) (some "Ultra")) []
        = .ok "haUltra"
    ∧ (poolBody volumeHashEnv sampleDelegate sampleCaptured
          (withVolumeType (samplePool "a" ["1"]) (some "Ultra")) initialAcc).toBool = true
    ∧ (generateMachineConfig volumeHashEnv
          (withVolumeTypes sampleDelegate (fun _ => some "Ultra"))).2.toBool = true
    ∧ (elems (generateMachineConfig (sampleEnv true) sampleDelegate).1.machineClasses).map
          (fun cl => cl "osDisk")
        = sampleDelegate.worker.Spec.Pools.flatMap (fun p =>
            List.replicate (unitCount (sampleStatus true).Zoned p)
              (some (Value.map (osDiskOf p (volumeSizeOf (sampleEnv true) p))))) :=
  ⟨rfl, sample_run_ok true, rfl,
    ((osDisk_descriptor (sampleEnv true) sampleDelegate (samplePool "a" ["1"]) 50).2.1
      (Value.str "Standard_LRS")).mpr ⟨"Standard_LRS", rfl, Or.inl rfl, rfl⟩,
    rfl, rfl, rfl,
    ((osDisk_descriptor volumeHashEnv sampleDelegate (samplePool "a" ["1"]) 50).2.2.2.2.1
      sampleCaptured initialAcc (some "Ultra") rfl).trans rfl,
    ((osDisk_descriptor volumeHashEnv sampleDelegate (samplePool "a" ["1"]) 50).2.2.2.2.2.1
      (fun _ => some "Ultra") (fun _ _ _ _ => rfl)).trans rfl,
    ((osDisk_descriptor (sampleEnv true) sampleDelegate (samplePool "a" ["1"]) 50).2.2.2.2.2.2
      (sampleStatus true) rfl (sample_run_ok true)).2⟩

/-! ## Accelerated networking -/

theorem versionsLoop_true (v : String) (versions : List MachineImageVersion) (b : Bool)
    (h : versionsLoop v versions b = some true) :
    b = true ∨ ∃ ver ∈ versions, ver.Version = v ∧ ver.AcceleratedNetworking = some true := by
  induction versions generalizing b with
  | nil =>
    simp only [versionsLoop, Option.some.injEq] at h
    exact Or.inl h
  | cons ver rest ih =>
    unfold versionsLoop at h
    by_cases hv : ver.Version = v
    · by_cases ha : ver.AcceleratedNetworking = some true
      · exact Or.inr ⟨ver, List.mem_cons_self _ _, hv, ha⟩
      · simp [hv, ha] at h
    · simp only [hv, if_false] at h
      rcases ih b h with hb | ⟨x, hx, hx'⟩
      · exact Or.inl hb
      · exact Or.inr ⟨x, List.mem_cons_of_mem _ hx, hx'⟩

theorem versionsLoop_unsupported (v : String) (versions : List MachineImageVersion) (b : Bool)
    (h : ∃ ver ∈ versions, ver.Version = v ∧ ver.AcceleratedNetworking ≠ some true) :
    versionsLoop v versions b = none := by
  induction versions generalizing b with
  | nil => simp at h
  | cons ver rest ih =>
    unfold versionsLoop
    by_cases hv : ver.Version = v
    · by_cases ha : ver.AcceleratedNetworking = some true
      · simp only [hv, ha, if_true]
        obtain ⟨x, hx, hxv, hxa⟩ := h
        rcases List.mem_cons.mp hx with rfl | hx
        · exact absurd ha hxa
        · exact ih true ⟨x, hx, hxv, hxa⟩
      · simp [hv, ha]
    · simp only [hv, if_false]
      obtain ⟨x, hx, hxv, hxa⟩ := h
      rcases List.mem_cons.mp hx with rfl | hx
      · exact absurd hxv hv
      · exact ih b ⟨x, hx, hxv, hxa⟩

theorem versionsLoop_absent (v : String) (versions : List MachineImageVersion) (b : Bool)
    (h : ∀ ver ∈ versions, ver.Version ≠ v) : versionsLoop v versions b = some b := by
  induction versions generalizing b with
  | nil => rfl
  | cons ver rest ih =>
    unfold versionsLoop
    simp only [h ver (List.mem_cons_self _ _), if_false]
    exact ih b (fun x hx => h x (List.mem_cons_of_mem _ hx))

theorem imagesLoop_true (n v : String) (images : List MachineImages) (b : Bool)
    (h : imagesLoop n v images b = some true) :
    b = true ∨ ∃ image ∈ images, image.Name = n
      ∧ ∃ ver ∈ image.Versions, ver.Version = v ∧ ver.AcceleratedNetworking = some true := by
  induction images generalizing b with
  | nil =>
    simp only [imagesLoop, Option.some.injEq] at h
    exact Or.inl h
  | cons image rest ih =>
    unfold imagesLoop at h
    by_cases hn : image.Name = n
    · simp only [hn, ne_eq, not_true_eq_false, if_false] at h
      cases hl : versionsLoop v image.Versions b with
      | none => simp [hl] at h
      | some b' =>
        simp only [hl] at h
        rcases ih b' h with hb | ⟨x, hx, hx'⟩
        · subst hb
          rcases versionsLoop_true v image.Versions b hl with hb | hver
          · exact Or.inl hb
          · exact Or.inr ⟨image, List.mem_cons_self _ _, hn, hver⟩
        · exact Or.inr ⟨x, List.mem_cons_of_mem _ hx, hx'⟩
    · simp only [ne_eq, hn, not_false_eq_true, if_true] at h
      rcases ih b h with hb | ⟨x, hx, hx'⟩
      · exact Or.inl hb
      · exact Or.inr ⟨x, List.mem_cons_of_mem _ hx, hx'⟩

theorem imagesLoop_unsupported (n v : String) (images : List MachineImages) (b : Bool)
    (h : ∃ image ∈ images, image.Name = n
      ∧ ∃ ver ∈ image.Versions, ver.Version = v ∧ ver.AcceleratedNetworking ≠ some true) :
    imagesLoop n v images b = none := by
  induction images generalizing b with
  | nil => simp at h
  | cons image rest ih =>
    unfold imagesLoop
    obtain ⟨x, hx, hxn, hxv⟩ := h
    by_cases hn : image.Name = n
    · simp only [hn, ne_eq, not_true_eq_false, if_false]
      cases hl : versionsLoop v image.Versions b with
      | none => rfl
      | some b' =>
        simp only []
        rcases List.mem_cons.mp hx with rfl | hx
        · rw [versionsLoop_unsupported v _ b hxv] at hl
          cases hl
        · exact ih b' ⟨x, hx, hxn, hxv⟩
    · simp only [ne_eq, hn, not_false_eq_true, if_true]
      rcases List.mem_cons.mp hx with rfl | hx
      · exact absurd hxn hn
      · exact ih b ⟨x, hx, hxn, hxv⟩

theorem imagesLoop_absent (n v : String) (images : List MachineImages) (b : Bool)
    (h : ∀ image ∈ images, image.Name = n → ∀ ver ∈ image.Versions, ver.Version ≠ v) :
    imagesLoop n v images b = some b := by
  induction images generalizing b with
  | nil => rfl
  | cons image rest ih =>
    unfold imagesLoop
    by_cases hn : image.Name = n
    · simp only [hn, ne_eq, not_true_eq_false, if_false]
      rw [versionsLoop_absent v _ b (h image (List.mem_cons_self _ _) hn)]
      exact ih b (fun x hx => h x (List.mem_cons_of_mem _ hx))
    · simp only [ne_eq, hn, not_false_eq_true, if_true]
      exact ih b (fun x hx => h x (List.mem_cons_of_mem _ hx))

/-- C16: if `enableAcceleratedNetworking` returns true, the machine type is listed in
`AcceleratedNetworkingMachineTypes` and the profile has an entry for the image name with the
image version whose flag is set and true; if the profile has no entry for the image name
and version, or has one whose flag is unset, the result is false. -/
theorem enableAcceleratedNetworking_sound (w : workerDelegate)
    (machineType machineImageName machineImageVersion : String) :
    (enableAcceleratedNetworking w machineType machineImageName machineImageVersion = true →
      machineType ∈ w.cloudProfileConfig.AcceleratedNetworkingMachineTypes
      ∧ ∃ image ∈ w.cloudProfileConfig.MachineImages, image.Name = machineImageName
        ∧ ∃ ver ∈ image.Versions, ver.Version = machineImageVersion
          ∧ ver.AcceleratedNetworking = some true)
    ∧ ((∀ image ∈ w.cloudProfileConfig.MachineImages, image.Name = machineImageName →
          ∀ ver ∈ image.Versions, ver.Version ≠ machineImageVersion) →
        enableAcceleratedNetworking w machineType machineImageName machineImageVersion = false)
    ∧ ((∃ image ∈ w.cloudProfileConfig.MachineImages, image.Name = machineImageName
          ∧ ∃ ver ∈ image.Versions, ver.Version = machineImageVersion
            ∧ ver.AcceleratedNetworking = none) →
        enableAcceleratedNetworking w machineType machineImageName machineImageVersion
          = false) := by
  refine ⟨fun h => ?_, fun h => ?_, fun h => ?_⟩
  · unfold enableAcceleratedNetworking at h
    cases hl : imagesLoop machineImageName machineImageVersion
        w.cloudProfileConfig.MachineImages false with
    | none => simp [hl] at h
    | some osSupport =>
      simp only [hl, Bool.and_eq_true, List.any_eq_true, beq_iff_eq] at h
      obtain ⟨hos, m, hm, rfl⟩ := h
      subst hos
      refine ⟨hm, ?_⟩
      rcases imagesLoop_true _ _ _ _ hl with hb | himg
      · exact absurd hb (by decide)
      · exact himg
  · unfold enableAcceleratedNetworking
    rw [imagesLoop_absent _ _ _ _ h]
    rfl
  · unfold enableAcceleratedNetworking
    obtain ⟨image, hi, hn, ver, hv, hvv, hva⟩ := h
    rw [imagesLoop_unsupported _ _ _ _ ⟨image, hi, hn, ver, hv, hvv, by rw [hva]; simp⟩]

theorem enableAcceleratedNetworking_sound_witness :
    enableAcceleratedNetworking profileDelegate "Standard_D2_v3" "coreos" "1.0" = true
    ∧ ("Standard_D2_v3" ∈ profileDelegate.cloudProfileConfig.AcceleratedNetworkingMachineTypes
      ∧ ∃ image ∈ profileDelegate.cloudProfileConfig.MachineImages, image.Name = "coreos"
        ∧ ∃ ver ∈ image.Versions, ver.Version = "1.0"
          ∧ ver.AcceleratedNetworking = some true)
    ∧ enableAcceleratedNetworking profileDelegate "Standard_D2_v3" "coreos" "2.0" = false
    ∧ enableAcceleratedNetworking profileDelegate "Standard_D2_v3" "coreos" "3.0" = false :=
  ⟨by decide,
    (enableAcceleratedNetworking_sound profileDelegate "Standard_D2_v3" "coreos" "1.0").1
      (by decide),
    (enableAcceleratedNetworking_sound profileDelegate "Standard_D2_v3" "coreos" "2.0").2.2
      ⟨_, List.mem_cons_self _ _, rfl, _, List.mem_cons_of_mem _ (List.mem_cons_self _ _),
        rfl, rfl⟩,
    (enableAcceleratedNetworking_sound profileDelegate "Standard_D2_v3" "coreos" "3.0").2.1
      (by decide)⟩

/-! ## Distinct names -/

theorem split_at_last (x : Char) (a a' b b' : List Char) (hb : x ∉ b) (hb' : x ∉ b')
    (h : a ++ x :: b = a' ++ x :: b') : a = a' ∧ b = b' := by
  rcases List.append_eq_append_iff.mp h with ⟨c, hc, hc'⟩ | ⟨c, hc, hc'⟩
  · cases c with
    | nil =>
      simp only [List.nil_append, List.cons.injEq, true_and] at hc'
      simp only [List.append_nil] at hc
      exact ⟨hc.symm, hc'⟩
    | cons y c =>
      simp only [List.cons_append, List.cons.injEq] at hc'
      exact absurd (by rw [hc'.2]; simp) hb
  · cases c with
    | nil =>
      simp only [List.nil_append, List.cons.injEq, true_and] at hc'
      simp only [List.append_nil] at hc
      exact ⟨hc, hc'.symm⟩
    | cons y c =>
      simp only [List.cons_append, List.cons.injEq] at hc'
      exact absurd (by rw [hc'.2]; simp) hb'

theorem append_dash_inj (a a' b b' : String) (hb : dashFree b) (hb' : dashFree b')
    (h : a ++ "-" ++ b = a' ++ "-" ++ b') : a = a' ∧ b = b' := by
  have hd := String.ext_iff.mp h
  simp only [String.data_append] at hd
  rw [List.append_assoc, List.append_assoc] at hd
  obtain ⟨h1, h2⟩ := split_at_last '-' a.data a'.data b.data b'.data hb hb' hd
  exact ⟨String.ext h1, String.ext h2⟩

theorem append_left_cancel (a b b' : String) (h : a ++ b = a ++ b') : b = b' := by
  have hd := String.ext_iff.mp h
  simp only [String.data_append] at hd
  exact String.ext (List.append_cancel_left hd)

theorem zone_suffix (a z : String) : a ++ "-z" ++ z = a ++ "-" ++ ("z" ++ z) := by
  apply String.ext
  simp only [String.data_append]
  simp

theorem dashFree_zone (z : String) (hz : dashFree z) : dashFree ("z" ++ z) := by
  unfold dashFree at hz ⊢
  simp only [String.data_append, List.mem_append, not_or]
  exact ⟨by decide, hz⟩

theorem deployment_name_inj (ns p p' z z' : String) (hz : dashFree z) (hz' : dashFree z')
    (h : ns ++ "-" ++ p ++ "-z" ++ z = ns ++ "-" ++ p' ++ "-z" ++ z') : p = p' ∧ z = z' := by
  rw [zone_suffix, zone_suffix] at h
  obtain ⟨h1, h2⟩ := append_dash_inj _ _ _ _ (dashFree_zone z hz) (dashFree_zone z' hz') h
  exact ⟨append_left_cancel _ _ _ h1, append_left_cancel _ _ _ h2⟩

theorem class_name_inj (ns p p' h h' : String) (hh : dashFree h) (hh' : dashFree h')
    (e : ns ++ "-" ++ p ++ "-" ++ h = ns ++ "-" ++ p' ++ "-" ++ h') : p = p' ∧ h = h' := by
  obtain ⟨h1, h2⟩ := append_dash_inj _ _ _ _ hh hh' e
  exact ⟨append_left_cancel _ _ _ h1, h2⟩

theorem zoned_class_name_inj (ns p p' h h' z z' : String) (hh : dashFree h)
    (hh' : dashFree h') (hz : dashFree z) (hz' : dashFree z')
    (e : ns ++ "-" ++ p ++ "-" ++ h ++ "-z" ++ z = ns ++ "-" ++ p' ++ "-" ++ h' ++ "-z" ++ z') :
    p = p' ∧ h = h' ∧ z = z' := by
  rw [zone_suffix, zone_suffix] at e
  obtain ⟨h1, h2⟩ := append_dash_inj _ _ _ _ (dashFree_zone z hz) (dashFree_zone z' hz') e
  obtain ⟨h3, h4⟩ := class_name_inj ns p p' h h' hh hh' h1
  exact ⟨h3, h4, append_left_cancel _ _ _ h2⟩

theorem nodup_flatMap_of_owner {α β : Type} (l : List α) (f : α → List β) (name : α → String)
    (h1 : ∀ x ∈ l, (f x).Nodup)
    (h2 : ∀ x ∈ l, ∀ y ∈ l, ∀ b, b ∈ f x → b ∈ f y → name x = name y)
    (h3 : (l.map name).Nodup) : (l.flatMap f).Nodup := by
  rw [List.nodup_flatMap]
  refine ⟨h1, ?_⟩
  have hp : List.Pairwise (fun a b => name a ≠ name b) l := List.pairwise_map.mp h3
  refine List.Pairwise.imp_of_mem ?_ hp
  intro a b ha hb hne
  intro t hta htb
  exact hne (h2 a ha b hb t hta htb)

theorem poolUnits_class_names (env : Env) (w : workerDelegate) (c : Captured)
    (pool : WorkerPool) (hs : PoolShape env w c pool) :
    (poolUnits env w c pool).map (fun u => u.1.ClassName)
      = expectedClassNames w.worker.Namespace c.infrastructureStatus.Zoned
          (fingerprint env c.infrastructureStatus pool) pool := by
  obtain ⟨hash, found, size, image, -, -, -, -, hfp, hz | hz⟩ := hs
  · obtain ⟨hz, hu⟩ := hz
    rw [hu, hfp]
    simp only [expectedClassNames, hz, if_true]
    apply zoneUnits_map
    intro z i n
    simp [(gen_deployment_names env w c pool hash image (osDiskOf pool size)
      (some { name := z, index := i, count := n }) none).2.1, classNameOf]
  · obtain ⟨hz, s, -, hu⟩ := hz
    rw [hu, hfp]
    simp [expectedClassNames, hz, (gen_deployment_names env w c pool hash image
      (osDiskOf pool size) none (some s.ID)).2.1, classNameOf]

theorem expectedDeploymentNames_nodup (ns : String) (zoned : Bool) (pools : List WorkerPool)
    (hpools : (pools.map (fun p => p.Name)).Nodup) (hzones : ∀ p ∈ pools, p.Zones.Nodup)
    (hzdash : ∀ p ∈ pools, ∀ z ∈ p.Zones, dashFree z) :
    (pools.flatMap (expectedDeploymentNames ns zoned)).Nodup := by
  apply nodup_flatMap_of_owner pools _ (fun p => p.Name) _ _ hpools
  · intro p hp
    unfold expectedDeploymentNames
    cases zoned with
    | false => simp
    | true =>
      simp only [if_true]
      exact List.Nodup.map_on (fun z _ z' _ e => append_left_cancel _ _ _ e) (hzones p hp)
  · intro p hp q hq b hbp hbq
    unfold expectedDeploymentNames at hbp hbq
    cases zoned with
    | false =>
      simp only [Bool.false_eq_true, if_false, List.mem_singleton] at hbp hbq
      exact append_left_cancel _ _ _ (hbp.symm.trans hbq)
    | true =>
      simp only [if_true, List.mem_map] at hbp hbq
      obtain ⟨z, hz, rfl⟩ := hbp
      obtain ⟨z', hz', e⟩ := hbq
      exact (deployment_name_inj ns _ _ _ _ (hzdash q hq z' hz') (hzdash p hp z hz) e).1.symm

theorem expectedClassNames_nodup (ns : String) (zoned : Bool) (hash : WorkerPool → String)
    (pools : List WorkerPool)
    (hpools : (pools.map (fun p => p.Name)).Nodup) (hzones : ∀ p ∈ pools, p.Zones.Nodup)
    (hzdash : ∀ p ∈ pools, ∀ z ∈ p.Zones, dashFree z)
    (hhash : ∀ p ∈ pools, dashFree (hash p)) :
    (pools.flatMap (fun p => expectedClassNames ns zoned (hash p) p)).Nodup := by
  apply nodup_flatMap_of_owner pools _ (fun p => p.Name) _ _ hpools
  · intro p hp
    unfold expectedClassNames
    cases zoned with
    | false => simp
    | true =>
      simp only [if_true]
      exact List.Nodup.map_on (fun z _ z' _ e => append_left_cancel _ _ _ e) (hzones p hp)
  · intro p hp q hq b hbp hbq
    unfold expectedClassNames at hbp hbq
    cases zoned with
    | false =>
      simp only [Bool.false_eq_true, if_false, List.mem_singleton] at hbp hbq
      exact (class_name_inj ns _ _ _ _ (hhash p hp) (hhash q hq) (hbp.symm.trans hbq)).1
    | true =>
      simp only [if_true, List.mem_map] at hbp hbq
      obtain ⟨z, hz, rfl⟩ := hbp
      obtain ⟨z', hz', e⟩ := hbq
      exact (zoned_class_name_inj ns _ _ _ _ _ _ (hhash q hq) (hhash p hp)
        (hzdash q hq z' hz') (hzdash p hp z hz) e).1.symm

/-- C17 for inputs whose zone names and fingerprints contain no `-`: after a successful run
over pools with pairwise distinct names and duplicate-free zone lists, the names of the
stored deployments are pairwise distinct, and so are their class names and the strings
under the key `name` of the stored classes. -/
theorem generateMachineConfig_names_distinct (env : Env) (w : workerDelegate)
    (st : InfrastructureStatus)
    (hd : env.Decode w.worker.Spec.InfrastructureProviderStatus = .ok st)
    (h : (generateMachineConfig env w).2 = .ok ())
    (hpools : (w.worker.Spec.Pools.map (fun p => p.Name)).Nodup)
    (hzones : ∀ p ∈ w.worker.Spec.Pools, p.Zones.Nodup)
    (hzdash : ∀ p ∈ w.worker.Spec.Pools, ∀ z ∈ p.Zones, dashFree z)
    (hhash : ∀ p ∈ w.worker.Spec.Pools, dashFree (fingerprint env st p)) :
    ((elems (generateMachineConfig env w).1.machineDeployments).map (fun d => d.Name)).Nodup
    ∧ ((elems (generateMachineConfig env w).1.machineDeployments).map
        (fun d => d.ClassName)).Nodup
    ∧ ((elems (generateMachineConfig env w).1.machineClasses).map
        (fun c => c "name")).Nodup := by
  obtain ⟨c, ⟨-, hst, -, -, -⟩, hdep, hcls, hall⟩ := config_spec env w st hd h
  subst hst
  have hnames : (elems (generateMachineConfig env w).1.machineDeployments).map (fun d => d.Name)
      = w.worker.Spec.Pools.flatMap
          (expectedDeploymentNames w.worker.Namespace c.infrastructureStatus.Zoned) := by
    rw [hdep, List.map_map]
    exact units_map env w c _ _ _
      (fun pool _ hs => poolUnits_deployment_names env w c pool hs) hall
  have hclass : (elems (generateMachineConfig env w).1.machineDeployments).map
        (fun d => d.ClassName)
      = w.worker.Spec.Pools.flatMap (fun p =>
          expectedClassNames w.worker.Namespace c.infrastructureStatus.Zoned
            (fingerprint env c.infrastructureStatus p) p) := by
    rw [hdep, List.map_map]
    exact units_map env w c _ _ _
      (fun pool _ hs => poolUnits_class_names env w c pool hs) hall
  have hkey : (elems (generateMachineConfig env w).1.machineClasses).map (fun cl => cl "name")
      = ((elems (generateMachineConfig env w).1.machineDeployments).map
          (fun d => d.ClassName)).map (fun s => some (Value.str s)) := by
    rw [hcls, hdep, List.map_map, List.map_map, List.map_map]
    apply List.map_congr_left
    intro u hu
    exact (unit_lockstep env w c _ u hu).2
  have hc2 := expectedClassNames_nodup w.worker.Namespace c.infrastructureStatus.Zoned
    (fingerprint env c.infrastructureStatus) _ hpools hzones hzdash hhash
  refine ⟨?_, ?_, ?_⟩
  · rw [hnames]
    exact expectedDeploymentNames_nodup _ _ _ hpools hzones hzdash
  · rw [hclass]; exact hc2
  · rw [hkey, hclass]
    refine List.Nodup.map ?_ hc2
    intro a b hab
    simp only [Option.some.injEq, Value.str.injEq] at hab
    exact hab

theorem generateMachineConfig_names_distinct_witness :
    (sampleEnv true).Decode sampleDelegate.worker.Spec.InfrastructureProviderStatus
        = .ok (sampleStatus true)
    ∧ (generateMachineConfig (sampleEnv true) sampleDelegate).2 = .ok ()
    ∧ (sampleDelegate.worker.Spec.Pools.map (fun p => p.Name)).Nodup
    ∧ (∀ p ∈ sampleDelegate.worker.Spec.Pools, p.Zones.Nodup)
    ∧ (∀ p ∈ sampleDelegate.worker.Spec.Pools, ∀ z ∈ p.Zones, '-' ∉ z.data)
    ∧ (∀ p ∈ sampleDelegate.worker.Spec.Pools,
        '-' ∉ (fingerprint (sampleEnv true) (sampleStatus true) p).data)
    ∧ ((elems (generateMachineConfig (sampleEnv true) sampleDelegate).1.machineDeployments).map
        (fun d => d.Name)).Nodup
    ∧ ((elems (generateMachineConfig (sampleEnv true) sampleDelegate).1.machineDeployments).map
        (fun d => d.ClassName)).Nodup :=
  ⟨rfl, sample_run_ok true, by decide, by decide, by decide, by decide,
    (generateMachineConfig_names_distinct (sampleEnv true) sampleDelegate (sampleStatus true)
      rfl (sample_run_ok true) (by decide) (by decide) (by decide) (by decide)).1,
    (generateMachineConfig_names_distinct (sampleEnv true) sampleDelegate (sampleStatus true)
      rfl (sample_run_ok true) (by decide) (by decide) (by decide) (by decide)).2.1⟩

/-- C17 as stated fails. Zoned, the pools `a` with zone `1-z2` and `a-z1` with zone `2`
have distinct names and duplicate-free zones, and both deployments are named
`shoot-a-z1-z2`. Unzoned, the pools `a` and `a-b` with the hashes `b-c` and `c` both get
the class name `shoot-a-b-c`. -/
theorem names_distinct_counterexample :
    ((generateMachineConfig (sampleEnv true) dashedZonesDelegate).2 = .ok ()
      ∧ (dashedZonesDelegate.worker.Spec.Pools.map (fun p => p.Name)).Nodup
      ∧ (∀ p ∈ dashedZonesDelegate.worker.Spec.Pools, p.Zones.Nodup)
      ∧ (elems (generateMachineConfig (sampleEnv true)
            dashedZonesDelegate).1.machineDeployments).map (fun d => d.Name)
          = ["shoot-a-z1-z2", "shoot-a-z1-z2"]
      ∧ ¬ ((elems (generateMachineConfig (sampleEnv true)
            dashedZonesDelegate).1.machineDeployments).map (fun d => d.Name)).Nodup)
    ∧ ((generateMachineConfig dashedHashEnv dashedPoolsDelegate).2 = .ok ()
      ∧ (dashedPoolsDelegate.worker.Spec.Pools.map (fun p => p.Name)).Nodup
      ∧ (∀ p ∈ dashedPoolsDelegate.worker.Spec.Pools, p.Zones.Nodup)
      ∧ (elems (generateMachineConfig dashedHashEnv
            dashedPoolsDelegate).1.machineDeployments).map (fun d => d.ClassName)
          = ["shoot-a-b-c", "shoot-a-b-c"]
      ∧ ¬ ((elems (generateMachineConfig dashedHashEnv
            dashedPoolsDelegate).1.machineDeployments).map (fun d => d.ClassName)).Nodup) :=
  ⟨⟨rfl, by decide, by decide, by decide, by decide⟩,
    ⟨rfl, by decide, by decide, by decide, by decide⟩⟩

/-! ## Determinism and memoization -/

theorem poolBody_stored_irrelevant (env : Env) (worker : Worker) (profile : CloudProfileConfig)
    (a a' : Option (List MachineDeployment)) (b b' : Option (List (GoMap Value)))
    (i i' : Option (List MachineImage)) (c : Captured) (pool : WorkerPool) (acc : Acc) :
    poolBody env
        { worker := worker, cloudProfileConfig := profile, machineDeployments := a,
          machineClasses := b, machineImages := i }
        c pool acc
      = poolBody env
        { worker := worker, cloudProfileConfig := profile, machineDeployments := a',
          machineClasses := b', machineImages := i' }
        c pool acc :=
  rfl

theorem poolsLoop_stored_irrelevant (env : Env) (worker : Worker)
    (profile : CloudProfileConfig)
    (a a' : Option (List MachineDeployment)) (b b' : Option (List (GoMap Value)))
    (i i' : Option (List MachineImage)) (c : Captured) (pools : List WorkerPool) (acc : Acc) :
    poolsLoop env
        { worker := worker, cloudProfileConfig := profile, machineDeployments := a,
          machineClasses := b, machineImages := i }
        c pools acc
      = poolsLoop env
        { worker := worker, cloudProfileConfig := profile, machineDeployments := a',
          machineClasses := b', machineImages := i' }
        c pools acc := by
  induction pools generalizing acc with
  | nil => rfl
  | cons pool rest ih =>
    unfold poolsLoop
    rw [poolBody_stored_irrelevant env worker profile a a' b b' i i']
    cases poolBody env
        { worker := worker, cloudProfileConfig := profile, machineDeployments := a',
          machineClasses := b', machineImages := i' }
        c pool acc with
    | error f => rfl
    | ok acc1 => exact ih acc1

theorem locals_stored_irrelevant (env : Env) (w w' : workerDelegate)
    (hw : w'.worker = w.worker) (hp : w'.cloudProfileConfig = w.cloudProfileConfig) :
    generateMachineConfigLocals env w' = generateMachineConfigLocals env w := by
  cases w with
  | mk worker profile a b i =>
    cases w' with
    | mk worker' profile' a' b' i' =>
      simp only at hw hp
      subst hw hp
      unfold generateMachineConfigLocals
      have hs : generateMachineClassSecretData env
            { worker := worker', cloudProfileConfig := profile', machineDeployments := a',
              machineClasses := b', machineImages := i' }
          = generateMachineClassSecretData env
            { worker := worker', cloudProfileConfig := profile', machineDeployments := a,
              machineClasses := b, machineImages := i } := rfl
      rw [hs]
      cases generateMachineClassSecretData env
            { worker := worker', cloudProfileConfig := profile', machineDeployments := a,
              machineClasses := b, machineImages := i } with
      | error f => rfl
      | ok sd =>
        simp only []
        cases env.Decode worker'.Spec.InfrastructureProviderStatus with
        | error e => rfl
        | ok st =>
          simp only []
          cases FindSubnetByPurpose st.Networks.Subnets PurposeNodes with
          | error e => rfl
          | ok subnet =>
            simp only []
            split
            · rfl
            · exact poolsLoop_stored_irrelevant env worker' profile' a' a b' b i' i _ _ _

theorem zonesLoop_isSome (gen : Option zoneInfo → Option String → MachineDeployment × GoMap Value)
    (zoneCount : Int) (zones : List String) (i : Nat) (acc : Acc)
    (h : acc.machineDeployments.isSome = true) :
    (zonesLoop gen zoneCount zones i acc).machineDeployments.isSome = true := by
  induction zones generalizing i acc with
  | nil => exact h
  | cons z rest ih =>
    unfold zonesLoop
    exact ih _ _ rfl

theorem poolBody_isSome (env : Env) (w : workerDelegate) (c : Captured) (pool : WorkerPool)
    (acc acc' : Acc) (h : poolBody env w c pool acc = .ok acc')
    (hs : acc.machineDeployments.isSome = true) : acc'.machineDeployments.isSome = true := by
  unfold poolBody at h
  simp only [] at h
  cases e1 : env.WorkerPoolHash pool (additionalDataOf c.infrastructureStatus) with
  | error e => simp [e1] at h
  | ok hash =>
    cases e2 : env.findMachineImage pool.MachineImage.Name pool.MachineImage.Version with
    | error e => simp [e1, e2] at h
    | ok found =>
      cases e3 : env.DiskSize pool.Volume.Size with
      | error e => simp [e1, e2, e3] at h
      | ok size =>
        cases e4 : imageOf found.1 found.2 with
        | error e => simp [e1, e2, e3, e4] at h
        | ok image =>
          simp only [e1, e2, e3, e4] at h
          cases e5 : c.infrastructureStatus.Zoned with
          | true =>
            simp only [e5, Bool.not_true, Bool.false_eq_true, if_false, Except.ok.injEq] at h
            subst h
            exact zonesLoop_isSome _ _ _ _ _ hs
          | false =>
            simp only [e5, Bool.not_false, if_true] at h
            cases e6 : c.nodesAvailabilitySet with
            | none => simp [e6] at h
            | some s =>
              simp only [e6, Except.ok.injEq] at h
              subst h
              rfl

theorem poolsLoop_isSome (env : Env) (w : workerDelegate) (c : Captured)
    (pools : List WorkerPool) (acc acc' : Acc) (h : poolsLoop env w c pools acc = .ok acc')
    (hs : acc.machineDeployments.isSome = true) : acc'.machineDeployments.isSome = true := by
  induction pools generalizing acc with
  | nil =>
    simp only [poolsLoop, Except.ok.injEq] at h
    subst h
    exact hs
  | cons pool rest ih =>
    unfold poolsLoop at h
    cases hb : poolBody env w c pool acc with
    | error f => simp [hb] at h
    | ok acc1 =>
      simp only [hb] at h
      exact ih acc1 h (poolBody_isSome env w c pool acc acc1 hb hs)

theorem locals_isSome (env : Env) (w : workerDelegate) (acc : Acc)
    (h : generateMachineConfigLocals env w = .ok acc) :
    acc.machineDeployments.isSome = true := by
  unfold generateMachineConfigLocals at h
  cases hs : generateMachineClassSecretData env w with
  | error f => simp [hs] at h
  | ok sd =>
    cases hd : env.Decode w.worker.Spec.InfrastructureProviderStatus with
    | error e => simp [hs, hd] at h
    | ok st =>
      cases hn : FindSubnetByPurpose st.Networks.Subnets PurposeNodes with
      | error e => simp [hs, hd, hn] at h
      | ok subnet =>
        simp only [hs, hd, hn] at h
        split at h
        · cases h
        · exact poolsLoop_isSome env w _ _ _ _ h rfl

theorem config_of_locals_ok (env : Env) (w : workerDelegate) (acc : Acc)
    (h : generateMachineConfigLocals env w = .ok acc) :
    generateMachineConfig env w
      = ({ w with machineDeployments := acc.machineDeployments
                  machineClasses := acc.machineClasses
                  machineImages := acc.machineImages }, .ok ()) := by
  unfold generateMachineConfig
  rw [h]

theorem locals_ok_of_success (env : Env) (w : workerDelegate)
    (h : (generateMachineConfig env w).2 = .ok ()) :
    ∃ acc, generateMachineConfigLocals env w = .ok acc := by
  unfold generateMachineConfig at h
  cases hl : generateMachineConfigLocals env w with
  | error f => simp [hl] at h
  | ok acc => exact ⟨acc, rfl⟩

/-- C18: the outcome of a successful `generateMachineConfig` depends only on the worker
resource, the cloud profile and the collaborators, not on what the receiver stores: any
delegate with the same inputs, in particular the receiver after the first run, succeeds
and stores the same deployments, classes and images. `GenerateMachineDeployments` on the
receiver after the run returns the stored list and leaves the receiver as it is, and that
list is the one a call on a receiver storing no deployments generates and returns; on any
receiver that stores a deployment list it returns that list without recomputing. -/
theorem expansion_deterministic_and_memoized (env : Env) (w : workerDelegate)
    (h : (generateMachineConfig env w).2 = .ok ()) :
    (∀ w' : workerDelegate, w'.worker = w.worker →
      w'.cloudProfileConfig = w.cloudProfileConfig →
      (generateMachineConfig env w').2 = .ok ()
      ∧ (generateMachineConfig env w').1.machineDeployments
          = (generateMachineConfig env w).1.machineDeployments
      ∧ (generateMachineConfig env w').1.machineClasses
          = (generateMachineConfig env w).1.machineClasses
      ∧ (generateMachineConfig env w').1.machineImages
          = (generateMachineConfig env w).1.machineImages)
    ∧ ((generateMachineConfig env (generateMachineConfig env w).1).2 = .ok ()
      ∧ (generateMachineConfig env (generateMachineConfig env w).1).1
          = (generateMachineConfig env w).1)
    ∧ GenerateMachineDeployments env (generateMachineConfig env w).1
        = ((generateMachineConfig env w).1,
            .ok (generateMachineConfig env w).1.machineDeployments)
    ∧ (w.machineDeployments = none →
        GenerateMachineDeployments env w
          = ((generateMachineConfig env w).1,
              .ok (generateMachineConfig env w).1.machineDeployments))
    ∧ (∀ (w' : workerDelegate) (stored : List MachineDeployment),
        w'.machineDeployments = some stored →
        GenerateMachineDeployments env w' = (w', .ok (some stored))) := by
  obtain ⟨acc, hacc⟩ := locals_ok_of_success env w h
  have hsame : ∀ w' : workerDelegate, w'.worker = w.worker →
      w'.cloudProfileConfig = w.cloudProfileConfig →
      generateMachineConfigLocals env w' = .ok acc := by
    intro w' hw hp
    rw [locals_stored_irrelevant env w w' hw hp, hacc]
  have hsome := locals_isSome env w acc hacc
  refine ⟨?_, ?_, ?_, ?_, ?_⟩
  rotate_left 4
  · intro w' stored hstored
    unfold GenerateMachineDeployments
    rw [hstored]
  · intro w' hw hp
    rw [config_of_locals_ok env w' acc (hsame w' hw hp), config_of_locals_ok env w acc hacc]
    exact ⟨rfl, rfl, rfl, rfl⟩
  · rw [config_of_locals_ok env w acc hacc]
    have h2 := config_of_locals_ok env
      { w with machineDeployments := acc.machineDeployments
               machineClasses := acc.machineClasses
               machineImages := acc.machineImages } acc (hsame _ rfl rfl)
    exact ⟨congrArg Prod.snd h2, congrArg Prod.fst h2⟩
  · rw [config_of_locals_ok env w acc hacc]
    unfold GenerateMachineDeployments
    cases hm : acc.machineDeployments with
    | none => rw [hm] at hsome; cases hsome
    | some l => rfl
  · intro hnone
    unfold GenerateMachineDeployments
    rw [hnone, config_of_locals_ok env w acc hacc]

theorem expansion_deterministic_and_memoized_witness :
    (generateMachineConfig (sampleEnv true) sampleDelegate).2 = .ok ()
    ∧ storedDelegate.worker = sampleDelegate.worker
    ∧ storedDelegate.cloudProfileConfig = sampleDelegate.cloudProfileConfig
    ∧ (generateMachineConfig (sampleEnv true) storedDelegate).1.machineDeployments
        = (generateMachineConfig (sampleEnv true) sampleDelegate).1.machineDeployments
    ∧ GenerateMachineDeployments (sampleEnv true)
          (generateMachineConfig (sampleEnv true) sampleDelegate).1
        = ((generateMachineConfig (sampleEnv true) sampleDelegate).1,
            .ok (generateMachineConfig (sampleEnv true) sampleDelegate).1.machineDeployments)
    ∧ ((generateMachineConfig (sampleEnv true) sampleDelegate).1.machineDeployments.map
          (fun l => l.map (fun d => d.Name)))
        = some ["shoot-a-z1", "shoot-a-z2", "shoot-a-z3", "shoot-b-z2"] :=
  ⟨sample_run_ok true, rfl, rfl,
    ((expansion_deterministic_and_memoized (sampleEnv true) sampleDelegate
      (sample_run_ok true)).1 storedDelegate rfl rfl).2.1,
    (expansion_deterministic_and_memoized (sampleEnv true) sampleDelegate
      (sample_run_ok true)).2.2.1,
    by decide⟩

/-! ## Sums over the zones -/

theorem sample_shares_aux (q r : Int) (k : Nat) :
    ((List.range k).map (fun i : Nat => q + (if (i : Int) < r then 1 else 0))).sum
      = (k : Int) * q + min (max r 0) (k : Int) := by
  induction k with
  | zero => simp
  | succ k ih =>
    rw [List.range_succ, List.map_append, List.sum_append, ih]
    simp only [List.map_cons, List.map_nil, List.sum_cons, List.sum_nil, add_zero]
    have hm : min (max r 0) ((k + 1 : Nat) : Int)
        = min (max r 0) (k : Int) + (if (k : Int) < r then 1 else 0) := by
      split <;> omega
    rw [hm]
    push_cast
    ring

theorem sample_shares_sum_up : SharesSumUp sampleDistributeOverZones := by
  intro n v hn _
  unfold sampleDistributeOverZones
  rw [sample_shares_aux (v / n) (v % n) n]
  have hpos : (0 : Int) < n := by omega
  have h1 : 0 ≤ v % (n : Int) := Int.emod_nonneg v (by omega)
  have h2 : v % (n : Int) < n := Int.emod_lt_of_pos v hpos
  rw [max_eq_left h1, min_eq_left (le_of_lt h2)]
  exact Int.ediv_add_emod v n

theorem poolUnits_block (env : Env) (w : workerDelegate) (c : Captured) (pool : WorkerPool)
    (hs : PoolShape env w c pool) (hz : c.infrastructureStatus.Zoned = true)
    (horacle : SharesSumUp env.DistributeOverZones) :
    ZoneBlock env pool ((poolUnits env w c pool).map Prod.fst) := by
  have hsizes := poolUnits_sizes env w c pool hs hz
  have hmin : ((poolUnits env w c pool).map Prod.fst).map (fun d => d.Minimum)
      = (List.range pool.Zones.length).map (fun i : Nat =>
          env.DistributeOverZones (int32 (i : Int)) pool.Minimum
            (int32 (pool.Zones.length : Int))) := by
    have := congrArg (List.map (fun s : Int × Int × IntOrString × IntOrString => s.1)) hsizes
    simp only [List.map_map, zoneShares] at this
    rw [List.map_map, ← List.enum_map_fst pool.Zones, List.map_map]
    exact this
  have hmax : ((poolUnits env w c pool).map Prod.fst).map (fun d => d.Maximum)
      = (List.range pool.Zones.length).map (fun i : Nat =>
          env.DistributeOverZones (int32 (i : Int)) pool.Maximum
            (int32 (pool.Zones.length : Int))) := by
    have := congrArg (List.map (fun s : Int × Int × IntOrString × IntOrString => s.2.1)) hsizes
    simp only [List.map_map, zoneShares] at this
    rw [List.map_map, ← List.enum_map_fst pool.Zones, List.map_map]
    exact this
  have hfit : ∀ v : Int, (pool.Zones.length : Int) < 2 ^ 31 →
      (List.range pool.Zones.length).map (fun i : Nat =>
          env.DistributeOverZones (int32 (i : Int)) v (int32 (pool.Zones.length : Int)))
        = (List.range pool.Zones.length).map (fun i : Nat =>
          env.DistributeOverZones (i : Int) v (pool.Zones.length : Int)) := by
    intro v hlt
    apply List.map_congr_left
    intro i hi
    have hi' : i < pool.Zones.length := List.mem_range.mp hi
    rw [int32_of_fits (i : Int) (by omega) (by omega),
      int32_of_fits (pool.Zones.length : Int) (by omega) hlt]
  refine ⟨?_, hmin, hmax, fun h1 hlt => ⟨?_, ?_⟩⟩
  · have := congrArg List.length hmin
    simpa using this
  · rw [hmin, hfit _ hlt]
    exact horacle _ _ h1 hlt
  · rw [hmax, hfit _ hlt]
    exact horacle _ _ h1 hlt

theorem map_flatMap_blocks {α β γ : Type} (l : List α) (f : α → List β) (g : β → γ) :
    (l.flatMap f).map g = (l.map (fun x => (f x).map g)).flatten := by
  induction l with
  | nil => rfl
  | cons a rest ih => simp [ih]

/-- C19: assuming the shares `DistributeOverZones(i, v, n)` of the indices `0 .. n-1` sum to
`v` for every count `1 ≤ n < 2^31`: after a successful zoned run the stored deployments are
the concatenation, pool after pool, of one block per pool; the block of a pool with `n`
zones has `n` deployments whose minimum and maximum are the shares for the indices
`0 .. n-1` in order with `n` as count, and for `1 ≤ n < 2^31` its minimums sum to
`pool.Minimum` and its maximums to `pool.Maximum`. -/
theorem zoned_sizes_sum_to_pool (env : Env) (w : workerDelegate) (st : InfrastructureStatus)
    (hd : env.Decode w.worker.Spec.InfrastructureProviderStatus = .ok st)
    (h : (generateMachineConfig env w).2 = .ok ())
    (hz : st.Zoned = true)
    (horacle : SharesSumUp env.DistributeOverZones) :
    ∃ blocks : List (List MachineDeployment),
      elems (generateMachineConfig env w).1.machineDeployments = blocks.flatten
      ∧ List.Forall₂ (ZoneBlock env) w.worker.Spec.Pools blocks := by
  obtain ⟨c, ⟨-, hst, -, -, -⟩, hdep, -, hall⟩ := config_spec env w st hd h
  subst hst
  refine ⟨w.worker.Spec.Pools.map (fun p => (poolUnits env w c p).map Prod.fst), ?_, ?_⟩
  · rw [hdep, map_flatMap_blocks]
  · rw [List.forall₂_map_right_iff, List.forall₂_same]
    intro p hp
    exact poolUnits_block env w c p (hall p hp) hz horacle

theorem zoned_sizes_sum_to_pool_witness :
    (sampleEnv true).Decode sampleDelegate.worker.Spec.InfrastructureProviderStatus
        = .ok (sampleStatus true)
    ∧ (generateMachineConfig (sampleEnv true) sampleDelegate).2 = .ok ()
    ∧ (sampleStatus true).Zoned = true
    ∧ SharesSumUp (sampleEnv true).DistributeOverZones
    ∧ (elems (generateMachineConfig (sampleEnv true) sampleDelegate).1.machineDeployments).map
          (fun d => (d.Name, d.Minimum, d.Maximum))
        = [("shoot-a-z1", 1, 2), ("shoot-a-z2", 1, 2), ("shoot-a-z3", 0, 2),
           ("shoot-b-z2", 2, 6)]
    ∧ ∃ blocks : List (List MachineDeployment),
      elems (generateMachineConfig (sampleEnv true) sampleDelegate).1.machineDeployments
          = blocks.flatten
      ∧ List.Forall₂ (ZoneBlock (sampleEnv true)) sampleDelegate.worker.Spec.Pools blocks :=
  ⟨rfl, sample_run_ok true, rfl, sample_shares_sum_up, by decide,
    zoned_sizes_sum_to_pool (sampleEnv true) sampleDelegate (sampleStatus true) rfl
      (sample_run_ok true) rfl sample_shares_sum_up⟩

/-! ## Image reference -/

theorem imageOf_ok (urn id : Option String) (h : urn.isSome = true ∨ id.isSome = true) :
    ∃ image, imageOf urn id = .ok image := by
  unfold imageOf
  cases urn with
  | some u => exact ⟨_, rfl⟩
  | none =>
    cases id with
    | some i => exact ⟨_, rfl⟩
    | none => simp at h

theorem poolBody_no_nil (env : Env) (w : workerDelegate) (c : Captured) (pool : WorkerPool)
    (acc : Acc) (hcontract : ImageContract env)
    (hset : c.infrastructureStatus.Zoned = false → c.nodesAvailabilitySet ≠ none) :
    poolBody env w c pool acc ≠ .error Failure.nilDereference := by
  unfold poolBody
  simp only []
  cases e1 : env.WorkerPoolHash pool (additionalDataOf c.infrastructureStatus) with
  | error e => simp
  | ok hash =>
    cases e2 : env.findMachineImage pool.MachineImage.Name pool.MachineImage.Version with
    | error e => simp
    | ok found =>
      cases e3 : env.DiskSize pool.Volume.Size with
      | error e => simp
      | ok size =>
        obtain ⟨image, e4⟩ := imageOf_ok found.1 found.2 (hcontract _ _ found e2)
        simp only [e4]
        cases e5 : c.infrastructureStatus.Zoned with
        | true => simp
        | false =>
          cases e6 : c.nodesAvailabilitySet with
          | none => exact absurd e6 (hset e5)
          | some s => simp

theorem poolsLoop_no_nil (env : Env) (w : workerDelegate) (c : Captured)
    (pools : List WorkerPool) (acc : Acc) (hcontract : ImageContract env)
    (hset : c.infrastructureStatus.Zoned = false → c.nodesAvailabilitySet ≠ none) :
    poolsLoop env w c pools acc ≠ .error Failure.nilDereference := by
  induction pools generalizing acc with
  | nil => simp [poolsLoop]
  | cons pool rest ih =>
    unfold poolsLoop
    cases hb : poolBody env w c pool acc with
    | error f =>
      simp only []
      intro hf
      cases hf
      exact poolBody_no_nil env w c pool acc hcontract hset hb
    | ok acc1 => exact ih acc1

theorem locals_no_nil (env : Env) (w : workerDelegate) (hcontract : ImageContract env) :
    generateMachineConfigLocals env w ≠ .error Failure.nilDereference := by
  unfold generateMachineConfigLocals
  cases hs : generateMachineClassSecretData env w with
  | error f =>
    unfold generateMachineClassSecretData at hs
    cases hc : env.GetClientAuthData w.worker.Spec.SecretRef with
    | ok cr => simp [hc] at hs
    | error e =>
      simp only [hc, Except.error.injEq] at hs
      subst hs
      simp
  | ok sd =>
    cases hd : env.Decode w.worker.Spec.InfrastructureProviderStatus with
    | error e => simp
    | ok st =>
      cases hn : FindSubnetByPurpose st.Networks.Subnets PurposeNodes with
      | error e => simp [hn]
      | ok subnet =>
        simp only [hn]
        cases hz : st.Zoned with
        | true =>
          simp only [Bool.not_true, Bool.false_eq_true, if_false]
          exact poolsLoop_no_nil env w
            { machineClassSecretData := sd, infrastructureStatus := st, nodesSubnet := subnet,
              nodesAvailabilitySet := none } _ _ hcontract (fun hc => by simp [hz] at hc)
        | false =>
          simp only [Bool.not_false, if_true]
          cases ha : FindAvailabilitySetByPurpose st.AvailabilitySets PurposeNodes with
          | error e => simp [ha]
          | ok s =>
            simp only [ha]
            exact poolsLoop_no_nil env w
              { machineClassSecretData := sd, infrastructureStatus := st, nodesSubnet := subnet,
                nodesAvailabilitySet := some s } _ _ hcontract (fun _ => by simp)

theorem poolUnits_image (env : Env) (w : workerDelegate) (c : Captured) (pool : WorkerPool)
    (hs : PoolShape env w c pool) :
    (poolUnits env w c pool).map (fun u => u.2 "image")
      = List.replicate (unitCount c.infrastructureStatus.Zoned pool)
          (some (Value.map (imageRefOf env pool))) := by
  obtain ⟨hash, found, size, image, -, hfound, -, himage, -, hz | hz⟩ := hs
  · obtain ⟨hz, hu⟩ := hz
    rw [hu]
    simp only [unitCount, hz, if_true, imageRefOf, hfound, himage]
    rw [← List.map_const']
    apply zoneUnits_map
    intro z i n
    exact (gen_class_osDisk_image env w c pool hash image _ _ _).2
  · obtain ⟨hz, s, -, hu⟩ := hz
    rw [hu]
    simp [unitCount, hz, imageRefOf, hfound, himage, (gen_class_osDisk_image env w c pool hash
      image (osDiskOf pool size) none (some s.ID)).2]

theorem imageRefOf_shape (env : Env) (w : workerDelegate) (c : Captured) (pool : WorkerPool)
    (hs : PoolShape env w c pool) :
    ∃ found, env.findMachineImage pool.MachineImage.Name pool.MachineImage.Version = .ok found
      ∧ ((∃ u, found.1 = some u ∧ imageRefOf env pool = GoMap.empty.set "urn" (Value.str u))
        ∨ (found.1 = none ∧ ∃ i, found.2 = some i
            ∧ imageRefOf env pool = GoMap.empty.set "id" (Value.str i))) := by
  obtain ⟨hash, found, size, image, -, hfound, -, himage, -, -⟩ := hs
  refine ⟨found, hfound, ?_⟩
  unfold imageRefOf
  rw [hfound]
  simp only []
  unfold imageOf at himage ⊢
  cases h1 : found.1 with
  | some u => exact Or.inl ⟨u, rfl, rfl⟩
  | none =>
    cases h2 : found.2 with
    | some i => exact Or.inr ⟨rfl, i, rfl, rfl⟩
    | none => simp [h1, h2] at himage

/-- C20: the image reference built from a URN is the map with the single key `urn`, whether
or not an ID is given as well; from an ID alone it is the map with the single key `id`; it
is built without failure whenever one of the two is non-nil. When every successful image
lookup returns a URN or an ID, `generateMachineConfig` never fails with a nil dereference,
and after a successful run every stored class carries under `image` the reference of its
pool, which has exactly the key `urn` (URN returned) or exactly the key `id` (no URN). -/
theorem image_reference (env : Env) (w : workerDelegate) :
    (∀ u id, imageOf (some u) id = .ok (GoMap.empty.set "urn" (Value.str u)))
    ∧ (∀ i, imageOf none (some i) = .ok (GoMap.empty.set "id" (Value.str i)))
    ∧ (∀ key (v : Value) k,
        (GoMap.empty.set key v : GoMap Value) k = if k = key then some v else none)
    ∧ (ImageContract env →
        (generateMachineConfig env w).2 ≠ .error Failure.nilDereference
        ∧ ∀ st, env.Decode w.worker.Spec.InfrastructureProviderStatus = .ok st →
          (generateMachineConfig env w).2 = .ok () →
          (elems (generateMachineConfig env w).1.machineClasses).map (fun cl => cl "image")
              = w.worker.Spec.Pools.flatMap (fun p =>
                  List.replicate (unitCount st.Zoned p) (some (Value.map (imageRefOf env p))))
          ∧ ∀ p ∈ w.worker.Spec.Pools,
              ∃ found,
                env.findMachineImage p.MachineImage.Name p.MachineImage.Version = .ok found
                ∧ ((∃ u, found.1 = some u
                      ∧ imageRefOf env p = GoMap.empty.set "urn" (Value.str u))
                  ∨ (found.1 = none ∧ ∃ i, found.2 = some i
                      ∧ imageRefOf env p = GoMap.empty.set "id" (Value.str i)))) := by
  refine ⟨fun u id => rfl, fun i => rfl, fun key v k => rfl, fun hcontract => ⟨?_, ?_⟩⟩
  · intro hnil
    unfold generateMachineConfig at hnil
    cases hl : generateMachineConfigLocals env w with
    | error f =>
      simp only [hl, Except.error.injEq] at hnil
      subst hnil
      exact locals_no_nil env w hcontract hl
    | ok acc => simp [hl] at hnil
  · intro st hd h
    obtain ⟨c, ⟨-, hst, -, -, -⟩, -, hcls, hall⟩ := config_spec env w st hd h
    subst hst
    constructor
    · rw [hcls, List.map_map]
      exact units_map env w c _ _ _ (fun p _ hs => poolUnits_image env w c p hs) hall
    · intro p hp
      exact imageRefOf_shape env w c p (hall p hp)

theorem sample_image_contract (env : Env) (urn id : Option String)
    (h : urn.isSome = true ∨ id.isSome = true)
    (henv : env.findMachineImage = fun _ _ => .ok (urn, id)) : ImageContract env := by
  intro name version found hf
  rw [henv] at hf
  simp only [Except.ok.injEq] at hf
  subst hf
  exact h

theorem image_reference_witness :
    ImageContract imageIdEnv
    ∧ imageIdEnv.Decode sampleDelegate.worker.Spec.InfrastructureProviderStatus
        = .ok (sampleStatus false)
    ∧ (generateMachineConfig imageIdEnv sampleDelegate).2 = .ok ()
    ∧ (generateMachineConfig imageIdEnv sampleDelegate).2 ≠ .error Failure.nilDereference
    ∧ (elems (generateMachineConfig imageIdEnv sampleDelegate).1.machineClasses).map
          (fun cl => cl "image")
        = [some (Value.map (GoMap.empty.set "id" (Value.str "image-id"))),
           some (Value.map (GoMap.empty.set "id" (Value.str "image-id")))] :=
  ⟨sample_image_contract imageIdEnv none (some "image-id") (Or.inr rfl) rfl, rfl, rfl,
    ((image_reference imageIdEnv sampleDelegate).2.2.2
      (sample_image_contract imageIdEnv none (some "image-id") (Or.inr rfl) rfl)).1,
    ((((image_reference imageIdEnv sampleDelegate).2.2.2
      (sample_image_contract imageIdEnv none (some "image-id") (Or.inr rfl) rfl)).2
      (sampleStatus false) rfl rfl).1).trans rfl⟩

/-! ## Accelerated networking, exactly -/

theorem versionsLoop_supported (v : String) (versions : List MachineImageVersion) (b : Bool)
    (h : ∀ ver ∈ versions, ver.Version = v → ver.AcceleratedNetworking = some true) :
    versionsLoop v versions b = some (b || versions.any (fun ver => ver.Version == v)) := by
  induction versions generalizing b with
  | nil => simp [versionsLoop]
  | cons ver rest ih =>
    unfold versionsLoop
    have hrest : ∀ x ∈ rest, x.Version = v → x.AcceleratedNetworking = some true :=
      fun x hx => h x (List.mem_cons_of_mem _ hx)
    by_cases hv : ver.Version = v
    · have hb : (ver.Version == v) = true := by simp [hv]
      rw [if_pos hv, if_pos (h ver (List.mem_cons_self _ _) hv), ih true hrest]
      simp only [List.any_cons, hb, Bool.true_or, Bool.or_true]
    · have hb : (ver.Version == v) = false := by simp [hv]
      rw [if_neg hv, ih b hrest]
      simp only [List.any_cons, hb, Bool.false_or]

theorem imagesLoop_supported (n v : String) (images : List MachineImages) (b : Bool)
    (h : ∀ image ∈ images, image.Name = n → ∀ ver ∈ image.Versions, ver.Version = v →
      ver.AcceleratedNetworking = some true) :
    imagesLoop n v images b
      = some (b || images.any (fun image =>
          image.Name == n && image.Versions.any (fun ver => ver.Version == v))) := by
  induction images generalizing b with
  | nil => simp [imagesLoop]
  | cons image rest ih =>
    unfold imagesLoop
    have hrest : ∀ x ∈ rest, x.Name = n → ∀ ver ∈ x.Versions, ver.Version = v →
        ver.AcceleratedNetworking = some true :=
      fun x hx => h x (List.mem_cons_of_mem _ hx)
    by_cases hn : image.Name = n
    · have hb : (image.Name == n) = true := by simp [hn]
      have hne : ¬ image.Name ≠ n := fun hc => hc hn
      rw [if_neg hne, versionsLoop_supported v _ b (h image (List.mem_cons_self _ _) hn)]
      simp only []
      rw [ih _ hrest]
      simp only [List.any_cons, hb, Bool.true_and, Bool.or_assoc]
    · have hb : (image.Name == n) = false := by simp [hn]
      have hne : image.Name ≠ n := hn
      rw [if_pos hne, ih b hrest]
      simp only [List.any_cons, hb, Bool.false_and, Bool.false_or]

/-- C21: `enableAcceleratedNetworking` returns true exactly when the machine type is listed
in `AcceleratedNetworkingMachineTypes`, the profile has at least one version entry matching
the image name and version, and every matching entry (over all image entries with that
name and all their versions) has its flag set and true; one matching entry whose flag is
unset or false makes the result false, whatever the other entries say. -/
theorem enableAcceleratedNetworking_iff (w : workerDelegate)
    (machineType machineImageName machineImageVersion : String) :
    (enableAcceleratedNetworking w machineType machineImageName machineImageVersion = true
      ↔ machineType ∈ w.cloudProfileConfig.AcceleratedNetworkingMachineTypes
        ∧ (∃ image ∈ w.cloudProfileConfig.MachineImages, image.Name = machineImageName
            ∧ ∃ ver ∈ image.Versions, ver.Version = machineImageVersion)
        ∧ (∀ image ∈ w.cloudProfileConfig.MachineImages, image.Name = machineImageName →
            ∀ ver ∈ image.Versions, ver.Version = machineImageVersion →
              ver.AcceleratedNetworking = some true))
    ∧ ((∃ image ∈ w.cloudProfileConfig.MachineImages, image.Name = machineImageName
          ∧ ∃ ver ∈ image.Versions, ver.Version = machineImageVersion
            ∧ (ver.AcceleratedNetworking = none ∨ ver.AcceleratedNetworking = some false)) →
        enableAcceleratedNetworking w machineType machineImageName machineImageVersion
          = false) := by
  have hbad : (∃ image ∈ w.cloudProfileConfig.MachineImages, image.Name = machineImageName
        ∧ ∃ ver ∈ image.Versions, ver.Version = machineImageVersion
          ∧ ver.AcceleratedNetworking ≠ some true) →
      enableAcceleratedNetworking w machineType machineImageName machineImageVersion
        = false := by
    intro h
    unfold enableAcceleratedNetworking
    rw [imagesLoop_unsupported _ _ _ _ h]
  refine ⟨⟨fun h => ?_, fun h => ?_⟩, fun h => ?_⟩
  · have hall : ∀ image ∈ w.cloudProfileConfig.MachineImages, image.Name = machineImageName →
        ∀ ver ∈ image.Versions, ver.Version = machineImageVersion →
          ver.AcceleratedNetworking = some true := by
      intro image hi hn ver hv hvv
      by_contra hne
      rw [hbad ⟨image, hi, hn, ver, hv, hvv, hne⟩] at h
      cases h
    unfold enableAcceleratedNetworking at h
    rw [imagesLoop_supported _ _ _ _ hall] at h
    simp only [Bool.false_or, Bool.and_eq_true, List.any_eq_true, beq_iff_eq] at h
    obtain ⟨⟨image, hi, hn, ver, hv, hvv⟩, m, hm, rfl⟩ := h
    exact ⟨hm, ⟨image, hi, hn, ver, hv, hvv⟩, hall⟩
  · obtain ⟨hm, ⟨image, hi, hn, ver, hv, hvv⟩, hall⟩ := h
    unfold enableAcceleratedNetworking
    rw [imagesLoop_supported _ _ _ _ hall]
    simp only [Bool.false_or, Bool.and_eq_true, List.any_eq_true, beq_iff_eq]
    exact ⟨⟨image, hi, hn, ver, hv, hvv⟩, machineType, hm, rfl⟩
  · obtain ⟨image, hi, hn, ver, hv, hvv, hflag⟩ := h
    apply hbad
    refine ⟨image, hi, hn, ver, hv, hvv, ?_⟩
    rcases hflag with hf | hf <;> rw [hf] <;> simp

theorem enableAcceleratedNetworking_iff_witness :
    enableAcceleratedNetworking profileDelegate "Standard_D2_v3" "coreos" "1.0" = true
    ∧ enableAcceleratedNetworking profileDelegate "Standard_D4_v3" "coreos" "1.0" = false
    ∧ enableAcceleratedNetworking conflictingProfileDelegate "Standard_D2_v3" "coreos" "1.0"
        = false :=
  ⟨((enableAcceleratedNetworking_iff profileDelegate "Standard_D2_v3" "coreos" "1.0").1).mpr
      ⟨by decide, by decide, by decide⟩,
    by decide,
    (enableAcceleratedNetworking_iff conflictingProfileDelegate "Standard_D2_v3" "coreos"
      "1.0").2
      ⟨_, List.mem_cons_of_mem _ (List.mem_cons_self _ _), rfl, _, List.mem_cons_self _ _,
        rfl, Or.inr rfl⟩⟩

/-! ## Pools without zones -/

theorem poolBody_ok_of_shape (env : Env) (w : workerDelegate) (c : Captured)
    (pool : WorkerPool) (acc : Acc) (hs : PoolShape env w c pool) :
    ∃ acc', poolBody env w c pool acc = .ok acc' := by
  obtain ⟨hash, found, size, image, e1, e2, e3, e4, -, hz | hz⟩ := hs
  · unfold poolBody
    simp only [e1, e2, e3, e4, hz.1, Bool.not_true, Bool.false_eq_true, if_false]
    exact ⟨_, rfl⟩
  · obtain ⟨hz, s, hset, -⟩ := hz
    unfold poolBody
    simp only [e1, e2, e3, e4, hz, Bool.not_false, if_true, hset]
    exact ⟨_, rfl⟩

theorem poolsLoop_ok_of_shapes (env : Env) (w : workerDelegate) (c : Captured)
    (pools : List WorkerPool) (acc : Acc) (hs : ∀ p ∈ pools, PoolShape env w c p) :
    ∃ acc', poolsLoop env w c pools acc = .ok acc' := by
  induction pools generalizing acc with
  | nil => exact ⟨acc, rfl⟩
  | cons pool rest ih =>
    obtain ⟨acc1, h1⟩ := poolBody_ok_of_shape env w c pool acc (hs pool (List.mem_cons_self _ _))
    unfold poolsLoop
    rw [h1]
    exact ih acc1 (fun p hp => hs p (List.mem_cons_of_mem _ hp))

theorem poolUnits_no_zones (env : Env) (w : workerDelegate) (c : Captured) (pool : WorkerPool)
    (hs : PoolShape env w c pool) (hz : c.infrastructureStatus.Zoned = true)
    (he : pool.Zones = []) : poolUnits env w c pool = [] := by
  obtain ⟨hash, found, size, image, -, -, -, -, -, hc | hc⟩ := hs
  · rw [hc.2, he]
    rfl
  · rw [hz] at hc
    exact absurd hc.1 (by simp)

theorem flatMap_filter_nonempty {α β : Type} (l : List α) (q : α → Bool) (f : α → List β)
    (h : ∀ x ∈ l, q x = false → f x = []) : (l.filter q).flatMap f = l.flatMap f := by
  induction l with
  | nil => rfl
  | cons a rest ih =>
    have hrest := ih (fun x hx => h x (List.mem_cons_of_mem _ hx))
    cases hq : q a with
    | true => simp [List.filter_cons, hq, hrest]
    | false => simp [List.filter_cons, hq, hrest, h a (List.mem_cons_self _ _) hq]

theorem locals_of_captured (env : Env) (w : workerDelegate) (st : InfrastructureStatus)
    (c : Captured)
    (hd : env.Decode w.worker.Spec.InfrastructureProviderStatus = .ok st)
    (hz : st.Zoned = true) (hc : CapturedFor env w st c) (pools : List WorkerPool) :
    generateMachineConfigLocals env (withPools w pools)
      = poolsLoop env w c pools initialAcc := by
  obtain ⟨sd, cst, sub, av⟩ := c
  obtain ⟨hs, hst, hn, -, hzd⟩ := hc
  have hav := hzd hz
  simp only at hs hst hn hav
  subst hst
  subst hav
  have hs' : generateMachineClassSecretData env (withPools w pools) = .ok sd := hs
  have hd' : env.Decode (withPools w pools).worker.Spec.InfrastructureProviderStatus
      = .ok cst := hd
  unfold generateMachineConfigLocals
  simp only [hs', hd', hn, hz, Bool.not_true, Bool.false_eq_true, if_false]
  rw [poolsLoop_withPools]
  rfl

theorem withPools_self (w : workerDelegate) : withPools w w.worker.Spec.Pools = w := rfl

theorem config_error_keeps_receiver (env : Env) (w : workerDelegate) (f : Failure)
    (h : (generateMachineConfig env w).2 = .error f) : (generateMachineConfig env w).1 = w := by
  unfold generateMachineConfig at h ⊢
  cases hl : generateMachineConfigLocals env w with
  | error g => rfl
  | ok acc => simp [hl] at h

/-- C22: in zoned mode a pool whose zone list is empty contributes no deployment and no
machine class: when the expansion succeeds, the expansion of the same worker without its
zone-less pools succeeds too and stores the same deployments and the same classes, and for
every zone-less pool the pool hash, the image lookup and the disk size were computed
successfully. Conversely, when the pool hash, the image lookup or the disk size fails for a
zone-less pool, `generateMachineConfig` returns an error and leaves the receiver as it
was. -/
theorem zoned_pool_without_zones (env : Env) (w : workerDelegate) (st : InfrastructureStatus)
    (hd : env.Decode w.worker.Spec.InfrastructureProviderStatus = .ok st)
    (hz : st.Zoned = true) :
    ((generateMachineConfig env w).2 = .ok () →
      (generateMachineConfig env
          (withPools w (w.worker.Spec.Pools.filter (fun p => !p.Zones.isEmpty)))).2 = .ok ()
      ∧ elems (generateMachineConfig env
          (withPools w (w.worker.Spec.Pools.filter (fun p => !p.Zones.isEmpty)))).1.machineDeployments
          = elems (generateMachineConfig env w).1.machineDeployments
      ∧ elems (generateMachineConfig env
          (withPools w (w.worker.Spec.Pools.filter (fun p => !p.Zones.isEmpty)))).1.machineClasses
          = elems (generateMachineConfig env w).1.machineClasses
      ∧ ∀ pool ∈ w.worker.Spec.Pools, pool.Zones = [] →
          (∃ hash, env.WorkerPoolHash pool (additionalDataOf st) = .ok hash)
          ∧ (∃ found, env.findMachineImage pool.MachineImage.Name pool.MachineImage.Version
              = .ok found)
          ∧ (∃ size, env.DiskSize pool.Volume.Size = .ok size))
    ∧ (∀ pool ∈ w.worker.Spec.Pools, pool.Zones = [] →
        ((∃ e, env.WorkerPoolHash pool (additionalDataOf st) = .error e)
          ∨ (∃ e, env.findMachineImage pool.MachineImage.Name pool.MachineImage.Version
              = .error e)
          ∨ (∃ e, env.DiskSize pool.Volume.Size = .error e)) →
        ∃ f, (generateMachineConfig env w).2 = .error f ∧ (generateMachineConfig env w).1 = w) := by
  have shapes : (generateMachineConfig env w).2 = .ok () →
      ∀ pool ∈ w.worker.Spec.Pools,
        (∃ hash, env.WorkerPoolHash pool (additionalDataOf st) = .ok hash)
        ∧ (∃ found, env.findMachineImage pool.MachineImage.Name pool.MachineImage.Version
            = .ok found)
        ∧ (∃ size, env.DiskSize pool.Volume.Size = .ok size) := by
    intro h pool hp
    obtain ⟨c, hc, -, -, hall⟩ := config_spec env w st hd h
    obtain ⟨hash, found, size, image, e1, e2, e3, -⟩ := hall pool hp
    rw [hc.2.1] at e1
    exact ⟨⟨hash, e1⟩, ⟨found, e2⟩, ⟨size, e3⟩⟩
  refine ⟨fun h => ?_, fun pool hp _ hfail => ?_⟩
  · obtain ⟨c, hc, hdep, hcls, hall⟩ := config_spec env w st hd h
    have hcz : c.infrastructureStatus.Zoned = true := by rw [hc.2.1]; exact hz
    have hloc := locals_of_captured env w st c hd hz hc
      (w.worker.Spec.Pools.filter (fun p => !p.Zones.isEmpty))
    have hsub : ∀ p ∈ w.worker.Spec.Pools.filter (fun p => !p.Zones.isEmpty),
        PoolShape env w c p := fun p hp => hall p (List.mem_filter.mp hp).1
    obtain ⟨acc, hacc⟩ := poolsLoop_ok_of_shapes env w c _ initialAcc hsub
    rw [hacc] at hloc
    obtain ⟨r1, r2, -⟩ := poolsLoop_spec env w c _ _ _ hacc
    have hflat : (w.worker.Spec.Pools.filter (fun p => !p.Zones.isEmpty)).flatMap
        (poolUnits env w c) = w.worker.Spec.Pools.flatMap (poolUnits env w c) := by
      apply flatMap_filter_nonempty
      intro p hp hq
      apply poolUnits_no_zones env w c p (hall p hp) hcz
      cases hzs : p.Zones with
      | nil => rfl
      | cons a l => simp [hzs] at hq
    have hcfg := config_of_locals_ok env _ acc hloc
    refine ⟨congrArg Prod.snd hcfg, ?_, ?_, fun pool hp _ => shapes h pool hp⟩
    · rw [hdep, ← hflat, hcfg]
      simpa [initialAcc, elems] using r1
    · rw [hcls, ← hflat, hcfg]
      simpa [initialAcc, elems] using r2
  · cases hr : (generateMachineConfig env w).2 with
    | error f => exact ⟨f, rfl, config_error_keeps_receiver env w f hr⟩
    | ok u =>
      obtain ⟨⟨hash, e1⟩, ⟨found, e2⟩, ⟨size, e3⟩⟩ := shapes hr pool hp
      rcases hfail with ⟨e, he⟩ | ⟨e, he⟩ | ⟨e, he⟩
      · rw [e1] at he; cases he
      · rw [e2] at he; cases he
      · rw [e3] at he; cases he

theorem zoned_pool_without_zones_witness :
    ((generateMachineConfig (sampleEnv true)
        (withPools emptyZonesDelegate [samplePool "a" ["1", "2"], samplePool "b" ["2"]])).2
        = .ok ()
      ∧ (elems (generateMachineConfig (sampleEnv true) emptyZonesDelegate).1.machineDeployments).map
          (fun d => d.Name) = ["shoot-a-z1", "shoot-a-z2", "shoot-b-z2"]
      ∧ elems (generateMachineConfig (sampleEnv true)
          (withPools emptyZonesDelegate
            [samplePool "a" ["1", "2"], samplePool "b" ["2"]])).1.machineClasses
        = elems (generateMachineConfig (sampleEnv true) emptyZonesDelegate).1.machineClasses)
    ∧ (∃ f, (generateMachineConfig emptyZonesFailingEnv emptyZonesDelegate).2 = .error f
        ∧ (generateMachineConfig emptyZonesFailingEnv emptyZonesDelegate).1
          = emptyZonesDelegate) :=
  ⟨⟨((zoned_pool_without_zones (sampleEnv true) emptyZonesDelegate (sampleStatus true)
        rfl rfl).1 rfl).1,
    rfl,
    ((zoned_pool_without_zones (sampleEnv true) emptyZonesDelegate (sampleStatus true)
        rfl rfl).1 rfl).2.2.1⟩,
   (zoned_pool_without_zones emptyZonesFailingEnv emptyZonesDelegate (sampleStatus true)
      rfl rfl).2 (samplePool "e" []) (by simp [emptyZonesDelegate, withPools]) rfl
      (Or.inl ⟨"hash failed", rfl⟩)⟩

namespace Validation

/-! ## Validation of the infrastructure configuration -/

theorem baseline_valid :
    ValidateInfrastructureConfig baseConfig (some "10.250.0.0/16") (some "100.96.0.0/11")
      (some "100.64.0.0/13") none = [] := by decide

theorem natGateway_path_ne (s : String) :
    "networks.natGateway" ++ s ≠ "networks.vnet"
    ∧ "networks.natGateway" ++ s ≠ "networks.vnet.cidr"
    ∧ "networks.natGateway" ++ s ≠ "networks.workers" := by
  refine ⟨?_, ?_, ?_⟩ <;>
  · intro h
    have := congrArg String.data h
    simp [String.data_append] at this

/-! ### The model against the tests of `infrastructure_test.go` -/

theorem test_resource_group :
    ValidateInfrastructureConfig { baseConfig with ResourceGroup := some { Name := "" } }
      (some "10.250.0.0/16") (some "100.96.0.0/11") (some "100.64.0.0/13") none
    = [invalid "resourceGroup"
        "specifying an existing resource group is not supported for new configurations"] := by
  decide

theorem test_vnet_name_without_resource_group :
    ValidateInfrastructureConfig
      { baseConfig with
        Networks := { baseConfig.Networks with
          VNet := { Name := some "existing-vnet", ResourceGroup := none, CIDR := none } } }
      (some "10.250.0.0/16") (some "100.96.0.0/11") (some "100.64.0.0/13") none
    = [invalid "networks.vnet"
        "specifying an existing vnet name require a vnet name and vnet resource group"] := by
  decide

theorem test_existing_vnet_with_cidr :
    ValidateInfrastructureConfig
      { baseConfig with
        Networks := { baseConfig.Networks with
          VNet := { Name := some "existing-vnet", ResourceGroup := some "existing-vnet-rg",
                    CIDR := some "10.0.0.0/8" } } }
      (some "10.250.0.0/16") (some "100.96.0.0/11") (some "100.64.0.0/13") none
    = [invalid "networks.vnet.cidr"
        "specifying a cidr for an existing vnet is not possible"] := by
  decide

theorem test_existing_vnet_same_resource_group :
    ValidateInfrastructureConfig
      { baseConfig with
        ResourceGroup := some { Name := "shoot--test--foo" }
        Networks := { baseConfig.Networks with
          VNet := { Name := some "existing-vnet", ResourceGroup := some "shoot--test--foo",
                    CIDR := none } } }
      (some "10.250.0.0/16") (some "100.96.0.0/11") (some "100.64.0.0/13") none
    = [invalid "resourceGroup"
        "specifying an existing resource group is not supported for new configurations",
       invalid "networks.vnet.resourceGroup"
        "the vnet resource group must not be the same as the cluster resource group"] := by
  decide

theorem test_default_vnet :
    ValidateInfrastructureConfig
      { baseConfig with
        Networks := { Workers := "10.250.3.0/24", NatGateway := none
                      VNet := { Name := none, ResourceGroup := none, CIDR := none } } }
      (some "10.250.3.0/24") (some "100.96.0.0/11") (some "100.64.0.0/13") none = [] := by
  decide

theorem test_invalid_cidrs :
    ValidateInfrastructureConfig
      { baseConfig with
        Networks := { baseConfig.Networks with
          VNet := { Name := none, ResourceGroup := none, CIDR := some "invalid-cidr" } } }
      (some "10.250.0.0/16") (some "100.96.0.0/11") (some "100.64.0.0/13") none
      = [invalid "networks.vnet.cidr" "invalid CIDR address: invalid-cidr"]
    ∧ ValidateInfrastructureConfig
      { baseConfig with Networks := { baseConfig.Networks with Workers := "invalid-cidr" } }
      (some "10.250.0.0/16") (some "100.96.0.0/11") (some "100.64.0.0/13") none
      = [invalid "networks.workers" "invalid CIDR address: invalid-cidr"]
    ∧ ValidateInfrastructureConfig
      { baseConfig with Networks := { baseConfig.Networks with Workers := "" } }
      (some "10.250.0.0/16") (some "100.96.0.0/11") (some "100.64.0.0/13") none
      = [invalid "networks.workers" "invalid CIDR address: "] := by
  decide

theorem test_workers_outside :
    ValidateInfrastructureConfig
      { baseConfig with Networks := { baseConfig.Networks with Workers := "1.1.1.1/32" } }
      (some "10.250.0.0/16") (some "100.96.0.0/11") (some "100.64.0.0/13") none
    = [invalid "networks.workers" "must be a subset of \"\" (\"10.250.0.0/16\")",
       invalid "networks.workers"
        "must be a subset of \"networks.vnet.cidr\" (\"10.0.0.0/8\")"] := by
  decide

theorem test_pods_and_services_overlap :
    ValidateInfrastructureConfig baseConfig (some "10.250.0.0/16") (some "10.0.0.1/32")
      (some "100.64.0.0/13") none
      = [invalid "" "must not be a subset of \"networks.vnet.cidr\" (\"10.0.0.0/8\")"]
    ∧ ValidateInfrastructureConfig baseConfig (some "10.250.0.0/16") (some "100.96.0.0/11")
      (some "10.0.0.1/32") none
      = [invalid "" "must not be a subset of \"networks.vnet.cidr\" (\"10.0.0.0/8\")"] := by
  decide

theorem test_non_canonical :
    ValidateInfrastructureConfig
      { baseConfig with
        Networks := { Workers := "10.250.3.8/24", NatGateway := none
                      VNet := { Name := none, ResourceGroup := none, CIDR := some "10.0.0.3/8" } } }
      (some "10.250.0.3/16") (some "100.96.0.4/11") (some "100.64.0.5/13") none
    = [invalid "networks.vnet.cidr" "must be valid canonical CIDR",
       invalid "networks.workers" "must be valid canonical CIDR"] := by
  decide

theorem test_identity :
    ValidateInfrastructureConfig
      { baseConfig with
        Identity := some { Name := "test-identiy", ResourceGroup := "identity-resource-group" } }
      (some "10.250.0.0/16") (some "100.96.0.0/11") (some "100.64.0.0/13") none = []
    ∧ (ValidateInfrastructureConfig
      { baseConfig with Identity := some { Name := "test-identiy", ResourceGroup := "" } }
      (some "10.250.0.0/16") (some "100.96.0.0/11") (some "100.64.0.0/13") none).map
        (fun e => (e.Type_, e.Field)) = [(ErrorType.invalid, "identity")] := by
  decide

theorem test_nat_gateway :
    ValidateInfrastructureConfig
      { baseConfig with
        Zoned := true
        Networks := { baseConfig.Networks with
          NatGateway := some { Enabled := true, IPAddresses := [], IPAddressRanges := [] } } }
      (some "10.250.0.0/16") (some "100.96.0.0/11") (some "100.64.0.0/13") none = []
    ∧ ValidateInfrastructureConfig
      { baseConfig with
        Zoned := false
        Networks := { baseConfig.Networks with
          NatGateway := some { Enabled := false, IPAddresses := [], IPAddressRanges := [] } } }
      (some "10.250.0.0/16") (some "100.96.0.0/11") (some "100.64.0.0/13") none
      = [invalid "networks.natGateway"
          "NatGateway is currently only supported for zoned cluster"]
    ∧ ValidateInfrastructureConfig
      { baseConfig with
        Zoned := true
        Networks := { baseConfig.Networks with
          NatGateway := some
            { Enabled := false
              IPAddresses := [{ Name := "test-ip", ResourceGroup := "test-rg" }]
              IPAddressRanges := [] } } }
      (some "10.250.0.0/16") (some "100.96.0.0/11") (some "100.64.0.0/13") none
      = [invalid "networks.natGateway"
          "NatGateway is not enabled but ip addresses or ip ranges are specified"]
    ∧ ValidateInfrastructureConfig
      { baseConfig with
        Zoned := true
        Networks := { baseConfig.Networks with
          NatGateway := some
            { Enabled := true
              IPAddresses := [{ Name := "test-ip", ResourceGroup := "" }]
              IPAddressRanges := [{ Name := "", ResourceGroup := "test-rg" }] } } }
      (some "10.250.0.0/16") (some "100.96.0.0/11") (some "100.64.0.0/13") none
      = [invalid "networks.natGateway.ipAddresses[0]" "resourceGroup must be set",
         invalid "networks.natGateway.ipAddressRanges[0]" "name must be set"] := by
  decide

/-! ### Fields of the errors of each check -/

theorem errorsOn_append (field : String) (l₁ l₂ : List FieldError) :
    errorsOn field (l₁ ++ l₂) = errorsOn field l₁ ++ errorsOn field l₂ := by
  simp [errorsOn]

theorem errorsOn_eq_nil (field : String) (l : List FieldError)
    (h : ∀ e ∈ l, e.Field ≠ field) : errorsOn field l = [] := by
  unfold errorsOn
  rw [List.filter_eq_nil_iff]
  intro e he
  simpa using h e he

theorem errorsOn_eq_self (field : String) (l : List FieldError)
    (h : ∀ e ∈ l, e.Field = field) : errorsOn field l = l := by
  unfold errorsOn
  rw [List.filter_eq_self]
  intro e he
  simpa using h e he

theorem validateParse_field (field value : String) :
    ∀ e ∈ validateParse field value, e.Field = field := by
  intro e he
  unfold validateParse at he
  split at he
  · simp at he
  · simp only [List.mem_singleton] at he
    subst he; rfl

theorem validateCanonical_field (field value : String) :
    ∀ e ∈ validateCanonical field value, e.Field = field := by
  intro e he
  unfold validateCanonical at he
  split at he
  · split at he
    · simp at he
    · simp only [List.mem_singleton] at he
      subst he; rfl
  · simp at he

theorem validateParse_detail (field value : String) :
    ∀ e ∈ validateParse field value, e.Detail = "invalid CIDR address: " ++ value := by
  intro e he
  unfold validateParse at he
  split at he
  · simp at he
  · simp only [List.mem_singleton] at he
    subst he; rfl

theorem validateCanonical_detail (field value : String) :
    ∀ e ∈ validateCanonical field value, e.Detail = "must be valid canonical CIDR" := by
  intro e he
  unfold validateCanonical at he
  split at he
  · split at he
    · simp at he
    · simp only [List.mem_singleton] at he
      subst he; rfl
  · simp at he

theorem mem_errorsOn (field : String) (l : List FieldError) (e : FieldError) :
    e ∈ errorsOn field l ↔ e ∈ l ∧ e.Field = field := by
  simp [errorsOn]

theorem validateSubset_field (field sub supPath sup : String) :
    ∀ e ∈ validateSubset field sub supPath sup, e.Field = field := by
  intro e he
  unfold validateSubset at he
  split at he
  · split at he
    · simp at he
    · simp only [List.mem_singleton] at he
      subst he; rfl
  · simp at he

theorem validateNotSubset_field (sub : Option String) (supPath sup : String) :
    ∀ e ∈ validateNotSubset sub supPath sup, e.Field = "" := by
  intro e he
  unfold validateNotSubset at he
  split at he
  · simp at he
  · split at he
    · split at he
      · simp only [List.mem_singleton] at he
        subst he; rfl
      · simp at he
    · simp at he

theorem validateResourceReferences_field (path : String) (refs : List AzResourceReference) :
    ∀ e ∈ validateResourceReferences path refs, ∃ s, e.Field = path ++ s := by
  intro e he
  unfold validateResourceReferences at he
  obtain ⟨ir, -, he⟩ := List.mem_flatMap.mp he
  refine ⟨"[" ++ toString ir.1 ++ "]", ?_⟩
  unfold validateResourceReference at he
  rcases List.mem_append.mp he with he | he
  · split at he
    · simp only [List.mem_singleton] at he
      subst he; simp [invalid, String.append_assoc]
    · simp at he
  · split at he
    · simp only [List.mem_singleton] at he
      subst he; simp [invalid, String.append_assoc]
    · simp at he

theorem validateNatGatewayConfig_field (natGateway : Option NatGatewayConfig) (zoned : Bool)
    (natPath : String) :
    ∀ e ∈ validateNatGatewayConfig natGateway zoned natPath, ∃ s, e.Field = natPath ++ s := by
  intro e he
  unfold validateNatGatewayConfig at he
  cases natGateway with
  | none => simp at he
  | some nat =>
    simp only [List.mem_append] at he
    rcases he with ((he | he) | he) | he
    · split at he
      · simp only [List.mem_singleton] at he
        subst he; exact ⟨"", by simp [invalid]⟩
      · simp at he
    · split at he
      · simp only [List.mem_singleton] at he
        subst he; exact ⟨"", by simp [invalid]⟩
      · simp at he
    · obtain ⟨s, hs⟩ := validateResourceReferences_field _ _ e he
      exact ⟨".ipAddresses" ++ s, by rw [hs, String.append_assoc]⟩
    · obtain ⟨s, hs⟩ := validateResourceReferences_field _ _ e he
      exact ⟨".ipAddressRanges" ++ s, by rw [hs, String.append_assoc]⟩

/-- The errors on a field that is neither the resource group, nor the identity, nor the
empty path, nor under the NAT gateway come from the VNet rules and the workers checks. -/
theorem errorsOn_validate (field : String) (infra : InfrastructureConfig)
    (nodesCIDR podsCIDR servicesCIDR : Option String)
    (h1 : field ≠ "resourceGroup") (h2 : field ≠ "identity") (h3 : field ≠ "")
    (h4 : ∀ s, "networks.natGateway" ++ s ≠ field) :
    errorsOn field (ValidateInfrastructureConfig infra nodesCIDR podsCIDR servicesCIDR none)
      = errorsOn field
          (validateVnetConfig infra.Networks.VNet infra.ResourceGroup "networks.vnet")
        ++ errorsOn field (validateParse "networks.workers" infra.Networks.Workers)
        ++ errorsOn field (validateCanonical "networks.workers" infra.Networks.Workers)
        ++ errorsOn field (match nodesCIDR with
            | some nodes => validateSubset "networks.workers" infra.Networks.Workers "" nodes
            | none => [])
        ++ errorsOn field (match infra.Networks.VNet.CIDR with
            | some cidr =>
              validateSubset "networks.workers" infra.Networks.Workers "networks.vnet.cidr" cidr
            | none => []) := by
  have hrg : errorsOn field (match infra.ResourceGroup with
      | some _ =>
        [invalid (child none "resourceGroup")
          "specifying an existing resource group is not supported for new configurations"]
      | none => []) = [] := by
    apply errorsOn_eq_nil
    intro e he
    split at he
    · simp only [List.mem_singleton] at he
      subst he; exact fun h => h1 h.symm
    · simp at he
  have hid : errorsOn field (match infra.Identity with
      | some identity =>
        if identity.Name = "" ∨ identity.ResourceGroup = "" then
          [invalid (child none "identity")
            "specifying an identity requires its name and its resource group"]
        else []
      | none => []) = [] := by
    apply errorsOn_eq_nil
    intro e he
    split at he
    · split at he
      · simp only [List.mem_singleton] at he
        subst he; exact fun h => h2 h.symm
      · simp at he
    · simp at he
  have hnat : errorsOn field (validateNatGatewayConfig infra.Networks.NatGateway infra.Zoned
      "networks.natGateway") = [] := by
    apply errorsOn_eq_nil
    intro e he
    obtain ⟨s, hs⟩ := validateNatGatewayConfig_field _ _ _ e he
    rw [hs]; exact h4 s
  have hns : ∀ (sub : Option String) (cidr : String),
      errorsOn field (validateNotSubset sub "networks.vnet.cidr" cidr) = [] := by
    intro sub cidr
    apply errorsOn_eq_nil
    intro e he
    rw [validateNotSubset_field _ _ _ e he]
    exact fun h => h3 h.symm
  have hp : child none "networks" = "networks" := rfl
  have hw : "networks" ++ ".workers" = "networks.workers" := by decide
  have hv : "networks" ++ ".vnet" = "networks.vnet" := by decide
  have hc : "networks.vnet" ++ ".cidr" = "networks.vnet.cidr" := by decide
  have hn : "networks" ++ ".natGateway" = "networks.natGateway" := by decide
  unfold ValidateInfrastructureConfig
  simp only [hp, hw, hv, hc, hn, errorsOn_append, hrg, hid, hnat, List.nil_append,
    List.append_nil]
  cases infra.Networks.VNet.CIDR with
  | none => simp [errorsOn]
  | some cidr => simp only [errorsOn_append, hns, List.append_nil]

/-! ### Partial reference to an existing VNet -/

theorem validateVnetConfig_fields (vnet : VNet) (resourceGroup : Option ResourceGroup)
    (path : String) :
    ∀ e ∈ validateVnetConfig vnet resourceGroup path,
      e.Field = path ∨ e.Field = path ++ ".cidr" ∨ e.Field = path ++ ".resourceGroup" := by
  intro e he
  unfold validateVnetConfig at he
  rcases List.mem_append.mp he with he | he
  · rcases List.mem_append.mp he with he | he
    · rcases List.mem_append.mp he with he | he
      · split at he
        · simp only [List.mem_singleton] at he
          subst he; exact Or.inl rfl
        · simp at he
      · split at he
        · simp only [List.mem_singleton] at he
          subst he; exact Or.inr (Or.inl rfl)
        · simp at he
    · split at he
      · split at he
        · simp only [List.mem_singleton] at he
          subst he; exact Or.inr (Or.inr rfl)
        · simp at he
      · simp at he
  · split at he
    · rcases List.mem_append.mp he with he | he
      · exact Or.inr (Or.inl (validateParse_field _ _ e he))
      · exact Or.inr (Or.inl (validateCanonical_field _ _ e he))
    · simp at he

theorem validateVnetConfig_incomplete (vnet : VNet) (resourceGroup : Option ResourceGroup)
    (path : String) (h : vnet.Name.isSome ≠ vnet.ResourceGroup.isSome) :
    validateVnetConfig vnet resourceGroup path
      = [invalid path
          "specifying an existing vnet name require a vnet name and vnet resource group"]
        ++ (match vnet.CIDR with
          | some cidr =>
            validateParse (path ++ ".cidr") cidr ++ validateCanonical (path ++ ".cidr") cidr
          | none => []) := by
  unfold validateVnetConfig
  cases hn : vnet.Name <;> cases hr : vnet.ResourceGroup <;> simp [hn, hr] at h ⊢

/-- C8: when exactly one of the VNet name and the VNet resource group is set (with or
without a VNet CIDR), the errors `ValidateInfrastructureConfig` reports on `networks.vnet`
are exactly one, of type invalid, with the detail "specifying an existing vnet name require
a vnet name and vnet resource group", and the error "specifying a cidr for an existing vnet
is not possible" on `networks.vnet.cidr` is not reported. -/
theorem validate_partial_existing_vnet (infra : InfrastructureConfig)
    (nodesCIDR podsCIDR servicesCIDR : Option String)
    (h : infra.Networks.VNet.Name.isSome ≠ infra.Networks.VNet.ResourceGroup.isSome) :
    errorsOn "networks.vnet"
        (ValidateInfrastructureConfig infra nodesCIDR podsCIDR servicesCIDR none)
      = [invalid "networks.vnet"
          "specifying an existing vnet name require a vnet name and vnet resource group"]
    ∧ invalid "networks.vnet.cidr" "specifying a cidr for an existing vnet is not possible"
        ∉ ValidateInfrastructureConfig infra nodesCIDR podsCIDR servicesCIDR none := by
  have hw : ∀ l : List FieldError, (∀ e ∈ l, e.Field = "networks.workers") →
      errorsOn "networks.vnet" l = [] ∧ errorsOn "networks.vnet.cidr" l = [] := by
    intro l hl
    constructor <;>
    · apply errorsOn_eq_nil
      intro e he
      rw [hl e he]; decide
  have hnodes : ∀ e : FieldError, e ∈ (match nodesCIDR with
      | some nodes => validateSubset "networks.workers" infra.Networks.Workers "" nodes
      | none => []) → e.Field = "networks.workers" := by
    intro e he
    split at he
    · exact validateSubset_field _ _ _ _ e he
    · simp at he
  have hvnet : ∀ e : FieldError, e ∈ (match infra.Networks.VNet.CIDR with
      | some cidr =>
        validateSubset "networks.workers" infra.Networks.Workers "networks.vnet.cidr" cidr
      | none => []) → e.Field = "networks.workers" := by
    intro e he
    split at he
    · exact validateSubset_field _ _ _ _ e he
    · simp at he
  have hcidr : ∀ e : FieldError, e ∈ (match infra.Networks.VNet.CIDR with
      | some cidr =>
        validateParse ("networks.vnet" ++ ".cidr") cidr
          ++ validateCanonical ("networks.vnet" ++ ".cidr") cidr
      | none => []) →
      e.Field = "networks.vnet.cidr"
        ∧ e.Detail ≠ "specifying a cidr for an existing vnet is not possible" := by
    intro e he
    split at he
    · rcases List.mem_append.mp he with he | he
      · refine ⟨validateParse_field _ _ e he, ?_⟩
        rw [validateParse_detail _ _ e he]
        intro h
        have := congrArg String.data h
        simp [String.data_append] at this
      · refine ⟨validateCanonical_field _ _ e he, ?_⟩
        rw [validateCanonical_detail _ _ e he]
        decide
    · simp at he
  have hcn : errorsOn "networks.vnet" (match infra.Networks.VNet.CIDR with
      | some cidr =>
        validateParse ("networks.vnet" ++ ".cidr") cidr
          ++ validateCanonical ("networks.vnet" ++ ".cidr") cidr
      | none => []) = [] :=
    errorsOn_eq_nil _ _ (fun e he => by rw [(hcidr e he).1]; decide)
  have hv1 : errorsOn "networks.vnet"
      (validateVnetConfig infra.Networks.VNet infra.ResourceGroup "networks.vnet")
      = [invalid "networks.vnet"
          "specifying an existing vnet name require a vnet name and vnet resource group"] := by
    rw [validateVnetConfig_incomplete _ _ _ h, errorsOn_append, hcn]
    simp [errorsOn, invalid]
  constructor
  · rw [errorsOn_validate _ _ _ _ _ (by decide) (by decide) (by decide)
      (fun s => (natGateway_path_ne s).1), hv1,
      (hw _ (validateParse_field _ _)).1, (hw _ (validateCanonical_field _ _)).1,
      (hw _ hnodes).1, (hw _ hvnet).1]
    simp
  · intro hmem
    have hin : invalid "networks.vnet.cidr" "specifying a cidr for an existing vnet is not possible"
        ∈ errorsOn "networks.vnet.cidr"
          (ValidateInfrastructureConfig infra nodesCIDR podsCIDR servicesCIDR none) := by
      unfold errorsOn
      exact List.mem_filter.mpr ⟨hmem, by simp [invalid]⟩
    rw [errorsOn_validate _ _ _ _ _ (by decide) (by decide) (by decide)
      (fun s => (natGateway_path_ne s).2.1),
      validateVnetConfig_incomplete _ _ _ h,
      (hw _ (validateParse_field _ _)).2, (hw _ (validateCanonical_field _ _)).2,
      (hw _ hnodes).2, (hw _ hvnet).2, errorsOn_append] at hin
    simp only [List.append_nil, List.mem_append, mem_errorsOn] at hin
    rcases hin with hin | hin
    · simp [invalid] at hin
    · exact (hcidr _ hin.1).2 rfl

theorem validate_partial_existing_vnet_witness :
    ({ Name := none, ResourceGroup := some "existing-vnet-rg",
       CIDR := some "10.0.0.0/8" } : VNet).Name.isSome
      ≠ ({ Name := none, ResourceGroup := some "existing-vnet-rg",
           CIDR := some "10.0.0.0/8" } : VNet).ResourceGroup.isSome
    ∧ ValidateInfrastructureConfig
        { baseConfig with
          Networks := { baseConfig.Networks with
            VNet := { Name := none, ResourceGroup := some "existing-vnet-rg",
                      CIDR := some "10.0.0.0/8" } } }
        (some "10.250.0.0/16") (some "100.96.0.0/11") (some "100.64.0.0/13") none
      = [invalid "networks.vnet"
          "specifying an existing vnet name require a vnet name and vnet resource group"]
    ∧ errorsOn "networks.vnet"
        (ValidateInfrastructureConfig
          { baseConfig with
            Networks := { baseConfig.Networks with
              VNet := { Name := none, ResourceGroup := some "existing-vnet-rg",
                        CIDR := some "10.0.0.0/8" } } }
          (some "10.250.0.0/16") (some "100.96.0.0/11") (some "100.64.0.0/13") none)
      = [invalid "networks.vnet"
          "specifying an existing vnet name require a vnet name and vnet resource group"] :=
  ⟨by decide, by decide,
    (validate_partial_existing_vnet
      { baseConfig with
        Networks := { baseConfig.Networks with
          VNet := { Name := none, ResourceGroup := some "existing-vnet-rg",
                    CIDR := some "10.0.0.0/8" } } }
      (some "10.250.0.0/16") (some "100.96.0.0/11") (some "100.64.0.0/13") (by decide)).1⟩

/-! ### Containment of the workers block -/

theorem validateVnetConfig_managed (cidr : Option String) (resourceGroup : Option ResourceGroup)
    (path : String) :
    validateVnetConfig { Name := none, ResourceGroup := none, CIDR := cidr } resourceGroup path
      = match cidr with
        | some c => validateParse (path ++ ".cidr") c ++ validateCanonical (path ++ ".cidr") c
        | none => [] := by
  cases cidr <;> rfl

theorem validateSubset_parsed (field sub supPath sup : String) (a b : CIDR)
    (ha : ParseCIDR sub = some a) (hb : ParseCIDR sup = some b) :
    validateSubset field sub supPath sup
      = if a.subsetOf b then []
        else [invalid field ("must be a subset of \"" ++ supPath ++ "\" (\"" ++ sup ++ "\")")] := by
  unfold validateSubset
  rw [ha, hb]

theorem errorsOn_ite (field detail : String) (b : Bool) :
    errorsOn field (if b then [] else [invalid field detail])
      = if b then [] else [invalid field detail] := by
  cases b <;> simp [errorsOn, invalid]

/-- C9: for a managed VNet with a valid CIDR (canonical or not), a valid and canonical
workers CIDR and a valid nodes CIDR, the errors reported on `networks.workers` are exactly: the error
`must be a subset of "" ("<nodes>")` when the workers block is not contained in the nodes
block, followed by the error `must be a subset of "networks.vnet.cidr" ("<vnet>")` when it
is not contained in the VNet block; each appears exactly when its own containment fails, so
there are exactly two when both fail. -/
theorem validate_workers_containment (infra : InfrastructureConfig)
    (nodes vnetCIDR : String) (podsCIDR servicesCIDR : Option String) (w n v : CIDR)
    (hmanaged : infra.Networks.VNet
      = { Name := none, ResourceGroup := none, CIDR := some vnetCIDR })
    (hw : ParseCIDR infra.Networks.Workers = some w)
    (hwc : infra.Networks.Workers = w.normalized)
    (hv : ParseCIDR vnetCIDR = some v)
    (hn : ParseCIDR nodes = some n) :
    errorsOn "networks.workers"
        (ValidateInfrastructureConfig infra (some nodes) podsCIDR servicesCIDR none)
      = (if w.subsetOf n then []
          else [invalid "networks.workers" ("must be a subset of \"\" (\"" ++ nodes ++ "\")")])
        ++ (if w.subsetOf v then []
          else [invalid "networks.workers"
            ("must be a subset of \"networks.vnet.cidr\" (\"" ++ vnetCIDR ++ "\")")])
    ∧ (w.subsetOf n = false → w.subsetOf v = false →
        errorsOn "networks.workers"
            (ValidateInfrastructureConfig infra (some nodes) podsCIDR servicesCIDR none)
          = [invalid "networks.workers" ("must be a subset of \"\" (\"" ++ nodes ++ "\")"),
             invalid "networks.workers"
              ("must be a subset of \"networks.vnet.cidr\" (\"" ++ vnetCIDR ++ "\")")]) := by
  have hmain : errorsOn "networks.workers"
        (ValidateInfrastructureConfig infra (some nodes) podsCIDR servicesCIDR none)
      = (if w.subsetOf n then []
          else [invalid "networks.workers" ("must be a subset of \"\" (\"" ++ nodes ++ "\")")])
        ++ (if w.subsetOf v then []
          else [invalid "networks.workers"
            ("must be a subset of \"networks.vnet.cidr\" (\"" ++ vnetCIDR ++ "\")")]) := by
    have hvn : errorsOn "networks.workers"
        (validateVnetConfig infra.Networks.VNet infra.ResourceGroup "networks.vnet") = [] := by
      rw [hmanaged, validateVnetConfig_managed]
      apply errorsOn_eq_nil
      intro e he
      rcases List.mem_append.mp he with he | he
      · rw [validateParse_field _ _ e he]; decide
      · rw [validateCanonical_field _ _ e he]; decide
    have hcidr : infra.Networks.VNet.CIDR = some vnetCIDR := by rw [hmanaged]
    have hp : validateParse "networks.workers" infra.Networks.Workers = [] := by
      unfold validateParse; rw [hw]
    have hc : validateCanonical "networks.workers" infra.Networks.Workers = [] := by
      unfold validateCanonical; rw [hw]; simp [← hwc]
    rw [errorsOn_validate _ _ _ _ _ (by decide) (by decide) (by decide)
      (fun s => (natGateway_path_ne s).2.2), hvn, hp, hc, hcidr]
    simp only [validateSubset_parsed _ _ _ _ w n hw hn, validateSubset_parsed _ _ _ _ w v hw hv,
      errorsOn_ite]
    simp [errorsOn]
  refine ⟨hmain, fun h1 h2 => ?_⟩
  rw [hmain, h1, h2]
  rfl

theorem validate_workers_containment_witness :
    ({ baseConfig with
        Networks := { baseConfig.Networks with Workers := "1.1.1.1/32" } }
      : InfrastructureConfig).Networks.VNet
      = { Name := none, ResourceGroup := none, CIDR := some "10.0.0.0/8" }
    ∧ ParseCIDR "1.1.1.1/32" = some { ip := 16843009, bits := 32 }
    ∧ "1.1.1.1/32" = ({ ip := 16843009, bits := 32 } : CIDR).normalized
    ∧ ParseCIDR "10.0.0.0/8" = some { ip := 167772160, bits := 8 }
    ∧ ParseCIDR "10.250.0.0/16" = some { ip := 184156160, bits := 16 }
    ∧ errorsOn "networks.workers"
        (ValidateInfrastructureConfig
          { baseConfig with Networks := { baseConfig.Networks with Workers := "1.1.1.1/32" } }
          (some "10.250.0.0/16") (some "100.96.0.0/11") (some "100.64.0.0/13") none)
      = [invalid "networks.workers" "must be a subset of \"\" (\"10.250.0.0/16\")",
         invalid "networks.workers"
          "must be a subset of \"networks.vnet.cidr\" (\"10.0.0.0/8\")"] :=
  ⟨rfl, by decide, by decide, by decide, by decide,
    (validate_workers_containment
      { baseConfig with Networks := { baseConfig.Networks with Workers := "1.1.1.1/32" } }
      "10.250.0.0/16" "10.0.0.0/8" (some "100.96.0.0/11") (some "100.64.0.0/13")
      { ip := 16843009, bits := 32 } { ip := 184156160, bits := 16 }
      { ip := 167772160, bits := 8 } rfl (by decide) (by decide) (by decide) (by decide)).2
      (by decide) (by decide)⟩

/-! ### Canonical form -/

theorem subset_detail_ne (s : String) :
    "must be a subset of \"" ++ s ≠ "must be valid canonical CIDR" := by
  intro h
  have := congrArg String.data h
  simp [String.data_append] at this

theorem validateVnetConfig_not_workers (vnet : VNet) (resourceGroup : Option ResourceGroup) :
    errorsOn "networks.workers" (validateVnetConfig vnet resourceGroup "networks.vnet") = [] := by
  apply errorsOn_eq_nil
  intro e he
  rcases validateVnetConfig_fields _ _ _ e he with h | h | h <;> rw [h] <;> decide

theorem canonical_not_in_subset (field sub supPath sup : String) :
    invalid field "must be valid canonical CIDR" ∉ validateSubset field sub supPath sup := by
  intro he
  unfold validateSubset at he
  split at he
  · split at he
    · simp at he
    · simp only [List.mem_singleton, invalid, FieldError.mk.injEq, true_and] at he
      simp only [String.append_assoc] at he
      exact subset_detail_ne _ he.symm
  · simp at he

theorem validateCanonical_parsed (field value : String) (c : CIDR)
    (h : ParseCIDR value = some c) :
    invalid field "must be valid canonical CIDR" ∈ validateCanonical field value
      ↔ value ≠ c.normalized := by
  unfold validateCanonical
  rw [h]
  by_cases hc : value = c.normalized <;> simp [hc]

theorem workers_canonical_iff (infra : InfrastructureConfig)
    (nodesCIDR podsCIDR servicesCIDR : Option String) (w : CIDR)
    (hw : ParseCIDR infra.Networks.Workers = some w) :
    invalid "networks.workers" "must be valid canonical CIDR"
        ∈ ValidateInfrastructureConfig infra nodesCIDR podsCIDR servicesCIDR none
      ↔ infra.Networks.Workers ≠ w.normalized := by
  have hp : validateParse "networks.workers" infra.Networks.Workers = [] := by
    unfold validateParse; rw [hw]
  have key : invalid "networks.workers" "must be valid canonical CIDR"
        ∈ ValidateInfrastructureConfig infra nodesCIDR podsCIDR servicesCIDR none
      ↔ invalid "networks.workers" "must be valid canonical CIDR"
        ∈ errorsOn "networks.workers"
          (ValidateInfrastructureConfig infra nodesCIDR podsCIDR servicesCIDR none) := by
    rw [mem_errorsOn]; simp [invalid]
  rw [key, errorsOn_validate _ _ _ _ _ (by decide) (by decide) (by decide)
    (fun s => (natGateway_path_ne s).2.2), validateVnetConfig_not_workers, hp]
  simp only [List.mem_append, mem_errorsOn, List.not_mem_nil, false_and, false_or]
  constructor
  · rintro ((h | h) | h)
    · exact (validateCanonical_parsed _ _ w hw).mp h.1
    · exfalso
      cases nodesCIDR with
      | none => simp at h
      | some nodes => exact canonical_not_in_subset _ _ _ _ h.1
    · exfalso
      cases hc : infra.Networks.VNet.CIDR with
      | none => simp [hc] at h
      | some cidr =>
        simp only [hc] at h
        exact canonical_not_in_subset _ _ _ _ h.1
  · intro h
    exact Or.inl (Or.inl ⟨(validateCanonical_parsed _ _ w hw).mpr h, rfl⟩)

theorem validateVnetConfig_canonical (vnet : VNet) (resourceGroup : Option ResourceGroup)
    (path cidr : String) (v : CIDR) (hc : vnet.CIDR = some cidr)
    (hv : ParseCIDR cidr = some v) :
    invalid (path ++ ".cidr") "must be valid canonical CIDR"
        ∈ validateVnetConfig vnet resourceGroup path
      ↔ cidr ≠ v.normalized := by
  have hp : validateParse (path ++ ".cidr") cidr = [] := by
    unfold validateParse; rw [hv]
  unfold validateVnetConfig
  simp only [hc, hp, List.nil_append, List.mem_append]
  constructor
  · rintro (((h | h) | h) | h)
    · split at h
      · simp [invalid] at h
      · simp at h
    · split at h
      · simp [invalid] at h
      · simp at h
    · split at h
      · split at h
        · simp [invalid] at h
        · simp at h
      · simp at h
    · exact (validateCanonical_parsed _ _ v hv).mp h
  · intro h
    exact Or.inr ((validateCanonical_parsed _ _ v hv).mpr h)

theorem vnet_cidr_canonical_iff (infra : InfrastructureConfig)
    (nodesCIDR podsCIDR servicesCIDR : Option String) (cidr : String) (v : CIDR)
    (hc : infra.Networks.VNet.CIDR = some cidr)
    (hv : ParseCIDR cidr = some v) :
    invalid "networks.vnet.cidr" "must be valid canonical CIDR"
        ∈ ValidateInfrastructureConfig infra nodesCIDR podsCIDR servicesCIDR none
      ↔ cidr ≠ v.normalized := by
  have hw : ∀ l : List FieldError, (∀ e ∈ l, e.Field = "networks.workers") →
      errorsOn "networks.vnet.cidr" l = [] := by
    intro l hl
    apply errorsOn_eq_nil
    intro e he
    rw [hl e he]; decide
  have hnodes : ∀ e : FieldError, e ∈ (match nodesCIDR with
      | some nodes => validateSubset "networks.workers" infra.Networks.Workers "" nodes
      | none => []) → e.Field = "networks.workers" := by
    intro e he
    split at he
    · exact validateSubset_field _ _ _ _ e he
    · simp at he
  have hvnet : ∀ e : FieldError, e ∈ (match infra.Networks.VNet.CIDR with
      | some cidr =>
        validateSubset "networks.workers" infra.Networks.Workers "networks.vnet.cidr" cidr
      | none => []) → e.Field = "networks.workers" := by
    intro e he
    split at he
    · exact validateSubset_field _ _ _ _ e he
    · simp at he
  have hpath : "networks.vnet" ++ ".cidr" = "networks.vnet.cidr" := by decide
  have hcan := validateVnetConfig_canonical infra.Networks.VNet infra.ResourceGroup
    "networks.vnet" cidr v hc hv
  rw [hpath] at hcan
  have key : invalid "networks.vnet.cidr" "must be valid canonical CIDR"
        ∈ ValidateInfrastructureConfig infra nodesCIDR podsCIDR servicesCIDR none
      ↔ invalid "networks.vnet.cidr" "must be valid canonical CIDR"
        ∈ errorsOn "networks.vnet.cidr"
          (ValidateInfrastructureConfig infra nodesCIDR podsCIDR servicesCIDR none) := by
    rw [mem_errorsOn]; simp [invalid]
  rw [key, errorsOn_validate _ _ _ _ _ (by decide) (by decide) (by decide)
    (fun s => (natGateway_path_ne s).2.1),
    hw _ (validateParse_field _ _), hw _ (validateCanonical_field _ _), hw _ hnodes,
    hw _ hvnet]
  simp only [List.append_nil, mem_errorsOn]
  constructor
  · intro h
    exact hcan.mp h.1
  · intro h
    exact ⟨hcan.mpr h, rfl⟩

theorem only_canonical_errors (infra : InfrastructureConfig)
    (nodes pods services cidr : String) (w v n p s : CIDR)
    (hrg : infra.ResourceGroup = none) (hid : infra.Identity = none)
    (hnat : infra.Networks.NatGateway = none)
    (hmanaged : infra.Networks.VNet = { Name := none, ResourceGroup := none, CIDR := some cidr })
    (hw : ParseCIDR infra.Networks.Workers = some w) (hv : ParseCIDR cidr = some v)
    (hn : ParseCIDR nodes = some n) (hp : ParseCIDR pods = some p)
    (hs : ParseCIDR services = some s)
    (hwc : infra.Networks.Workers ≠ w.normalized) (hvc : cidr ≠ v.normalized)
    (hwn : w.subsetOf n = true) (hwv : w.subsetOf v = true)
    (hpv : p.subsetOf v = false) (hsv : s.subsetOf v = false) :
    ValidateInfrastructureConfig infra (some nodes) (some pods) (some services) none
      = [invalid "networks.vnet.cidr" "must be valid canonical CIDR",
         invalid "networks.workers" "must be valid canonical CIDR"] := by
  have h1 : child none "networks" ++ ".vnet" ++ ".cidr" = "networks.vnet.cidr" := by decide
  have h2 : child none "networks" ++ ".workers" = "networks.workers" := by decide
  have h3 : child none "networks" ++ ".vnet" = "networks.vnet" := by decide
  have h4 : "networks.vnet" ++ ".cidr" = "networks.vnet.cidr" := by decide
  unfold ValidateInfrastructureConfig
  simp only [hrg, hid, hnat, hmanaged, validateVnetConfig_managed, h1, h2, h3, h4,
    validateNatGatewayConfig, validateParse, validateCanonical, validateSubset,
    validateNotSubset, hw, hv, hn, hp, hs, hwn, hwv, hpv, hsv, hwc, hvc]
  simp

/-- C10: for a syntactically valid workers CIDR the error `must be valid canonical CIDR` is
reported on `networks.workers` exactly when the literal differs from its normalized form; for
a syntactically valid VNet CIDR, whatever the VNet, it is reported on `networks.vnet.cidr`
exactly when the literal differs from its normalized form; and a configuration without
resource group, identity and NAT gateway, with a managed VNet, whose workers and VNet CIDRs
are non-canonical and whose blocks are otherwise consistent, yields exactly these two
errors, whatever the form of the nodes, pods and services CIDRs. -/
theorem validate_canonical_form (infra : InfrastructureConfig)
    (nodesCIDR podsCIDR servicesCIDR : Option String) :
    (∀ w, ParseCIDR infra.Networks.Workers = some w →
      (invalid "networks.workers" "must be valid canonical CIDR"
          ∈ ValidateInfrastructureConfig infra nodesCIDR podsCIDR servicesCIDR none
        ↔ infra.Networks.Workers ≠ w.normalized))
    ∧ (∀ cidr v,
        infra.Networks.VNet.CIDR = some cidr →
        ParseCIDR cidr = some v →
        (invalid "networks.vnet.cidr" "must be valid canonical CIDR"
            ∈ ValidateInfrastructureConfig infra nodesCIDR podsCIDR servicesCIDR none
          ↔ cidr ≠ v.normalized))
    ∧ (∀ nodes pods services cidr w v n p s,
        nodesCIDR = some nodes → podsCIDR = some pods → servicesCIDR = some services →
        infra.ResourceGroup = none → infra.Identity = none →
        infra.Networks.NatGateway = none →
        infra.Networks.VNet = { Name := none, ResourceGroup := none, CIDR := some cidr } →
        ParseCIDR infra.Networks.Workers = some w → ParseCIDR cidr = some v →
        ParseCIDR nodes = some n → ParseCIDR pods = some p → ParseCIDR services = some s →
        infra.Networks.Workers ≠ w.normalized → cidr ≠ v.normalized →
        w.subsetOf n = true → w.subsetOf v = true →
        p.subsetOf v = false → s.subsetOf v = false →
        ValidateInfrastructureConfig infra nodesCIDR podsCIDR servicesCIDR none
          = [invalid "networks.vnet.cidr" "must be valid canonical CIDR",
             invalid "networks.workers" "must be valid canonical CIDR"]) := by
  refine ⟨fun w hw => workers_canonical_iff infra _ _ _ w hw,
    fun cidr v hc hv => vnet_cidr_canonical_iff infra _ _ _ cidr v hc hv, ?_⟩
  intro nodes pods services cidr w v n p s h1 h2 h3 hrg hid hnat hm hw hv hn hp hs hwc hvc
    hwn hwv hpv hsv
  subst h1 h2 h3
  exact only_canonical_errors infra nodes pods services cidr w v n p s hrg hid hnat hm hw hv
    hn hp hs hwc hvc hwn hwv hpv hsv

theorem validate_canonical_form_witness :
    ParseCIDR nonCanonicalConfig.Networks.Workers = some { ip := 184156936, bits := 24 }
    ∧ nonCanonicalConfig.Networks.Workers
        ≠ ({ ip := 184156936, bits := 24 } : CIDR).normalized
    ∧ invalid "networks.workers" "must be valid canonical CIDR"
        ∈ ValidateInfrastructureConfig nonCanonicalConfig (some "10.250.0.3/16")
            (some "100.96.0.4/11") (some "100.64.0.5/13") none
    ∧ ParseCIDR "10.0.0.3/8" = some { ip := 167772163, bits := 8 }
    ∧ "10.0.0.3/8" ≠ ({ ip := 167772163, bits := 8 } : CIDR).normalized
    ∧ ParseCIDR "10.0.0.0/8" = some { ip := 167772160, bits := 8 }
    ∧ "10.0.0.0/8" = ({ ip := 167772160, bits := 8 } : CIDR).normalized
    ∧ invalid "networks.vnet.cidr" "must be valid canonical CIDR"
        ∈ ValidateInfrastructureConfig nonCanonicalConfig (some "10.250.0.3/16")
            (some "100.96.0.4/11") (some "100.64.0.5/13") none
    ∧ invalid "networks.vnet.cidr" "must be valid canonical CIDR"
        ∈ ValidateInfrastructureConfig existingVnetConfig (some "10.250.0.0/16")
            (some "100.96.0.0/11") (some "100.64.0.0/13") none
    ∧ ValidateInfrastructureConfig existingVnetConfig (some "10.250.0.0/16")
          (some "100.96.0.0/11") (some "100.64.0.0/13") none
        = [invalid "networks.vnet.cidr"
            "specifying a cidr for an existing vnet is not possible",
           invalid "networks.vnet.cidr" "must be valid canonical CIDR"]
    ∧ ValidateInfrastructureConfig nonCanonicalConfig (some "10.250.0.3/16")
          (some "100.96.0.4/11") (some "100.64.0.5/13") none
        = [invalid "networks.vnet.cidr" "must be valid canonical CIDR",
           invalid "networks.workers" "must be valid canonical CIDR"] :=
  ⟨by decide, by decide,
    ((validate_canonical_form nonCanonicalConfig (some "10.250.0.3/16") (some "100.96.0.4/11")
      (some "100.64.0.5/13")).1 { ip := 184156936, bits := 24 } (by decide)).mpr (by decide),
    by decide, by decide, by decide, by decide,
    ((validate_canonical_form nonCanonicalConfig (some "10.250.0.3/16") (some "100.96.0.4/11")
      (some "100.64.0.5/13")).2.1 "10.0.0.3/8" { ip := 167772163, bits := 8 } rfl
      (by decide)).mpr (by decide),
    ((validate_canonical_form existingVnetConfig (some "10.250.0.0/16") (some "100.96.0.0/11")
      (some "100.64.0.0/13")).2.1 "10.0.0.3/8" { ip := 167772163, bits := 8 } rfl
      (by decide)).mpr (by decide),
    by decide,
    (validate_canonical_form nonCanonicalConfig (some "10.250.0.3/16") (some "100.96.0.4/11")
      (some "100.64.0.5/13")).2.2 "10.250.0.3/16" "100.96.0.4/11" "100.64.0.5/13" "10.0.0.3/8"
      { ip := 184156936, bits := 24 } { ip := 167772163, bits := 8 }
      { ip := 184156163, bits := 16 } { ip := 1684013060, bits := 11 }
      { ip := 1681915909, bits := 13 } rfl rfl rfl rfl rfl rfl rfl (by decide) (by decide)
      (by decide) (by decide) (by decide) (by decide) (by decide) (by decide) (by decide)
      (by decide) (by decide)⟩

/-! ### Pods and services against the VNet -/

theorem validateNotSubset_parsed (sub : Option String) (cidr : String) (v : CIDR)
    (hv : ParseCIDR cidr = some v) :
    validateNotSubset sub "networks.vnet.cidr" cidr = overlapErrors sub v cidr := by
  unfold validateNotSubset overlapErrors
  cases sub with
  | none => rfl
  | some s =>
    cases hs : ParseCIDR s with
    | none => simp only [hs]
    | some c =>
      simp only [hs, hv, overlapError]
      rfl

theorem overlapErrors_field (sub : Option String) (v : CIDR) (cidr : String) :
    ∀ e ∈ overlapErrors sub v cidr, e.Field = "" := by
  intro e he
  unfold overlapErrors at he
  split at he
  · simp at he
  · split at he
    · split at he
      · simp only [List.mem_singleton] at he
        subst he; rfl
      · simp at he
    · simp at he

theorem natGateway_path_ne_empty (s : String) : "networks.natGateway" ++ s ≠ "" := by
  intro h
  have := congrArg String.data h
  simp [String.data_append] at this

theorem validateVnetConfig_not_empty (vnet : VNet) (resourceGroup : Option ResourceGroup) :
    errorsOn "" (validateVnetConfig vnet resourceGroup "networks.vnet") = [] := by
  apply errorsOn_eq_nil
  intro e he
  rcases validateVnetConfig_fields _ _ _ e he with h | h | h <;> rw [h] <;> decide

/-- The errors on the empty field path are the overlap errors of pods and services. -/
theorem errorsOn_empty_path (infra : InfrastructureConfig)
    (nodesCIDR podsCIDR servicesCIDR : Option String) (cidr : String) (v : CIDR)
    (hc : infra.Networks.VNet.CIDR = some cidr) (hv : ParseCIDR cidr = some v) :
    errorsOn "" (ValidateInfrastructureConfig infra nodesCIDR podsCIDR servicesCIDR none)
      = overlapErrors podsCIDR v cidr ++ overlapErrors servicesCIDR v cidr := by
  have hw : ∀ l : List FieldError, (∀ e ∈ l, e.Field = "networks.workers") →
      errorsOn "" l = [] := by
    intro l hl
    apply errorsOn_eq_nil
    intro e he
    rw [hl e he]; decide
  have hrg : errorsOn "" (match infra.ResourceGroup with
      | some _ =>
        [invalid (child none "resourceGroup")
          "specifying an existing resource group is not supported for new configurations"]
      | none => []) = [] := by
    apply errorsOn_eq_nil
    intro e he
    split at he
    · simp only [List.mem_singleton] at he
      subst he; decide
    · simp at he
  have hid : errorsOn "" (match infra.Identity with
      | some identity =>
        if identity.Name = "" ∨ identity.ResourceGroup = "" then
          [invalid (child none "identity")
            "specifying an identity requires its name and its resource group"]
        else []
      | none => []) = [] := by
    apply errorsOn_eq_nil
    intro e he
    split at he
    · split at he
      · simp only [List.mem_singleton] at he
        subst he; decide
      · simp at he
    · simp at he
  have hnat : errorsOn "" (validateNatGatewayConfig infra.Networks.NatGateway infra.Zoned
      "networks.natGateway") = [] := by
    apply errorsOn_eq_nil
    intro e he
    obtain ⟨s, hs⟩ := validateNatGatewayConfig_field _ _ _ e he
    rw [hs]; exact natGateway_path_ne_empty s
  have hnodes : errorsOn "" (match nodesCIDR with
      | some nodes => validateSubset "networks.workers" infra.Networks.Workers "" nodes
      | none => []) = [] := by
    apply hw
    intro e he
    split at he
    · exact validateSubset_field _ _ _ _ e he
    · simp at he
  have hp : child none "networks" = "networks" := rfl
  have h1 : "networks" ++ ".workers" = "networks.workers" := by decide
  have h2 : "networks" ++ ".vnet" = "networks.vnet" := by decide
  have h3 : "networks.vnet" ++ ".cidr" = "networks.vnet.cidr" := by decide
  have h4 : "networks" ++ ".natGateway" = "networks.natGateway" := by decide
  unfold ValidateInfrastructureConfig
  simp only [hp, h1, h2, h3, h4, hc, errorsOn_append, hrg, hid, hnat, hnodes,
    validateVnetConfig_not_empty, hw _ (validateParse_field _ _),
    hw _ (validateCanonical_field _ _), hw _ (validateSubset_field _ _ _ _),
    validateNotSubset_parsed _ _ v hv, List.nil_append, List.append_nil]
  rw [errorsOn_eq_self _ _ (overlapErrors_field _ _ _),
    errorsOn_eq_self _ _ (overlapErrors_field _ _ _)]

theorem mem_overlapErrors (sub : Option String) (v : CIDR) (cidr : String) (e : FieldError) :
    e ∈ overlapErrors sub v cidr
      ↔ e = overlapError cidr
        ∧ ∃ s c, sub = some s ∧ ParseCIDR s = some c ∧ c.subsetOf v = true := by
  unfold overlapErrors
  cases sub with
  | none => simp
  | some s =>
    cases hs : ParseCIDR s with
    | none => simp [hs]
    | some c =>
      by_cases hsub : c.subsetOf v = true
      · simp [hs, hsub]
      · simp [hs, hsub]

/-- C11: with a VNet CIDR that is present and parses to the block `v`, the errors reported
on the empty field path are exactly the overlap errors of the pods CIDR and of the services
CIDR, each present exactly when that CIDR is provided, parses and lies inside `v`; the error
`must not be a subset of "networks.vnet.cidr" ("<vnetCIDR>")` (type invalid, empty field
path) is reported exactly when one of the two lies inside `v`. -/
theorem validate_pods_services_overlap (infra : InfrastructureConfig)
    (nodesCIDR podsCIDR servicesCIDR : Option String) (cidr : String) (v : CIDR)
    (hc : infra.Networks.VNet.CIDR = some cidr) (hv : ParseCIDR cidr = some v) :
    errorsOn "" (ValidateInfrastructureConfig infra nodesCIDR podsCIDR servicesCIDR none)
      = overlapErrors podsCIDR v cidr ++ overlapErrors servicesCIDR v cidr
    ∧ (({ Type_ := ErrorType.invalid, Field := "",
          Detail := "must not be a subset of \"networks.vnet.cidr\" (\"" ++ cidr ++ "\")" }
          : FieldError)
        ∈ ValidateInfrastructureConfig infra nodesCIDR podsCIDR servicesCIDR none
      ↔ (∃ pods p, podsCIDR = some pods ∧ ParseCIDR pods = some p ∧ p.subsetOf v = true)
        ∨ (∃ services s, servicesCIDR = some services ∧ ParseCIDR services = some s
            ∧ s.subsetOf v = true)) := by
  have hmain := errorsOn_empty_path infra nodesCIDR podsCIDR servicesCIDR cidr v hc hv
  refine ⟨hmain, ?_⟩
  have key : ∀ e : FieldError, e.Field = "" →
      (e ∈ ValidateInfrastructureConfig infra nodesCIDR podsCIDR servicesCIDR none
        ↔ e ∈ overlapErrors podsCIDR v cidr ++ overlapErrors servicesCIDR v cidr) := by
    intro e he
    rw [← hmain, mem_errorsOn]
    simp [he]
  rw [key _ rfl, List.mem_append, mem_overlapErrors, mem_overlapErrors]
  constructor
  · rintro (⟨-, h⟩ | ⟨-, h⟩)
    · exact Or.inl h
    · exact Or.inr h
  · rintro (h | h)
    · exact Or.inl ⟨rfl, h⟩
    · exact Or.inr ⟨rfl, h⟩

theorem validate_pods_services_overlap_witness :
    baseConfig.Networks.VNet.CIDR = some "10.0.0.0/8"
    ∧ ParseCIDR "10.0.0.0/8" = some { ip := 167772160, bits := 8 }
    ∧ errorsOn ""
        (ValidateInfrastructureConfig baseConfig (some "10.250.0.0/16") (some "10.0.0.1/32")
          (some "100.64.0.0/13") none)
      = [invalid "" "must not be a subset of \"networks.vnet.cidr\" (\"10.0.0.0/8\")"]
    ∧ ValidateInfrastructureConfig baseConfig (some "10.250.0.0/16") (some "10.0.0.1/32")
          (some "100.64.0.0/13") none
      = [invalid "" "must not be a subset of \"networks.vnet.cidr\" (\"10.0.0.0/8\")"] :=
  ⟨rfl, by decide,
    (validate_pods_services_overlap baseConfig (some "10.250.0.0/16") (some "10.0.0.1/32")
      (some "100.64.0.0/13") "10.0.0.0/8" { ip := 167772160, bits := 8 } rfl
      (by decide)).1.trans (by decide),
    by decide⟩

/-! ### Updates -/

theorem test_update_unchanged :
    ValidateInfrastructureConfigUpdate baseConfig baseConfig none = [] := by decide

theorem test_update_resource_group :
    (ValidateInfrastructureConfigUpdate baseConfig
      { baseConfig with ResourceGroup := some { Name := "" } } none).map
        (fun e => (e.Type_, e.Field)) = [(ErrorType.invalid, "resourceGroup")] := by decide

theorem test_update_network :
    (ValidateInfrastructureConfigUpdate baseConfig
      { baseConfig with
        Networks := { baseConfig.Networks with
          VNet := { Name := none, ResourceGroup := none, CIDR := some "1.2.3.4/5" } } }
      none).map (fun e => (e.Type_, e.Field)) = [(ErrorType.invalid, "networks.vnet")] := by
  decide

theorem test_update_zoned :
    (ValidateInfrastructureConfigUpdate { baseConfig with Zoned := true } baseConfig none).map
        (fun e => (e.Type_, e.Field)) = [(ErrorType.forbidden, "zoned")] := by decide

/-- C12: `ValidateInfrastructureConfigUpdate` returns the empty list exactly when the resource
group sections are equal, the VNet sections are equal and the update is not a move from
zoned to not zoned; an update of a configuration to itself is always accepted, and the
result is the same for any two new configurations that agree on these three fields. -/
theorem update_accepted_iff (oldConfig newConfig : InfrastructureConfig)
    (fldPath : Option String) :
    (ValidateInfrastructureConfigUpdate oldConfig newConfig fldPath = []
      ↔ oldConfig.ResourceGroup = newConfig.ResourceGroup
        ∧ oldConfig.Networks.VNet = newConfig.Networks.VNet
        ∧ ¬ (oldConfig.Zoned = true ∧ newConfig.Zoned = false))
    ∧ ValidateInfrastructureConfigUpdate oldConfig oldConfig fldPath = []
    ∧ (∀ other : InfrastructureConfig,
        other.ResourceGroup = newConfig.ResourceGroup →
        other.Networks.VNet = newConfig.Networks.VNet →
        other.Zoned = newConfig.Zoned →
        ValidateInfrastructureConfigUpdate oldConfig other fldPath
          = ValidateInfrastructureConfigUpdate oldConfig newConfig fldPath) := by
  refine ⟨?_, ?_, ?_⟩
  · unfold ValidateInfrastructureConfigUpdate
    by_cases h1 : oldConfig.ResourceGroup = newConfig.ResourceGroup <;>
    by_cases h2 : oldConfig.Networks.VNet = newConfig.Networks.VNet <;>
    by_cases h3 : oldConfig.Zoned = true ∧ newConfig.Zoned = false <;>
    simp [h1, h2, h3]
  · unfold ValidateInfrastructureConfigUpdate
    cases oldConfig.Zoned <;> simp
  · intro other h1 h2 h3
    unfold ValidateInfrastructureConfigUpdate
    rw [h1, h2, h3]

theorem update_accepted_iff_witness :
    ValidateInfrastructureConfigUpdate baseConfig otherFieldsChangedConfig none = []
    ∧ otherFieldsChangedConfig ≠ baseConfig
    ∧ ValidateInfrastructureConfigUpdate baseConfig baseConfig none = [] :=
  ⟨((update_accepted_iff baseConfig otherFieldsChangedConfig none).1).mpr
      ⟨rfl, rfl, by decide⟩,
    by decide,
    (update_accepted_iff baseConfig otherFieldsChangedConfig none).2.1⟩

theorem errorsOn_zoned_update (oldConfig newConfig : InfrastructureConfig) :
    errorsOn "zoned" (ValidateInfrastructureConfigUpdate oldConfig newConfig none)
      = if oldConfig.Zoned = true ∧ newConfig.Zoned = false then
          [forbidden "zoned" "moving a zoned cluster to a non-zoned cluster is not allowed"]
        else [] := by
  have h1 : child none "resourceGroup" ≠ "zoned" := by decide
  have h2 : child none "networks" ++ ".vnet" ≠ "zoned" := by decide
  have h3 : child none "zoned" = "zoned" := rfl
  unfold ValidateInfrastructureConfigUpdate
  by_cases hr : oldConfig.ResourceGroup = newConfig.ResourceGroup <;>
  by_cases hv : oldConfig.Networks.VNet = newConfig.Networks.VNet <;>
  by_cases hz : oldConfig.Zoned = true ∧ newConfig.Zoned = false <;>
  simp [errorsOn, invalid, forbidden, hr, hv, hz, h1, h2, h3]

/-- C13: when the old configuration is zoned and the new one is not, whatever else differs,
the errors of `ValidateInfrastructureConfigUpdate` on the field `zoned` are exactly one, of
type forbidden; when the old configuration is not zoned or the new one is zoned, there is
no error on `zoned`. -/
theorem update_zoned_transition (oldConfig newConfig : InfrastructureConfig) :
    (oldConfig.Zoned = true → newConfig.Zoned = false →
      ∃ e, errorsOn "zoned" (ValidateInfrastructureConfigUpdate oldConfig newConfig none) = [e]
        ∧ e.Type_ = ErrorType.forbidden ∧ e.Field = "zoned")
    ∧ (oldConfig.Zoned = false ∨ newConfig.Zoned = true →
        errorsOn "zoned" (ValidateInfrastructureConfigUpdate oldConfig newConfig none) = []) := by
  constructor
  · intro h1 h2
    refine ⟨forbidden "zoned" "moving a zoned cluster to a non-zoned cluster is not allowed",
      ?_, rfl, rfl⟩
    rw [errorsOn_zoned_update, if_pos ⟨h1, h2⟩]
  · intro h
    rw [errorsOn_zoned_update, if_neg]
    rintro ⟨h1, h2⟩
    rcases h with h | h
    · rw [h] at h1; exact absurd h1 (by decide)
    · rw [h] at h2; exact absurd h2 (by decide)

theorem update_zoned_transition_witness :
    ({ otherFieldsChangedConfig with Zoned := true } : InfrastructureConfig).Zoned = true
    ∧ baseConfig.Zoned = false
    ∧ (ValidateInfrastructureConfigUpdate { otherFieldsChangedConfig with Zoned := true }
        baseConfig none).map (fun e => (e.Type_, e.Field)) = [(ErrorType.forbidden, "zoned")]
    ∧ ∃ e, errorsOn "zoned"
          (ValidateInfrastructureConfigUpdate { otherFieldsChangedConfig with Zoned := true }
            baseConfig none) = [e]
        ∧ e.Type_ = ErrorType.forbidden ∧ e.Field = "zoned" :=
  ⟨rfl, rfl, by decide,
    (update_zoned_transition { otherFieldsChangedConfig with Zoned := true } baseConfig).1
      rfl rfl⟩

/-! ### NAT gateway -/

theorem startsWith_append (path rest : List Char) : startsWith path (path ++ rest) = true := by
  induction path with
  | nil => rfl
  | cons a path ih => simp [startsWith, ih]

theorem natGatewayErrors_append (l₁ l₂ : List FieldError) :
    natGatewayErrors (l₁ ++ l₂) = natGatewayErrors l₁ ++ natGatewayErrors l₂ := by
  simp [natGatewayErrors]

theorem natGatewayErrors_eq_nil (l : List FieldError)
    (h : ∀ e ∈ l, startsWith "networks.natGateway".data e.Field.data = false) :
    natGatewayErrors l = [] := by
  unfold natGatewayErrors
  rw [List.filter_eq_nil_iff]
  intro e he
  simp [h e he]

theorem natGatewayErrors_eq_self (l : List FieldError)
    (h : ∀ e ∈ l, ∃ s, e.Field = "networks.natGateway" ++ s) : natGatewayErrors l = l := by
  unfold natGatewayErrors
  rw [List.filter_eq_self]
  intro e he
  obtain ⟨s, hs⟩ := h e he
  rw [hs, String.data_append]
  exact startsWith_append _ _

theorem validateVnetConfig_field (vnet : VNet) (resourceGroup : Option ResourceGroup) :
    ∀ e ∈ validateVnetConfig vnet resourceGroup "networks.vnet",
      e.Field = "networks.vnet" ∨ e.Field = "networks.vnet.cidr"
        ∨ e.Field = "networks.vnet.resourceGroup" := by
  intro e he
  rcases validateVnetConfig_fields _ _ _ e he with h | h | h
  · exact Or.inl h
  · exact Or.inr (Or.inl (h.trans (by decide)))
  · exact Or.inr (Or.inr (h.trans (by decide)))

theorem natGatewayErrors_validate (infra : InfrastructureConfig)
    (nodesCIDR podsCIDR servicesCIDR : Option String) :
    natGatewayErrors (ValidateInfrastructureConfig infra nodesCIDR podsCIDR servicesCIDR none)
      = validateNatGatewayConfig infra.Networks.NatGateway infra.Zoned
          "networks.natGateway" := by
  have hw : ∀ l : List FieldError, (∀ e ∈ l, e.Field = "networks.workers") →
      natGatewayErrors l = [] := by
    intro l hl
    apply natGatewayErrors_eq_nil
    intro e he
    rw [hl e he]; decide
  have he : ∀ l : List FieldError, (∀ e ∈ l, e.Field = "") → natGatewayErrors l = [] := by
    intro l hl
    apply natGatewayErrors_eq_nil
    intro e he
    rw [hl e he]; decide
  have hrg : natGatewayErrors (match infra.ResourceGroup with
      | some _ =>
        [invalid (child none "resourceGroup")
          "specifying an existing resource group is not supported for new configurations"]
      | none => []) = [] := by
    apply natGatewayErrors_eq_nil
    intro e he
    split at he
    · simp only [List.mem_singleton] at he
      subst he; decide
    · simp at he
  have hid : natGatewayErrors (match infra.Identity with
      | some identity =>
        if identity.Name = "" ∨ identity.ResourceGroup = "" then
          [invalid (child none "identity")
            "specifying an identity requires its name and its resource group"]
        else []
      | none => []) = [] := by
    apply natGatewayErrors_eq_nil
    intro e he
    split at he
    · split at he
      · simp only [List.mem_singleton] at he
        subst he; decide
      · simp at he
    · simp at he
  have hvnet : natGatewayErrors
      (validateVnetConfig infra.Networks.VNet infra.ResourceGroup "networks.vnet") = [] := by
    apply natGatewayErrors_eq_nil
    intro e he
    rcases validateVnetConfig_field _ _ e he with h | h | h <;> rw [h] <;> decide
  have hnodes : natGatewayErrors (match nodesCIDR with
      | some nodes => validateSubset "networks.workers" infra.Networks.Workers "" nodes
      | none => []) = [] := by
    apply hw
    intro e he
    split at he
    · exact validateSubset_field _ _ _ _ e he
    · simp at he
  have hcidr : natGatewayErrors (match infra.Networks.VNet.CIDR with
      | some cidr =>
        validateSubset "networks.workers" infra.Networks.Workers "networks.vnet.cidr" cidr
          ++ validateNotSubset podsCIDR "networks.vnet.cidr" cidr
          ++ validateNotSubset servicesCIDR "networks.vnet.cidr" cidr
      | none => []) = [] := by
    cases infra.Networks.VNet.CIDR with
    | none => rfl
    | some cidr =>
      simp only [natGatewayErrors_append, hw _ (validateSubset_field _ _ _ _),
        he _ (validateNotSubset_field _ _ _), List.append_nil]
  have hp : child none "networks" = "networks" := rfl
  have h1 : "networks" ++ ".workers" = "networks.workers" := by decide
  have h2 : "networks" ++ ".vnet" = "networks.vnet" := by decide
  have h3 : "networks.vnet" ++ ".cidr" = "networks.vnet.cidr" := by decide
  have h4 : "networks" ++ ".natGateway" = "networks.natGateway" := by decide
  unfold ValidateInfrastructureConfig
  simp only [hp, h1, h2, h3, h4, natGatewayErrors_append, hrg, hid, hvnet, hnodes, hcidr,
    hw _ (validateParse_field _ _), hw _ (validateCanonical_field _ _), List.nil_append]
  exact natGatewayErrors_eq_self _ (validateNatGatewayConfig_field _ _ _)

/-- C14: the errors of `ValidateInfrastructureConfig` under `networks.natGateway` are none
for a nil NAT gateway and, for a NAT gateway `nat`, exactly and in this order: the "only
supported for zoned cluster" error iff the configuration is not zoned; the "not enabled
but ip addresses or ip ranges are specified" error iff `nat` is disabled and lists an
address or a range; then for each address and then for each range, entry `i` at
`…ipAddresses[i]` / `…ipAddressRanges[i]`: "name must be set" iff its name is empty,
followed by "resourceGroup must be set" iff its resource group is empty. -/
theorem validate_nat_gateway (infra : InfrastructureConfig)
    (nodesCIDR podsCIDR servicesCIDR : Option String) :
    (infra.Networks.NatGateway = none →
      natGatewayErrors
        (ValidateInfrastructureConfig infra nodesCIDR podsCIDR servicesCIDR none) = [])
    ∧ (∀ nat, infra.Networks.NatGateway = some nat →
      natGatewayErrors
          (ValidateInfrastructureConfig infra nodesCIDR podsCIDR servicesCIDR none)
        = (if infra.Zoned = false then
            [invalid "networks.natGateway"
              "NatGateway is currently only supported for zoned cluster"]
          else [])
          ++ (if nat.Enabled = false ∧ (nat.IPAddresses ≠ [] ∨ nat.IPAddressRanges ≠ []) then
            [invalid "networks.natGateway"
              "NatGateway is not enabled but ip addresses or ip ranges are specified"]
          else [])
          ++ nat.IPAddresses.enum.flatMap (fun ir =>
              (if ir.2.Name = "" then
                [invalid ("networks.natGateway.ipAddresses[" ++ toString ir.1 ++ "]")
                  "name must be set"] else [])
              ++ (if ir.2.ResourceGroup = "" then
                [invalid ("networks.natGateway.ipAddresses[" ++ toString ir.1 ++ "]")
                  "resourceGroup must be set"] else []))
          ++ nat.IPAddressRanges.enum.flatMap (fun ir =>
              (if ir.2.Name = "" then
                [invalid ("networks.natGateway.ipAddressRanges[" ++ toString ir.1 ++ "]")
                  "name must be set"] else [])
              ++ (if ir.2.ResourceGroup = "" then
                [invalid ("networks.natGateway.ipAddressRanges[" ++ toString ir.1 ++ "]")
                  "resourceGroup must be set"] else []))) := by
  have h1 : "networks.natGateway" ++ ".ipAddresses" = "networks.natGateway.ipAddresses" := by
    decide
  have h2 : "networks.natGateway" ++ ".ipAddressRanges"
      = "networks.natGateway.ipAddressRanges" := by decide
  have h3 : "networks.natGateway.ipAddresses" ++ "[" = "networks.natGateway.ipAddresses[" := by
    decide
  have h4 : "networks.natGateway.ipAddressRanges" ++ "["
      = "networks.natGateway.ipAddressRanges[" := by decide
  refine ⟨fun hnil => ?_, fun nat hnat => ?_⟩
  · rw [natGatewayErrors_validate, hnil]; rfl
  · rw [natGatewayErrors_validate, hnat]
    simp only [validateNatGatewayConfig, validateResourceReferences, validateResourceReference,
      h1, h2, h3, h4]

theorem validate_nat_gateway_witness :
    (natGatewayConfig false).Networks.NatGateway
        = some { Enabled := false
                 IPAddresses := [{ Name := "test-ip", ResourceGroup := "" }]
                 IPAddressRanges := [{ Name := "", ResourceGroup := "" }] }
    ∧ natGatewayErrors
        (ValidateInfrastructureConfig (natGatewayConfig false) (some "10.250.0.0/16")
          (some "100.96.0.0/11") (some "100.64.0.0/13") none)
      = [invalid "networks.natGateway"
          "NatGateway is currently only supported for zoned cluster",
         invalid "networks.natGateway"
          "NatGateway is not enabled but ip addresses or ip ranges are specified",
         invalid "networks.natGateway.ipAddresses[0]" "resourceGroup must be set",
         invalid "networks.natGateway.ipAddressRanges[0]" "name must be set",
         invalid "networks.natGateway.ipAddressRanges[0]" "resourceGroup must be set"] :=
  ⟨rfl,
    ((validate_nat_gateway (natGatewayConfig false) (some "10.250.0.0/16")
      (some "100.96.0.0/11") (some "100.64.0.0/13")).2 _ rfl).trans (by decide)⟩

end Validation

end AzureWorker
